import Mathlib

/-! TimeStrike: the game state machine of `main.c`

A shallow embedding of the reaction-time game (reflex mode and timing mode)
and the properties of its state machine.

Conventions of the embedding

* The global variables of `main.c` are the fields of `Globals`; every handler
  of the main loop is a function from `Globals` (and the values it samples
  from the hardware) to `Globals`.
* `uint32_t` values are natural numbers below `2^32`; a clock reading is
  reduced modulo `2^32` when it is taken (`millis`) and the unsigned
  subtraction of two readings is `sub32`.
* `float` and `double` are the 32-bit floats of the AVR target; a float is the
  rational number it stands for and every float operation is the exact
  operation followed by `f32`, the rounding to the nearest 32-bit float (ties
  to even).  No value of the program reaches `2^128`, so overflow to infinity
  is not modelled.  The two comparisons of `handle_signal` are written on the
  exact values; `reflex_comparisons_exact` shows that the comparisons of the
  rounded floats give the same results.
* The arrays of four cells (`playerTimes`, `playerPressed`, the four LEDs)
  are maps from the cell index; the program only has cells `0..3`.
* What a handler samples is passed in: `pins i` is what `digital_read_btn(i)`
  returns when the handler reads button `i`, clock arguments are what
  `millis()` returns at that call.  Text on the LCD, tones and blocking
  delays are not part of the state.
* The text `lcd_print_float` sends to the LCD and the frequency of the tone of
  `show_timing_result` are functions of their own (`lcd_print_float`,
  `tone_frequency`); a conversion of a float to `int` or `uint16_t` whose
  integral part does not fit is undefined and gives `none`.
-/

namespace TimeStrike

/-! ## Data model -/

inductive GameMode where
  | MODE_REFLEX
  | MODE_TIMING
  deriving DecidableEq, Repr

inductive ReflexMode where
  | SINGLE_PLAYER
  | MULTIPLAYER
  deriving DecidableEq, Repr

inductive GameState where
  | MENU
  | SELECT_REFLEX_MODE
  | SELECT_DIFFICULTY
  | WAIT_SIGNAL
  | SHOW_SIGNAL
  | RESULT
  | SELECT_TIMING_PLAYERS
  | WAIT_TARGET
  | TARGET_RESULT
  deriving DecidableEq, Repr

/-- The global variables of `main.c` (lines 50-80 and 110), with the four LED
output bits. -/
structure Globals where
  state : GameState
  mode : GameMode
  reflexMode : ReflexMode
  selectedDifficulty : Int
  reflexTimeLimit : ℚ
  reflexSignalStartTime : Nat
  reflexReactionTime : Nat
  reflexButtonPressed : Int
  winnerPlayer : Int
  cheaterPlayer : Int
  signalGiven : Nat
  hasCheated : Nat
  hasWon : Nat
  timingStartTime : Nat
  timingReactionTime : Nat
  timingButtonPressed : Int
  selectedTimingPlayers : Int
  playerTimes : Nat → Nat
  playerPressed : Nat → Nat
  playersFinished : Int
  bestPlayer : Int
  bestDifference : ℚ
  lfsr : Nat
  led : Nat → Bool

/-- The table `difficultyLimits[4] = {0.400, 0.250, 0.160, 0.130}`: the decimal
values of the initialisers (the floats stored are their roundings `f32`). -/
def difficultyLimits : List ℚ := [400 / 1000, 250 / 1000, 160 / 1000, 130 / 1000]

/-- The constant `targetTime = 11.0`. -/
def targetTime : ℚ := 11

/-- The state of the globals when the main loop starts: the static
initialisers, all LEDs off (`gpio_init`) and `lfsr = 12345` (`main`). -/
def initial : Globals where
  state := GameState.MENU
  mode := GameMode.MODE_REFLEX
  reflexMode := ReflexMode.SINGLE_PLAYER
  selectedDifficulty := 0
  reflexTimeLimit := 0
  reflexSignalStartTime := 0
  reflexReactionTime := 0
  reflexButtonPressed := -1
  winnerPlayer := -1
  cheaterPlayer := -1
  signalGiven := 0
  hasCheated := 0
  hasWon := 0
  timingStartTime := 0
  timingReactionTime := 0
  timingButtonPressed := -1
  selectedTimingPlayers := 1
  playerTimes := fun _ => 0
  playerPressed := fun _ => 0
  playersFinished := 0
  bestPlayer := -1
  bestDifference := 999
  lfsr := 12345
  led := fun _ => false

/-! ## Clock, random generator, buttons and LEDs -/

/-- The value `millis()` returns when the 32-bit counter stands at `c`. -/
def millis (c : Nat) : Nat := c % 4294967296

/-- Unsigned 32-bit subtraction `a - b`. -/
def sub32 (a b : Nat) : Nat := (a % 4294967296 + (4294967296 - b % 4294967296)) % 4294967296

/-- Unsigned 32-bit negation `-a`. -/
def neg32 (a : Nat) : Nat := (4294967296 - a % 4294967296) % 4294967296

/-- The step of the generator in `random_range`:
`lfsr = (lfsr >> 1) ^ (-(lfsr & 1u) & 0xB400u)`. -/
def lfsr_next (lfsr : Nat) : Nat :=
  ((lfsr >>> 1) ^^^ (neg32 (lfsr &&& 1) &&& 0xB400)) % 4294967296

/-- The value returned by `random_range(min, max)` once the generator has been
advanced to `lfsr`: `min + (lfsr % (max - min))` with `max - min` in 16 bits,
the sum in 32 bits, truncated to `uint16_t`. -/
def random_value (lfsr min max : Nat) : Nat :=
  ((min + lfsr % ((max + (65536 - min % 65536)) % 65536)) % 4294967296) % 65536

/-- The function `random_range`: the new generator state and the value returned. -/
def random_range (lfsr min max : Nat) : Nat × Nat :=
  (lfsr_next lfsr, random_value (lfsr_next lfsr) min max)

/-- The function `digital_read_btn`: the level of button `btn` for `0..3`,
and `0` for any other argument. -/
def digital_read_btn (pins : Nat → Bool) (btn : Nat) : Bool :=
  if btn < 4 then pins btn else false

/-- The function `digital_write_led`: sets LED `0..3`, does nothing for any
other argument. -/
def digital_write_led (s : Globals) (led : Int) (st : Bool) : Globals :=
  { s with led := if 0 ≤ led ∧ led < 4 then Function.update s.led led.toNat st else s.led }

/-- The loop `for (i = 0; i < 4; i++) if (digital_read_btn(i)) { ...; break/return }`
acts on the first index whose button is read pressed. -/
def first_pressed (pins : Nat → Bool) : Option Nat :=
  (List.range 4).find? (fun i => digital_read_btn pins i)

/-! ## 32-bit floats -/

/-- The integer nearest to `x`; when `x` is halfway between two integers, the
even one. -/
def round_even (x : ℚ) : Int :=
  if x - ⌊x⌋ < 1 / 2 then ⌊x⌋
  else if 1 / 2 < x - ⌊x⌋ then ⌊x⌋ + 1
  else if ⌊x⌋ % 2 = 0 then ⌊x⌋ else ⌊x⌋ + 1

/-- The search of the exponent of a magnitude `a`: from `e` upwards for as
long as `2^(e+1) <= a`, at most `n` steps. -/
def binade_from : Nat → Int → ℚ → Int
  | 0, e, _ => e
  | n + 1, e, a => if (2 : ℚ) ^ (e + 1) ≤ a then binade_from n (e + 1) a else e

/-- The exponent of a magnitude `a` as a 32-bit float: the largest `e <= 127`
with `2^e <= a`, and `-126` for the magnitudes below `2^-126` (subnormal
floats and zero). -/
def binade (a : ℚ) : Int := binade_from 253 (-126) a

/-- The rounding of a magnitude `a` to 24 significant bits: the nearest multiple
of `2^(binade a - 23)`, ties to even. -/
def round_magnitude (a : ℚ) : ℚ := round_even (a / 2 ^ (binade a - 23)) * 2 ^ (binade a - 23)

/-- The 32-bit float nearest to `q` (sign and magnitude, round to nearest, ties
to even): the result of a float operation whose exact result is `q`. -/
def f32 (q : ℚ) : ℚ := if q < 0 then -round_magnitude (-q) else round_magnitude q

/-- The float `t / 1000.0` of a `uint32_t` number `t` of milliseconds: `t` is
converted to a float and divided by the float 1000. -/
def time_in_sec (t : Nat) : ℚ := f32 (f32 (t : ℚ) / 1000)

/-! ## Handlers of the main loop -/

/-- The handler `handle_menu`. -/
def handle_menu (s : Globals) (pins : Nat → Bool) : Globals :=
  let s1 : Globals :=
    if digital_read_btn pins 0 = true then
      { s with mode := if s.mode = GameMode.MODE_REFLEX then GameMode.MODE_TIMING
                       else GameMode.MODE_REFLEX }
    else s
  if digital_read_btn pins 1 = true then
    if s1.mode = GameMode.MODE_REFLEX then { s1 with state := GameState.SELECT_REFLEX_MODE }
    else { s1 with state := GameState.SELECT_TIMING_PLAYERS }
  else s1

/-- The handler `select_reflex_mode`. -/
def select_reflex_mode (s : Globals) (pins : Nat → Bool) : Globals :=
  let s1 : Globals :=
    if digital_read_btn pins 0 = true then
      { s with reflexMode := if s.reflexMode = ReflexMode.SINGLE_PLAYER then ReflexMode.MULTIPLAYER
                             else ReflexMode.SINGLE_PLAYER }
    else s
  if digital_read_btn pins 1 = true then
    if s1.reflexMode = ReflexMode.SINGLE_PLAYER then { s1 with state := GameState.SELECT_DIFFICULTY }
    else { s1 with reflexTimeLimit := 0, state := GameState.WAIT_SIGNAL }
  else s1

/-- The handler `select_timing_players`; `now` is the reading of `millis()`
stored in `timingStartTime`. The operator `%` of C truncates: `Int.tmod`. -/
def select_timing_players (s : Globals) (pins : Nat → Bool) (now : Nat) : Globals :=
  let s1 : Globals :=
    if digital_read_btn pins 0 = true then
      { s with selectedTimingPlayers := Int.tmod s.selectedTimingPlayers 4 + 1 }
    else s
  if digital_read_btn pins 1 = true then
    { s1 with
      playerTimes := fun _ => 0
      playerPressed := fun _ => 0
      playersFinished := 0
      bestPlayer := -1
      bestDifference := 999
      timingStartTime := millis now
      state := GameState.WAIT_TARGET }
  else s1

/-- The handler `select_difficulty`. The operator `%` of C truncates: `Int.tmod`. -/
def select_difficulty (s : Globals) (pins : Nat → Bool) : Globals :=
  let s1 : Globals :=
    if digital_read_btn pins 0 = true then
      { s with selectedDifficulty := Int.tmod (s.selectedDifficulty + 1) 4 }
    else s
  if digital_read_btn pins 1 = true then
    { s1 with
      reflexTimeLimit := difficultyLimits.getD s1.selectedDifficulty.toNat 0
      state := GameState.WAIT_SIGNAL }
  else s1

/-- One iteration of the busy loop of `wait_signal`: the clock reading of the
loop condition and the button levels read by the inner loop. -/
structure Poll where
  clock : Nat
  pins : Nat → Bool

/-- The loop `while (millis() - start < waitTime)` of `wait_signal` and the code
after it, run on the successive polls; `none` when the polls are used up
while the loop is still running. `tSignal` is the reading stored in
`reflexSignalStartTime`. -/
def wait_signal_loop (start waitTime tSignal : Nat) (s : Globals) : List Poll → Option Globals
  | [] => none
  | p :: rest =>
    if sub32 (millis p.clock) start < waitTime then
      match first_pressed p.pins with
      | some i =>
        some { s with cheaterPlayer := (i : Int), hasCheated := 1, state := GameState.RESULT }
      | none => wait_signal_loop start waitTime tSignal s rest
    else
      some { s with signalGiven := 1
                    reflexSignalStartTime := millis tSignal
                    state := GameState.SHOW_SIGNAL }

/-- The handler `wait_signal`; `tStart` is the reading stored in `start`. -/
def wait_signal (s : Globals) (tStart : Nat) (polls : List Poll) (tSignal : Nat) :
    Option Globals :=
  let r := random_range s.lfsr 2000 5000
  let s1 : Globals :=
    { s with lfsr := r.1, signalGiven := 0, hasCheated := 0, cheaterPlayer := -1,
             winnerPlayer := -1, hasWon := 0 }
  wait_signal_loop (millis tStart) r.2 tSignal s1 polls

/-- The handler `handle_signal`; `tPress` is the reading of `millis()` taken
inside the button loop, `tCheck` the one of the timeout test after it. -/
def handle_signal (s : Globals) (pins : Nat → Bool) (tPress tCheck : Nat) : Globals :=
  let s1 : Globals :=
    match first_pressed pins with
    | some i =>
      let a : Globals :=
        { s with reflexReactionTime := sub32 (millis tPress) s.reflexSignalStartTime
                 winnerPlayer := (i : Int) }
      let b : Globals := digital_write_led a (i : Int) true
      let c : Globals :=
        if b.reflexMode = ReflexMode.SINGLE_PLAYER ∧ b.reflexTimeLimit > 0 then
          let reactionTimeInSec : ℚ := (b.reflexReactionTime : ℚ) / 1000
          { b with hasWon := if reactionTimeInSec ≤ b.reflexTimeLimit then 1 else 0 }
        else b
      { c with state := GameState.RESULT }
    | none => s
  if s1.reflexMode = ReflexMode.SINGLE_PLAYER ∧ s1.reflexTimeLimit > 0 then
    if ((sub32 (millis tCheck) s1.reflexSignalStartTime : Nat) : ℚ) > s1.reflexTimeLimit * 1000 then
      { s1 with state := GameState.RESULT }
    else s1
  else s1

/-- The handler `show_reflex_result`: the LED writes of the branch taken, then
the assignments at the end. -/
def show_reflex_result (s : Globals) : Globals :=
  let s1 : Globals :=
    if s.hasCheated ≠ 0 then
      (List.range 3).foldl
        (fun g _ => digital_write_led (digital_write_led g g.cheaterPlayer true) g.cheaterPlayer false) s
    else if s.winnerPlayer ≠ -1 then digital_write_led s s.winnerPlayer false
    else s
  { s1 with hasCheated := 0, signalGiven := 0, reflexButtonPressed := -1, hasWon := 0,
            state := GameState.MENU }

/-- The float `fabs(t / 1000.0 - targetTime)` that `wait_target` and
`show_timing_result` compute from a time of `t` milliseconds: the float
division, then the float subtraction, then the absolute value. -/
def difference (t : Nat) : ℚ := |f32 (time_in_sec t - targetTime)|

/-- The difference `|t/1000 - 11.0|` of a time of `t` milliseconds to the target
in exact arithmetic. -/
def difference_exact (t : Nat) : ℚ := |(t : ℚ) / 1000 - targetTime|

/-- The body of `if (digital_read_btn(i) && !playerPressed[i])` in the
multiplayer loop of `wait_target`, up to the update of the best player. -/
def record_press (s : Globals) (i : Nat) (now : Nat) : Globals :=
  let a : Globals :=
    { s with playerTimes := Function.update s.playerTimes i (sub32 (millis now) s.timingStartTime)
             playerPressed := Function.update s.playerPressed i 1 }
  let b : Globals := digital_write_led a (i : Int) true
  let c : Globals := { b with playersFinished := b.playersFinished + 1 }
  if difference (c.playerTimes i) < c.bestDifference then
    { c with bestDifference := difference (c.playerTimes i), bestPlayer := (i : Int) }
  else c

/-- The multiplayer loop of `wait_target` over the remaining indices; `clk i`
is the reading of `millis()` taken when player `i` is recorded. -/
def wait_target_loop (pins : Nat → Bool) (clk : Nat → Nat) : List Nat → Globals → Globals
  | [], s => s
  | i :: rest, s =>
    if digital_read_btn pins i = true ∧ s.playerPressed i = 0 then
      let s1 : Globals := record_press s i (clk i)
      if s1.playersFinished ≥ s1.selectedTimingPlayers then
        { s1 with state := GameState.TARGET_RESULT }
      else wait_target_loop pins clk rest s1
    else wait_target_loop pins clk rest s

/-- The handler `wait_target`; `clk i` is the reading of `millis()` taken when
the press of button `i` is handled. -/
def wait_target (s : Globals) (pins : Nat → Bool) (clk : Nat → Nat) : Globals :=
  if s.selectedTimingPlayers = 1 then
    match first_pressed pins with
    | some i =>
      let a : Globals :=
        { s with timingReactionTime := sub32 (millis (clk i)) s.timingStartTime
                 timingButtonPressed := (i : Int) }
      { digital_write_led a (i : Int) true with state := GameState.TARGET_RESULT }
    | none => s
  else
    wait_target_loop pins clk (List.range s.selectedTimingPlayers.toNat) s

/-- The handler `show_timing_result`: the LED writes of the branch taken, then
`state = MENU`. -/
def show_timing_result (s : Globals) : Globals :=
  let s1 : Globals :=
    if s.selectedTimingPlayers = 1 then digital_write_led s s.timingButtonPressed false
    else (List.range s.selectedTimingPlayers.toNat).foldl
      (fun g (i : Nat) => digital_write_led g (i : Int) false) s
  { s1 with state := GameState.MENU }

/-- A read `a[i]` of an array of four cells: `none` when the index is outside
`0..3`. -/
def array_read (a : Nat → Nat) (i : Int) : Option Nat :=
  if 0 ≤ i ∧ i < 4 then some (a i.toNat) else none

/-- The time in milliseconds that `show_timing_result` renders: the value
`timingReactionTime` in the single-player branch and the array read
`playerTimes[bestPlayer]` in the multiplayer branch. -/
def show_timing_result_time (s : Globals) : Option Nat :=
  if s.selectedTimingPlayers = 1 then some s.timingReactionTime
  else array_read s.playerTimes s.bestPlayer

/-! ## The main loop -/

/-- What one run of a handler samples from the hardware. -/
structure Input where
  pins : Nat → Bool
  clk : Nat → Nat
  now : Nat
  polls : List Poll
  tSignal : Nat

/-- One iteration of `while (1) switch (state)` in `main`; `none` when the
handler does not return on the given samples. -/
def step (s : Globals) (x : Input) : Option Globals :=
  match s.state with
  | GameState.MENU => some (handle_menu s x.pins)
  | GameState.SELECT_REFLEX_MODE => some (select_reflex_mode s x.pins)
  | GameState.SELECT_DIFFICULTY => some (select_difficulty s x.pins)
  | GameState.WAIT_SIGNAL => wait_signal s x.now x.polls x.tSignal
  | GameState.SHOW_SIGNAL => some (handle_signal s x.pins (x.clk 0) x.now)
  | GameState.RESULT => some (show_reflex_result s)
  | GameState.SELECT_TIMING_PLAYERS => some (select_timing_players s x.pins x.now)
  | GameState.WAIT_TARGET => some (wait_target s x.pins x.clk)
  | GameState.TARGET_RESULT => some (show_timing_result s)

/-- The states the main loop can be in at the start of an iteration. -/
inductive Reachable : Globals → Prop where
  | init : Reachable initial
  | next {s t : Globals} (x : Input) : Reachable s → step s x = some t → Reachable t

/-- The main loop run on a list of samples. -/
def run (s : Globals) : List Input → Option Globals
  | [] => some s
  | x :: rest => (step s x).bind (fun t => run t rest)

/-! ## Invariant of the main loop -/

/-- A player variable holds the sentinel `-1` or an index `0..3`. -/
def SentinelOrIndex (p : Int) : Prop := p = -1 ∨ (0 ≤ p ∧ p < 4)

/-- The invariant of the main loop. -/
structure Inv (s : Globals) : Prop where
  winner : SentinelOrIndex s.winnerPlayer
  cheater : SentinelOrIndex s.cheaterPlayer
  best : SentinelOrIndex s.bestPlayer
  players : 1 ≤ s.selectedTimingPlayers ∧ s.selectedTimingPlayers ≤ 4
  difficulty : 0 ≤ s.selectedDifficulty ∧ s.selectedDifficulty < 4
  bestInRound : s.state ≠ GameState.SELECT_TIMING_PLAYERS →
    s.bestPlayer < s.selectedTimingPlayers
  signalShown : s.state = GameState.SHOW_SIGNAL →
    s.winnerPlayer = -1 ∧ s.hasWon = 0 ∧ s.hasCheated = 0 ∧ s.signalGiven = 1
  cheated : s.hasCheated ≠ 0 →
    0 ≤ s.cheaterPlayer ∧ s.cheaterPlayer < 4 ∧ s.state = GameState.RESULT

/-- The states `s` and `t` agree on every variable that `wait_target` does not
assign in its multiplayer branch. -/
def TimingFrame (s t : Globals) : Prop :=
  t = { s with playerTimes := t.playerTimes, playerPressed := t.playerPressed,
               playersFinished := t.playersFinished, bestPlayer := t.bestPlayer,
               bestDifference := t.bestDifference, led := t.led, state := t.state }

/-! ## Multiplayer timing rounds -/

/-- The iterations of the main loop that run `wait_target`: the handler is run
on the successive samples for as long as the state is `WAIT_TARGET`. -/
def wait_target_steps (s : Globals) : List Input → Globals
  | [] => s
  | x :: rest =>
    if s.state = GameState.WAIT_TARGET then wait_target_steps (wait_target s x.pins x.clk) rest
    else s

/-- The invariant of the best-player tracker in a multiplayer timing round. -/
structure BestInv (s : Globals) : Prop where
  players : 2 ≤ s.selectedTimingPlayers ∧ s.selectedTimingPlayers ≤ 4
  bound : s.bestDifference ≤ 999
  lower : ∀ i, s.playerPressed i ≠ 0 → s.bestDifference ≤ difference (s.playerTimes i)
  unset : s.bestPlayer = -1 → s.bestDifference = 999
  isSet : s.bestPlayer ≠ -1 → ∃ b : Nat, s.bestPlayer = (b : Int) ∧ s.playerPressed b ≠ 0 ∧
    s.bestDifference = difference (s.playerTimes b) ∧ s.bestDifference < 999
  bit : ∀ i, s.playerPressed i ≤ 1
  inRange : ∀ i, s.playerPressed i ≠ 0 → (i : Int) < s.selectedTimingPlayers
  count : s.playersFinished =
    ((s.playerPressed 0 + s.playerPressed 1 + s.playerPressed 2 + s.playerPressed 3 : Nat) : Int)

/-- A round is still waiting, or it ended with every configured player counted. -/
def Running (s : Globals) : Prop :=
  s.state = GameState.WAIT_TARGET ∨
    (s.state = GameState.TARGET_RESULT ∧ s.selectedTimingPlayers ≤ s.playersFinished)

/-- The state `t` comes after `s` in a round: recorded players stay recorded
with their times, and the best player is kept or replaced by a player that
was not yet recorded in `s`, with a strictly smaller difference. -/
structure Advance (s t : Globals) : Prop where
  frame : TimingFrame s t
  keep : ∀ i, s.playerPressed i ≠ 0 → t.playerPressed i ≠ 0 ∧ t.playerTimes i = s.playerTimes i
  best : (t.bestPlayer = s.bestPlayer ∧ t.bestDifference = s.bestDifference) ∨
    (t.bestDifference < s.bestDifference ∧
      ∃ b : Nat, t.bestPlayer = (b : Int) ∧ s.playerPressed b = 0)

/-! ## Sample inputs -/

/-- Button levels with exactly the buttons of `l` pressed. -/
def pressed (l : List Nat) : Nat → Bool := fun i => decide (i ∈ l)

/-- A sample in which the buttons of `l` are pressed and every clock reading is `t`. -/
def sample (l : List Nat) (t : Nat) : Input :=
  { pins := pressed l, clk := fun _ => t, now := t, polls := [], tSignal := t }

/-- A sample for `wait_signal`: the clock reads `t0` at the start, the busy loop
makes the given polls, and the clock reads `t1` when the signal is given. -/
def waitSample (t0 : Nat) (polls : List Poll) (t1 : Nat) : Input :=
  { pins := pressed [], clk := fun _ => t0, now := t0, polls := polls, tSignal := t1 }

/-- The samples that start a single-player reflex trial on Easy: three select
presses, then a wait of 5000 ms without a press; the signal is given at
clock 6000. -/
def easyRun : List Input :=
  [sample [1] 0, sample [1] 0, sample [1] 0, waitSample 1000 [⟨6000, pressed []⟩] 6000]

/-- The state after `easyRun`: a single-player reflex trial on Easy whose signal
was given at clock 6000. -/
def easyTrial : Globals :=
  { initial with state := GameState.SHOW_SIGNAL, reflexTimeLimit := 400 / 1000,
                 reflexSignalStartTime := 6000, signalGiven := 1, lfsr := 44060 }

/-- A multiplayer reflex trial about to wait for the signal (the state after a
select press in the menu and a menu-and-select press in the reflex mode
selection). -/
def multiWait : Globals :=
  { initial with state := GameState.WAIT_SIGNAL, reflexMode := ReflexMode.MULTIPLAYER }

/-- The multiplayer reflex trial `multiWait` after a wait of 5000 ms without a
press; the signal is given at clock 6000. -/
def multiTrial : Globals :=
  { initial with state := GameState.SHOW_SIGNAL, reflexMode := ReflexMode.MULTIPLAYER,
                 reflexSignalStartTime := 6000, signalGiven := 1, lfsr := 44060 }

/-- The state after button 0 is pressed 350 ms after the signal of `easyTrial`. -/
def easyWin : Globals := handle_signal easyTrial (pressed [0]) 6350 6350

/-- A timing round of two players that started at clock 10000 (the state after
a menu-and-select press in the menu and in the player selection). -/
def round2 : Globals :=
  { initial with mode := GameMode.MODE_TIMING, state := GameState.WAIT_TARGET,
                 selectedTimingPlayers := 2, timingStartTime := 10000 }

/-- The round `round2` after player 1 pressed at clock 21000, on the target. -/
def half2 : Globals :=
  { round2 with
    playerTimes := Function.update (fun _ => 0) 1 11000
    playerPressed := Function.update (fun _ => 0) 1 1
    playersFinished := 1
    bestPlayer := 1
    bestDifference := 0
    led := Function.update (fun _ => false) 1 true }

/-- The round `half2` after player 0 pressed at clock 30000: player 1 is the
best. -/
def done2 : Globals :=
  { half2 with
    state := GameState.TARGET_RESULT
    playerTimes := Function.update (Function.update (fun _ => 0) 1 11000) 0 20000
    playerPressed := Function.update (Function.update (fun _ => 0) 1 1) 0 1
    playersFinished := 2
    led := Function.update (Function.update (fun _ => false) 1 true) 0 true }

/-- The samples after `done2`: the result is shown, select is pressed in the
menu and the menu button is pressed three times in the player selection. -/
def staleRun : List Input :=
  [sample [] 31000, sample [1] 39000, sample [0] 40000, sample [0] 41000, sample [0] 42000]

/-- The state after `staleRun`: one player is selected and `bestPlayer` is
still 1. -/
def stale : Globals :=
  { done2 with
    state := GameState.SELECT_TIMING_PLAYERS
    selectedTimingPlayers := 1
    led := Function.update (Function.update (Function.update (Function.update
      (fun _ => false) 1 true) 0 true) 0 false) 1 false }

/-- The round `round2` after player 0 alone pressed at clock 2010000, that is
2000000 ms after the start. -/
def lateFirst : Globals := wait_target round2 (pressed [0]) (fun _ => 2010000)

/-- The round `round2` after both players pressed at clock 2010000, that is
2000000 ms after the start. -/
def lateBoth : Globals := wait_target round2 (pressed [0, 1]) (fun _ => 2010000)

/-- A single-player timing round that started at clock 10000 (the state after
a menu-and-select press in the menu and a select press in the player
selection). -/
def round1 : Globals :=
  { initial with mode := GameMode.MODE_TIMING, state := GameState.WAIT_TARGET,
                 timingStartTime := 10000 }

/-- The round `round1` after button 0 is pressed at clock 20800, that is
10800 ms after the start. -/
def done1 : Globals := wait_target round1 (pressed [0]) (fun _ => 20800)

/-- The round `round2` after player 0 pressed at clock 20800: player 0 is the
best, and the float difference of 10800 ms to the target is
`209715 / 2^20 = 0.19999980926513672`. -/
def halfClose : Globals :=
  { round2 with
    playerTimes := Function.update (fun _ => 0) 0 10800
    playerPressed := Function.update (fun _ => 0) 0 1
    playersFinished := 1
    bestPlayer := 0
    bestDifference := 209715 / 1048576
    led := Function.update (fun _ => false) 0 true }

/-- The round `halfClose` after player 1 pressed at clock 21500, 0.5 s from the
target: player 0 is still the best. -/
def doneClose : Globals :=
  { halfClose with
    state := GameState.TARGET_RESULT
    playerTimes := Function.update (Function.update (fun _ => 0) 0 10800) 1 11500
    playerPressed := Function.update (Function.update (fun _ => 0) 0 1) 1 1
    playersFinished := 2
    led := Function.update (Function.update (fun _ => false) 0 true) 1 true }

/-- The round `round2` after player 0 pressed at clock 17996, that is 7996 ms
after the start and 3004 ms before the target: player 0 is the best, and the
float difference is `6299845 / 2^21 = 3.004000186920166`. -/
def halfTie : Globals :=
  { round2 with
    playerTimes := Function.update (fun _ => 0) 0 7996
    playerPressed := Function.update (fun _ => 0) 0 1
    playersFinished := 1
    bestPlayer := 0
    bestDifference := 6299845 / 2097152
    led := Function.update (fun _ => false) 0 true }

/-- The round `halfTie` after player 1 pressed at clock 24004, that is 14004 ms
after the start and 3004 ms after the target: the float difference is
`1574961 / 2^19 = 3.003999710083008` and player 1 is the best. -/
def doneTie : Globals :=
  { halfTie with
    state := GameState.TARGET_RESULT
    playerTimes := Function.update (Function.update (fun _ => 0) 0 7996) 1 14004
    playerPressed := Function.update (Function.update (fun _ => 0) 0 1) 1 1
    playersFinished := 2
    bestPlayer := 1
    bestDifference := 1574961 / 524288
    led := Function.update (Function.update (fun _ => false) 0 true) 1 true }

/-- The samples that start a single-player reflex trial on Hard: select in the
menu and in the reflex mode selection, two menu presses in the difficulty
selection (the second with select), then a wait of 5000 ms without a press;
the signal is given at clock 6000. -/
def hardRun : List Input :=
  [sample [1] 0, sample [1] 0, sample [0] 0, sample [0, 1] 0,
    waitSample 1000 [⟨6000, pressed []⟩] 6000]

/-- The state after `hardRun`: a single-player reflex trial on Hard whose signal
was given at clock 6000. -/
def hardTrial : Globals :=
  { initial with state := GameState.SHOW_SIGNAL, selectedDifficulty := 2,
                 reflexTimeLimit := 160 / 1000, reflexSignalStartTime := 6000,
                 signalGiven := 1, lfsr := 44060 }

/-- The samples that bring the machine to the difficulty selection and press
the menu button `k` times there. -/
def difficultyRun (k : Nat) : List Input :=
  [sample [1] 0, sample [1] 0] ++ List.replicate k (sample [0] 0)

/-- The samples that bring the machine to the player selection and press the
menu button `k` times there. -/
def playersRun (k : Nat) : List Input :=
  [sample [0, 1] 0] ++ List.replicate k (sample [0] 0)

/-! ## Feedback tone of the timing result -/

/-- The conversion `(uint16_t)v` of a float: the fractional part is discarded;
`none` when the integral part is not a value of `uint16_t` (the conversion
is then undefined). -/
def float_to_uint16 (v : ℚ) : Option Nat :=
  if -1 < v ∧ v < 65536 then some ⌊v⌋₊ else none

/-- The float `1000 + 500 * (1 - diff / targetTime)` of `show_timing_result`:
the division, the subtraction, the multiplication and the addition are float
operations, each rounded. -/
def tone_value (diff : ℚ) : ℚ := f32 (1000 + f32 (500 * f32 (1 - f32 (diff / targetTime))))

/-- The value of `1000 + 500 * (1 - diff / targetTime)` in exact arithmetic. -/
def tone_exact (diff : ℚ) : ℚ := 1000 + 500 * (1 - diff / targetTime)

/-- The frequency `(uint16_t)(1000 + 500 * (1 - diff / targetTime))` passed to
`play_tone_blocking` by `show_timing_result`. -/
def tone_frequency (diff : ℚ) : Option Nat := float_to_uint16 (tone_value diff)

/-- The frequency of the tone played by `show_timing_result`: computed from
`fabs(timingReactionTime / 1000.0 - targetTime)` in the single-player branch
and from `bestDifference` in the multiplayer branch. -/
def show_timing_result_tone (s : Globals) : Option Nat :=
  if s.selectedTimingPlayers = 1 then tone_frequency (difference s.timingReactionTime)
  else tone_frequency s.bestDifference

/-- The round `round1` after button 0 is pressed at clock 65000, that is
55000 ms after the start. -/
def slow1 : Globals := wait_target round1 (pressed [0]) (fun _ => 65000)

/-- The round `round1` after button 0 is pressed at clock 31978, that is
21978 ms after the start. -/
def near1 : Globals := wait_target round1 (pressed [0]) (fun _ => 31978)

/-! ## Text of a float on the LCD -/

/-- The conversion `(int)v` of a float to the 16-bit `int` of the AVR: the
fractional part is discarded; `none` when the integral part is not a value
of `int`. -/
def float_to_int (v : ℚ) : Option Int :=
  if -32769 < v ∧ v < 32768 then some (if 0 ≤ v then ⌊v⌋ else ⌈v⌉) else none

/-- The characters `itoa(num, buffer, 10)` writes: the decimal digits, after a
minus sign when `num` is negative. -/
def itoa (num : Int) : List Char :=
  if num < 0 then '-' :: Nat.toDigits 10 num.natAbs else Nat.toDigits 10 num.toNat

/-- The float `pow(10, i)`: the library function is taken to return the power
itself, which is a float for every `i <= 10`. -/
def pow10 (i : Nat) : ℚ := f32 (10 ^ i)

/-- The loop `for (i = precision - 1; i > 0 && frac < pow(10, i); i--)` of
`lcd_print_float` from the index `i` on: the zeros it prints. -/
def lcd_zeros : Nat → Int → List Char
  | 0, _ => []
  | i + 1, frac => if f32 (frac : ℚ) < pow10 (i + 1) then '0' :: lcd_zeros i frac else []

/-- The function `lcd_print_float`: the characters sent to the LCD, `none` when
a conversion to `int` is undefined.  In `(num - whole) * pow(10, precision)`
the subtraction and the multiplication are float operations, each rounded,
and the conversion to `int` discards the fractional part of the product. -/
def lcd_print_float (num : ℚ) (precision : Nat) : Option (List Char) :=
  match float_to_int num with
  | none => none
  | some whole =>
    match float_to_int (f32 (f32 (num - f32 (whole : ℚ)) * pow10 precision)) with
    | none => none
    | some frac => some (itoa whole ++ ['.'] ++ lcd_zeros (precision - 1) frac ++ itoa frac)

/-- The second LCD line of `show_reflex_result` when a winner is shown:
`"Timp: "`, the float `reflexReactionTime / 1000.0` with 3 decimals, `"s"`. -/
def show_reflex_result_time (s : Globals) : Option (List Char) :=
  (lcd_print_float (time_in_sec s.reflexReactionTime) 3).map
    (fun txt => ['T', 'i', 'm', 'p', ':', ' '] ++ txt ++ ['s'])

/-- The text of `lcd_print_float` in exact arithmetic, for a time of `t`
milliseconds and 3 decimals: the digits of `t div 1000`, a point, and the
three digits of `t mod 1000`. -/
def exact_text (t : Nat) : List Char :=
  Nat.toDigits 10 (t / 1000) ++ ['.'] ++
    [Nat.digitChar (t % 1000 / 100), Nat.digitChar (t % 100 / 10), Nat.digitChar (t % 10)]

/-- The state after button 0 is pressed 251 ms after the signal of `easyTrial`. -/
def quickWin : Globals := handle_signal easyTrial (pressed [0]) 6251 6251

/-! ## Basic facts -/

/-! ### Rounding to a 32-bit float -/

theorem round_even_int (n : Int) : round_even (n : ℚ) = n := by
  simp [round_even]

theorem floor_le_round_even (x : ℚ) : ⌊x⌋ ≤ round_even x := by
  unfold round_even
  split_ifs <;> omega

theorem round_even_le_floor_succ (x : ℚ) : round_even x ≤ ⌊x⌋ + 1 := by
  unfold round_even
  split_ifs <;> omega

theorem round_even_mono {x y : ℚ} (h : x ≤ y) : round_even x ≤ round_even y := by
  have hf : ⌊x⌋ ≤ ⌊y⌋ := Int.floor_mono h
  rcases hf.lt_or_eq with hlt | heq
  · calc round_even x ≤ ⌊x⌋ + 1 := round_even_le_floor_succ x
      _ ≤ ⌊y⌋ := hlt
      _ ≤ round_even y := floor_le_round_even y
  · unfold round_even
    rw [← heq]
    have hxy : x - ⌊x⌋ ≤ y - ⌊x⌋ := by linarith
    split_ifs <;> first | omega | (exfalso; linarith)

theorem binade_from_ge (n : Nat) (e : Int) (a : ℚ) : e ≤ binade_from n e a := by
  induction n generalizing e with
  | zero => simp [binade_from]
  | succ n ih =>
    unfold binade_from
    split_ifs
    · have := ih (e + 1); omega
    · exact le_refl e

theorem binade_from_le (n : Nat) (e : Int) (a : ℚ) : binade_from n e a ≤ e + n := by
  induction n generalizing e with
  | zero => simp [binade_from]
  | succ n ih =>
    unfold binade_from
    split_ifs
    · have := ih (e + 1); push_cast; omega
    · push_cast; omega

theorem binade_from_mono (n : Nat) (e : Int) {a b : ℚ} (h : a ≤ b) :
    binade_from n e a ≤ binade_from n e b := by
  induction n generalizing e with
  | zero => simp [binade_from]
  | succ n ih =>
    unfold binade_from
    split_ifs with h1 h2 h2
    · exact ih (e + 1)
    · exact absurd (h1.trans h) h2
    · have := binade_from_ge n (e + 1) b; omega
    · exact le_refl e

theorem binade_from_lower (n : Nat) (e : Int) (a : ℚ) :
    binade_from n e a = e ∨ (2 : ℚ) ^ binade_from n e a ≤ a := by
  induction n generalizing e with
  | zero => simp [binade_from]
  | succ n ih =>
    unfold binade_from
    split_ifs with h1
    · rcases ih (e + 1) with h | h
      · right; rw [h]; exact h1
      · right; exact h
    · left; rfl

theorem binade_from_upper (n : Nat) (e : Int) (a : ℚ) :
    binade_from n e a = e + n ∨ a < (2 : ℚ) ^ (binade_from n e a + 1) := by
  induction n generalizing e with
  | zero => simp [binade_from]
  | succ n ih =>
    unfold binade_from
    split_ifs with h1
    · rcases ih (e + 1) with h | h
      · left; rw [h]; push_cast; ring
      · right; exact h
    · right; exact not_le.mp h1

theorem binade_ge (a : ℚ) : -126 ≤ binade a := binade_from_ge 253 (-126) a

theorem binade_le (a : ℚ) : binade a ≤ 127 := by
  have := binade_from_le 253 (-126) a
  unfold binade; push_cast at this; omega

theorem binade_mono {a b : ℚ} (h : a ≤ b) : binade a ≤ binade b := binade_from_mono 253 (-126) h

theorem binade_lower (a : ℚ) : binade a = -126 ∨ (2 : ℚ) ^ binade a ≤ a :=
  binade_from_lower 253 (-126) a

theorem binade_upper (a : ℚ) : binade a = 127 ∨ a < (2 : ℚ) ^ (binade a + 1) := by
  rcases binade_from_upper 253 (-126) a with h | h
  · left; unfold binade; rw [h]; norm_num
  · right; exact h

theorem binade_eq (a : ℚ) (e : Int) (h1 : -126 ≤ e) (h2 : e ≤ 127)
    (hlo : (2 : ℚ) ^ e ≤ a) (hhi : a < (2 : ℚ) ^ (e + 1)) : binade a = e := by
  have two : (1 : ℚ) < 2 := by norm_num
  rcases lt_trichotomy (binade a) e with h | h | h
  · exfalso
    rcases binade_upper a with hu | hu
    · omega
    · have : (2 : ℚ) ^ (binade a + 1) ≤ 2 ^ e := zpow_le_zpow_right₀ two.le (by omega)
      linarith
  · exact h
  · exfalso
    rcases binade_lower a with hl | hl
    · omega
    · have : (2 : ℚ) ^ (e + 1) ≤ 2 ^ binade a := zpow_le_zpow_right₀ two.le (by omega)
      linarith


theorem ulp_pos (a : ℚ) : (0 : ℚ) < 2 ^ (binade a - 23) := zpow_pos (by norm_num) _

theorem top_eq (e : Int) : (2 : ℚ) ^ (e + 1) = ((2 ^ 24 : Int) : ℚ) * 2 ^ (e - 23) := by
  have h : (2 : ℚ) ^ (e + 1) = 2 ^ (24 : Int) * 2 ^ (e - 23) := by
    rw [← zpow_add₀ (by norm_num : (2 : ℚ) ≠ 0)]; congr 1; ring
  rw [h]; norm_num

theorem bottom_eq (e : Int) : (2 : ℚ) ^ e = ((2 ^ 23 : Int) : ℚ) * 2 ^ (e - 23) := by
  have h : (2 : ℚ) ^ e = 2 ^ (23 : Int) * 2 ^ (e - 23) := by
    rw [← zpow_add₀ (by norm_num : (2 : ℚ) ≠ 0)]; congr 1; ring
  rw [h]; norm_num

theorem round_magnitude_nonneg {a : ℚ} (h : 0 ≤ a) : 0 ≤ round_magnitude a := by
  unfold round_magnitude
  have h1 : (0 : ℚ) ≤ a / 2 ^ (binade a - 23) := div_nonneg h (ulp_pos a).le
  have h2 : (0 : Int) ≤ round_even (a / 2 ^ (binade a - 23)) := by
    have := round_even_mono h1
    rwa [show ((0 : ℚ)) = ((0 : Int) : ℚ) by norm_num, round_even_int] at this
  exact mul_nonneg (by exact_mod_cast h2) (ulp_pos a).le

/-- A magnitude below the top of its binade rounds to at most that top. -/
theorem round_magnitude_le_top {a : ℚ} (h : a < 2 ^ (binade a + 1)) :
    round_magnitude a ≤ 2 ^ (binade a + 1) := by
  unfold round_magnitude
  have hu := ulp_pos a
  have h1 : a / 2 ^ (binade a - 23) ≤ ((2 ^ 24 : Int) : ℚ) := by
    rw [div_le_iff₀ hu]
    rw [← top_eq]; exact h.le
  have h2 := round_even_mono h1
  rw [round_even_int] at h2
  have h3 : ((round_even (a / 2 ^ (binade a - 23)) : Int) : ℚ) ≤ ((2 ^ 24 : Int) : ℚ) := by
    exact_mod_cast h2
  calc (round_even (a / 2 ^ (binade a - 23)) : ℚ) * 2 ^ (binade a - 23)
      ≤ ((2 ^ 24 : Int) : ℚ) * 2 ^ (binade a - 23) := mul_le_mul_of_nonneg_right h3 hu.le
    _ = 2 ^ (binade a + 1) := (top_eq _).symm

/-- A magnitude at or above the bottom of its binade rounds to at least that bottom. -/
theorem bottom_le_round_magnitude {a : ℚ} (h : (2 : ℚ) ^ binade a ≤ a) :
    (2 : ℚ) ^ binade a ≤ round_magnitude a := by
  unfold round_magnitude
  have hu := ulp_pos a
  have e1 : (((2 ^ 23 : Int) : ℚ)) * 2 ^ (binade a - 23) = 2 ^ binade a := (bottom_eq _).symm
  have h1 : ((2 ^ 23 : Int) : ℚ) ≤ a / 2 ^ (binade a - 23) := by
    rw [le_div_iff₀ hu, e1]; exact h
  have h2 := round_even_mono h1
  rw [round_even_int] at h2
  have h3 : ((2 ^ 23 : Int) : ℚ) ≤ ((round_even (a / 2 ^ (binade a - 23)) : Int) : ℚ) := by
    exact_mod_cast h2
  calc (2 : ℚ) ^ binade a = ((2 ^ 23 : Int) : ℚ) * 2 ^ (binade a - 23) := e1.symm
    _ ≤ (round_even (a / 2 ^ (binade a - 23)) : ℚ) * 2 ^ (binade a - 23) :=
      mul_le_mul_of_nonneg_right h3 hu.le

theorem round_magnitude_mono {a b : ℚ} (h : a ≤ b) : round_magnitude a ≤ round_magnitude b := by
  rcases (binade_mono h).lt_or_eq with hlt | heq
  · have ha : a < 2 ^ (binade a + 1) := by
      rcases binade_upper a with hu | hu
      · have := binade_le b; omega
      · exact hu
    have hb : (2 : ℚ) ^ binade b ≤ b := by
      rcases binade_lower b with hl | hl
      · have := binade_ge a; omega
      · exact hl
    calc round_magnitude a ≤ 2 ^ (binade a + 1) := round_magnitude_le_top ha
      _ ≤ 2 ^ binade b := zpow_le_zpow_right₀ (by norm_num) (by omega)
      _ ≤ round_magnitude b := bottom_le_round_magnitude hb
  · unfold round_magnitude
    rw [heq]
    have hu := ulp_pos b
    have h1 : a / 2 ^ (binade b - 23) ≤ b / 2 ^ (binade b - 23) :=
      div_le_div_of_nonneg_right h hu.le
    have h2 := round_even_mono h1
    exact mul_le_mul_of_nonneg_right (by exact_mod_cast h2) hu.le

/-- Rounding to a float is monotone. -/
theorem f32_mono {a b : ℚ} (h : a ≤ b) : f32 a ≤ f32 b := by
  unfold f32
  split_ifs with ha hb hb
  · exact neg_le_neg (round_magnitude_mono (neg_le_neg h))
  · have h1 := round_magnitude_nonneg (a := -a) (by linarith)
    have h2 := round_magnitude_nonneg (a := b) (by linarith)
    linarith
  · exfalso; linarith
  · exact round_magnitude_mono h

theorem abs_f32 (q : ℚ) : |f32 q| = round_magnitude |q| := by
  unfold f32
  split_ifs with h
  · rw [abs_neg, abs_of_nonneg (round_magnitude_nonneg (by linarith)), abs_of_neg h]
  · rw [abs_of_nonneg (round_magnitude_nonneg (not_lt.1 h)), abs_of_nonneg (not_lt.1 h)]

/-- The floats strictly inside a binade are multiples of its unit: a float
above `k` units is at least `k + 1` units. -/
theorem round_magnitude_succ (a : ℚ) (e k : Int) (he : -126 ≤ e) (he2 : e ≤ 127)
    (h1 : (2 : ℚ) ^ e < round_magnitude a) (h2 : round_magnitude a < 2 ^ (e + 1))
    (hk : (k : ℚ) * 2 ^ (e - 23) < round_magnitude a) :
    ((k + 1 : Int) : ℚ) * 2 ^ (e - 23) ≤ round_magnitude a := by
  have hb : binade a = e := by
    rcases lt_trichotomy (binade a) e with h | h | h
    · exfalso
      have ha : a < 2 ^ (binade a + 1) := by
        rcases binade_upper a with hu | hu
        · omega
        · exact hu
      have h3 := round_magnitude_le_top ha
      have h4 : (2 : ℚ) ^ (binade a + 1) ≤ 2 ^ e := zpow_le_zpow_right₀ (by norm_num) (by omega)
      linarith
    · exact h
    · exfalso
      have ha : (2 : ℚ) ^ binade a ≤ a := by
        rcases binade_lower a with hl | hl
        · omega
        · exact hl
      have h3 := bottom_le_round_magnitude ha
      have h4 : (2 : ℚ) ^ (e + 1) ≤ 2 ^ binade a := zpow_le_zpow_right₀ (by norm_num) (by omega)
      linarith
  unfold round_magnitude at hk ⊢
  rw [hb] at hk ⊢
  have hu : (0 : ℚ) < 2 ^ (e - 23) := zpow_pos (by norm_num) _
  have h3 : (k : ℚ) < (round_even (a / 2 ^ (e - 23)) : ℚ) := lt_of_mul_lt_mul_right hk hu.le
  have h4 : k + 1 ≤ round_even (a / 2 ^ (e - 23)) := by
    have : k < round_even (a / 2 ^ (e - 23)) := by exact_mod_cast h3
    omega
  exact mul_le_mul_of_nonneg_right (by exact_mod_cast h4) hu.le

theorem time_in_sec_mono {t u : Nat} (h : t ≤ u) : time_in_sec t ≤ time_in_sec u := by
  unfold time_in_sec
  apply f32_mono
  apply div_le_div_of_nonneg_right _ (by norm_num)
  apply f32_mono
  exact_mod_cast h

theorem round_even_err (x : ℚ) : |(round_even x : ℚ) - x| ≤ 1 / 2 := by
  have h1 := Int.floor_le x
  have h2 := Int.lt_floor_add_one x
  unfold round_even
  rw [abs_le]
  split_ifs with c1 c2 c3
  · constructor <;> linarith
  · push_cast; constructor <;> linarith
  · constructor <;> linarith
  · push_cast; constructor <;> linarith

/-- The rounding error of a float operation whose exact result is below
`2^(e+1)` in magnitude is at most half a unit of that binade. -/
theorem f32_err (q : ℚ) (e : Int) (he : -126 ≤ e) (h : |q| < 2 ^ (e + 1)) :
    |f32 q - q| ≤ 2 ^ (e - 24) := by
  have hrm : ∀ a : ℚ, a < 2 ^ (e + 1) → |round_magnitude a - a| ≤ 2 ^ (e - 24) := by
    intro a ha
    have hb : binade a ≤ e := by
      by_contra hgt
      have hl : (2 : ℚ) ^ binade a ≤ a := by
        rcases binade_lower a with hl | hl
        · omega
        · exact hl
      have : (2 : ℚ) ^ (e + 1) ≤ 2 ^ binade a := zpow_le_zpow_right₀ (by norm_num) (by omega)
      linarith
    have hu := ulp_pos a
    have e1 : round_magnitude a - a
        = ((round_even (a / 2 ^ (binade a - 23)) : ℚ) - a / 2 ^ (binade a - 23))
          * 2 ^ (binade a - 23) := by
      unfold round_magnitude
      field_simp
    rw [e1, abs_mul, abs_of_pos hu]
    have h3 := round_even_err (a / 2 ^ (binade a - 23))
    have h4 : (1 / 2 : ℚ) * 2 ^ (binade a - 23) = 2 ^ (binade a - 24) := by
      have : (2 : ℚ) ^ (binade a - 23) = 2 ^ (binade a - 24) * 2 ^ (1 : Int) := by
        rw [← zpow_add₀ (by norm_num : (2 : ℚ) ≠ 0)]; congr 1; ring
      rw [this]; norm_num; ring
    calc |(round_even (a / 2 ^ (binade a - 23)) : ℚ) - a / 2 ^ (binade a - 23)|
          * 2 ^ (binade a - 23)
        ≤ (1 / 2) * 2 ^ (binade a - 23) := mul_le_mul_of_nonneg_right h3 hu.le
      _ = 2 ^ (binade a - 24) := h4
      _ ≤ 2 ^ (e - 24) := zpow_le_zpow_right₀ (by norm_num) (by omega)
  unfold f32
  split_ifs with hq
  · have := hrm (-q) (by rw [abs_of_neg hq] at h; exact h)
    have e2 : -round_magnitude (-q) - q = -(round_magnitude (-q) - -q) := by ring
    rw [e2, abs_neg]
    exact this
  · exact hrm q (by rw [abs_of_nonneg (not_lt.1 hq)] at h; exact h)

/-! ### The float comparisons of `handle_signal` -/

theorem f32_nat_mono {t u : Nat} (h : t ≤ u) : f32 (t : ℚ) ≤ f32 (u : ℚ) :=
  f32_mono (by exact_mod_cast h)

theorem comparisons_of_bounds (t l : Nat) (limit : ℚ) (hl : limit = (l : ℚ) / 1000)
    (h1 : time_in_sec l ≤ f32 limit) (h2 : f32 limit < time_in_sec (l + 1))
    (h3 : f32 (f32 limit * 1000) = (l : ℚ)) (h4 : f32 (l : ℚ) = (l : ℚ))
    (h5 : f32 ((l + 1 : Nat) : ℚ) = ((l + 1 : Nat) : ℚ)) :
    (time_in_sec t ≤ f32 limit ↔ (t : ℚ) / 1000 ≤ limit) ∧
    (f32 (t : ℚ) > f32 (f32 limit * 1000) ↔ (t : ℚ) > limit * 1000) := by
  have e1 : (t : ℚ) / 1000 ≤ limit ↔ t ≤ l := by
    rw [hl, div_le_div_iff_of_pos_right (by norm_num : (0 : ℚ) < 1000)]
    exact Nat.cast_le
  have e2 : (t : ℚ) > limit * 1000 ↔ l < t := by
    rw [hl, div_mul_cancel₀ _ (by norm_num : (1000 : ℚ) ≠ 0)]
    exact Nat.cast_lt
  rw [e1, e2, h3]
  constructor
  · constructor
    · intro h
      by_contra hlt
      have := time_in_sec_mono (show l + 1 ≤ t by omega)
      linarith
    · intro h
      exact le_trans (time_in_sec_mono h) h1
  · constructor
    · intro h
      by_contra hle
      have := f32_nat_mono (show t ≤ l by omega)
      rw [h4] at this
      linarith
    · intro h
      have := f32_nat_mono (show l + 1 ≤ t by omega)
      rw [h5] at this
      have h6 : (l : ℚ) < ((l + 1 : Nat) : ℚ) := by push_cast; linarith
      linarith

/-- The two float comparisons of `handle_signal`, `reactionTimeInSec <=
reflexTimeLimit` and `(millis() - reflexSignalStartTime) > reflexTimeLimit *
1000`, give for every `uint32_t` time and each of the four limits of
`difficultyLimits` the result of the comparison of the exact values. -/
theorem reflex_comparisons_exact (t : Nat) (limit : ℚ) (hl : limit ∈ difficultyLimits) :
    (time_in_sec t ≤ f32 limit ↔ (t : ℚ) / 1000 ≤ limit) ∧
    (f32 (t : ℚ) > f32 (f32 limit * 1000) ↔ (t : ℚ) > limit * 1000) := by
  simp only [difficultyLimits, List.mem_cons, List.mem_singleton, List.not_mem_nil,
    or_false] at hl
  rcases hl with h | h | h | h
  · exact comparisons_of_bounds t 400 limit (by rw [h]; norm_num) (by rw [h]; decide!)
      (by rw [h]; decide!) (by rw [h]; decide!) (by decide!) (by decide!)
  · exact comparisons_of_bounds t 250 limit (by rw [h]; norm_num) (by rw [h]; decide!)
      (by rw [h]; decide!) (by rw [h]; decide!) (by decide!) (by decide!)
  · exact comparisons_of_bounds t 160 limit (by rw [h]; norm_num) (by rw [h]; decide!)
      (by rw [h]; decide!) (by rw [h]; decide!) (by decide!) (by decide!)
  · exact comparisons_of_bounds t 130 limit (by rw [h]; norm_num) (by rw [h]; decide!)
      (by rw [h]; decide!) (by rw [h]; decide!) (by decide!) (by decide!)

/-! ### Float differences and exact differences -/

theorem difference_err (t : Nat) (h : t < 1048576) :
    |difference t - difference_exact t| ≤ 1 / 5000 := by
  have ht : (t : ℚ) < 1048576 := by exact_mod_cast h
  have ht0 : (0 : ℚ) ≤ (t : ℚ) := Nat.cast_nonneg t
  unfold difference difference_exact time_in_sec targetTime
  have a1 := f32_err (t : ℚ) 19 (by norm_num) (by
    rw [abs_of_nonneg ht0]; norm_num; exact h)
  rw [abs_le] at a1
  norm_num at a1
  have a2 := f32_err (f32 (t : ℚ) / 1000) 10 (by norm_num) (by
    rw [abs_lt]; norm_num
    constructor
    · rw [lt_div_iff₀ (by norm_num)]; linarith
    · rw [div_lt_iff₀ (by norm_num)]; linarith)
  rw [abs_le] at a2
  norm_num at a2
  have b1 : f32 (t : ℚ) / 1000 < 1049 := by
    rw [div_lt_iff₀ (by norm_num)]; linarith
  have b0 : -1 < f32 (t : ℚ) / 1000 := by
    rw [lt_div_iff₀ (by norm_num)]; linarith
  have a3 := f32_err (f32 (f32 (t : ℚ) / 1000) - 11) 10 (by norm_num) (by
    rw [abs_lt]; norm_num; constructor <;> linarith)
  rw [abs_le] at a3
  norm_num at a3
  have c1 : f32 (t : ℚ) / 1000 - (t : ℚ) / 1000 = (f32 (t : ℚ) - (t : ℚ)) / 1000 := by ring
  have c2 : (f32 (t : ℚ) - (t : ℚ)) / 1000 ≤ 1 / 32000 := by
    rw [div_le_iff₀ (by norm_num)]; linarith
  have c3 : -(1 / 32000) ≤ (f32 (t : ℚ) - (t : ℚ)) / 1000 := by
    rw [le_div_iff₀ (by norm_num)]; linarith
  refine le_trans (abs_abs_sub_abs_le_abs_sub _ _) ?_
  rw [abs_le]
  constructor <;> linarith

theorem difference_large (t : Nat) (h : 1048576 ≤ t) :
    1037 ≤ difference t ∧ 1037 ≤ difference_exact t := by
  have e1 : f32 (time_in_sec 1048576 - targetTime) = 8499823 / 8192 := by decide!
  constructor
  · unfold difference
    have h2 := time_in_sec_mono h
    have h3 : f32 (time_in_sec 1048576 - targetTime) ≤ f32 (time_in_sec t - targetTime) :=
      f32_mono (by linarith)
    rw [e1] at h3
    have h4 := le_abs_self (f32 (time_in_sec t - targetTime))
    linarith
  · unfold difference_exact targetTime
    have ht : (1048576 : ℚ) ≤ (t : ℚ) := by exact_mod_cast h
    have h4 := le_abs_self ((t : ℚ) / 1000 - 11)
    have h5 : (1048 : ℚ) ≤ (t : ℚ) / 1000 := by
      rw [le_div_iff₀ (by norm_num)]; linarith
    linarith

theorem difference_exact_eq (t : Nat) :
    difference_exact t = ((|(t : Int) - 11000| : Int) : ℚ) / 1000 := by
  unfold difference_exact targetTime
  have : (t : ℚ) / 1000 - 11 = (((t : Int) - 11000 : Int) : ℚ) / 1000 := by
    push_cast; ring
  rw [this, abs_div, Int.cast_abs]
  norm_num

/-- When the float differences are ordered and the smaller is below 999, the
exact differences are ordered the same way: the rounding errors are far below
the millisecond that separates two distinct exact differences. -/
theorem exact_order (tb ti : Nat) (h : difference tb ≤ difference ti)
    (hb : difference tb < 999) : difference_exact tb ≤ difference_exact ti := by
  have hbs : tb < 1048576 := by
    by_contra hge
    have := (difference_large tb (not_lt.1 hge)).1
    linarith
  have eb := abs_le.1 (difference_err tb hbs)
  rcases lt_or_le ti 1048576 with his | his
  · have ei := abs_le.1 (difference_err ti his)
    have hq : difference_exact tb ≤ difference_exact ti + 2 / 5000 := by linarith
    rw [difference_exact_eq, difference_exact_eq] at hq ⊢
    rw [div_le_div_iff_of_pos_right (by norm_num : (0 : ℚ) < 1000)]
    by_contra hlt
    have h1 : |(ti : Int) - 11000| + 1 ≤ |(tb : Int) - 11000| := by
      have : |(ti : Int) - 11000| < |(tb : Int) - 11000| := by
        exact_mod_cast not_le.1 hlt
      omega
    have h2 : ((|(ti : Int) - 11000| : Int) : ℚ) + 1 ≤ ((|(tb : Int) - 11000| : Int) : ℚ) := by
      exact_mod_cast h1
    have h3 : ((|(tb : Int) - 11000| : Int) : ℚ) / 1000
        = ((|(tb : Int) - 11000| : Int) : ℚ) * (1 / 1000) := by ring
    have h4 : ((|(ti : Int) - 11000| : Int) : ℚ) / 1000
        = ((|(ti : Int) - 11000| : Int) : ℚ) * (1 / 1000) := by ring
    rw [h3, h4] at hq
    linarith
  · have := (difference_large ti his).2
    linarith

/-! ### The float differences of the sample times -/

theorem difference_11000 : difference 11000 = 0 := by decide!

theorem difference_20000 : difference 20000 = 9 := by decide!

theorem difference_2000000 : difference 2000000 = 1989 := by decide!

theorem difference_10800 : difference 10800 = 209715 / 1048576 := by decide!

theorem difference_11500 : difference 11500 = 1 / 2 := by decide!

theorem difference_7996 : difference 7996 = 6299845 / 2097152 := by decide!

theorem difference_14004 : difference 14004 = 1574961 / 524288 := by decide!

theorem difference_55000 : difference 55000 = 44 := by decide!

theorem difference_21978 : difference 21978 = 2877817 / 262144 := by decide!

/-! ### Buttons and the main-loop invariant -/

theorem first_pressed_eq_some (pins : Nat → Bool) (i : Nat) :
    first_pressed pins = some i ↔ i < 4 ∧ pins i = true ∧ ∀ j < i, pins j = false := by
  unfold first_pressed
  have hr : List.range 4 = [0, 1, 2, 3] := by decide
  rw [hr]
  constructor
  · intro h
    cases h0 : pins 0 <;> cases h1 : pins 1 <;> cases h2 : pins 2 <;> cases h3 : pins 3 <;>
      simp [List.find?, digital_read_btn, h0, h1, h2, h3] at h <;>
      subst h <;> refine ⟨by omega, by assumption, ?_⟩ <;> intro j hj <;>
      interval_cases j <;> assumption
  · rintro ⟨hi, hp, hall⟩
    have e0 := hall 0
    have e1 := hall 1
    have e2 := hall 2
    interval_cases i <;> simp_all [List.find?, digital_read_btn]

theorem first_pressed_eq_none (pins : Nat → Bool) :
    first_pressed pins = none ↔ ∀ i < 4, pins i = false := by
  unfold first_pressed
  have hr : List.range 4 = [0, 1, 2, 3] := by decide
  rw [hr]
  constructor
  · intro h i hi
    cases h0 : pins 0 <;> cases h1 : pins 1 <;> cases h2 : pins 2 <;> cases h3 : pins 3 <;>
      simp [List.find?, digital_read_btn, h0, h1, h2, h3] at h
    interval_cases i <;> assumption
  · intro h
    simp [List.find?, digital_read_btn, h 0, h 1, h 2, h 3]

theorem inv_initial : Inv initial := by
  constructor <;> simp [initial, SentinelOrIndex]

theorem inv_handle_menu (s : Globals) (pins : Nat → Bool) (h : Inv s)
    (hs : s.state = GameState.MENU) : Inv (handle_menu s pins) := by
  obtain ⟨h1, h2, h3, h4, h5, h6, h7, h8⟩ := h
  unfold handle_menu
  constructor <;> (simp only []; split_ifs) <;> simp_all

theorem inv_select_reflex_mode (s : Globals) (pins : Nat → Bool) (h : Inv s)
    (hs : s.state = GameState.SELECT_REFLEX_MODE) : Inv (select_reflex_mode s pins) := by
  obtain ⟨h1, h2, h3, h4, h5, h6, h7, h8⟩ := h
  unfold select_reflex_mode
  constructor <;> (simp only []; split_ifs) <;> simp_all

theorem inv_select_difficulty (s : Globals) (pins : Nat → Bool) (h : Inv s)
    (hs : s.state = GameState.SELECT_DIFFICULTY) : Inv (select_difficulty s pins) := by
  obtain ⟨h1, h2, h3, h4, h5, h6, h7, h8⟩ := h
  have e : Int.tmod (s.selectedDifficulty + 1) 4 = (s.selectedDifficulty + 1) % 4 :=
    Int.tmod_eq_emod (by omega) (by decide)
  unfold select_difficulty
  rw [e]
  constructor <;> (simp only []; split_ifs) <;> simp_all <;> omega

theorem inv_select_timing_players (s : Globals) (pins : Nat → Bool) (now : Nat) (h : Inv s)
    (hs : s.state = GameState.SELECT_TIMING_PLAYERS) :
    Inv (select_timing_players s pins now) := by
  obtain ⟨h1, h2, h3, h4, h5, h6, h7, h8⟩ := h
  have e : Int.tmod s.selectedTimingPlayers 4 = s.selectedTimingPlayers % 4 :=
    Int.tmod_eq_emod (by omega) (by decide)
  unfold select_timing_players
  rw [e]
  constructor <;> (simp only []; split_ifs) <;> simp_all [SentinelOrIndex] <;> omega

theorem inv_of_led {s : Globals} (f : Nat → Bool) (h : Inv s) : Inv { s with led := f } := by
  obtain ⟨h1, h2, h3, h4, h5, h6, h7, h8⟩ := h
  constructor <;> simp_all

theorem inv_digital_write_led {s : Globals} (l : Int) (v : Bool) (h : Inv s) :
    Inv (digital_write_led s l v) :=
  inv_of_led _ h

theorem handle_signal_pressed (s : Globals) (pins : Nat → Bool) (tPress tCheck i : Nat)
    (hp : first_pressed pins = some i) :
    handle_signal s pins tPress tCheck =
      { s with
        reflexReactionTime := sub32 (millis tPress) s.reflexSignalStartTime
        winnerPlayer := (i : Int)
        led := Function.update s.led i true
        hasWon :=
          if s.reflexMode = ReflexMode.SINGLE_PLAYER ∧ s.reflexTimeLimit > 0 then
            (if ((sub32 (millis tPress) s.reflexSignalStartTime : Nat) : ℚ) / 1000
                ≤ s.reflexTimeLimit then 1 else 0)
          else s.hasWon
        state := GameState.RESULT } := by
  have hi : i < 4 := ((first_pressed_eq_some pins i).1 hp).1
  have hi2 : (0 : Int) ≤ (i : Int) ∧ (i : Int) < 4 := by omega
  unfold handle_signal
  rw [hp]
  simp only [digital_write_led, hi2, and_self, if_true, Int.toNat_ofNat]
  split_ifs <;> rfl

theorem handle_signal_idle (s : Globals) (pins : Nat → Bool) (tPress tCheck : Nat)
    (hp : first_pressed pins = none) :
    handle_signal s pins tPress tCheck =
      if s.reflexMode = ReflexMode.SINGLE_PLAYER ∧ s.reflexTimeLimit > 0 ∧
          ((sub32 (millis tCheck) s.reflexSignalStartTime : Nat) : ℚ) > s.reflexTimeLimit * 1000
      then { s with state := GameState.RESULT } else s := by
  unfold handle_signal
  rw [hp]
  simp only []
  split_ifs <;> first | rfl | (exfalso; tauto)

theorem inv_handle_signal (s : Globals) (pins : Nat → Bool) (tPress tCheck : Nat) (h : Inv s)
    (hs : s.state = GameState.SHOW_SIGNAL) : Inv (handle_signal s pins tPress tCheck) := by
  obtain ⟨h1, h2, h3, h4, h5, h6, h7, h8⟩ := h
  cases hp : first_pressed pins with
  | none =>
    rw [handle_signal_idle _ _ _ _ hp]
    split_ifs
    · constructor <;> simp_all
    · constructor <;> simp_all
  | some i =>
    have hi : i < 4 := ((first_pressed_eq_some pins i).1 hp).1
    rw [handle_signal_pressed _ _ _ _ _ hp]
    constructor <;> simp_all [SentinelOrIndex]

theorem blink_eq (l : List Nat) (s : Globals) :
    ∃ f, l.foldl (fun g _ =>
        digital_write_led (digital_write_led g g.cheaterPlayer true) g.cheaterPlayer false) s
      = { s with led := f } := by
  induction l generalizing s with
  | nil => exact ⟨s.led, rfl⟩
  | cons a l ih =>
    obtain ⟨f, hf⟩ :=
      ih (digital_write_led (digital_write_led s s.cheaterPlayer true) s.cheaterPlayer false)
    exact ⟨f, by rw [List.foldl_cons, hf]; rfl⟩

theorem show_reflex_result_eq (s : Globals) :
    ∃ f, show_reflex_result s =
      { s with led := f, hasCheated := 0, signalGiven := 0, reflexButtonPressed := -1,
               hasWon := 0, state := GameState.MENU } := by
  unfold show_reflex_result
  split_ifs
  · obtain ⟨f, hf⟩ := blink_eq (List.range 3) s
    simp only []
    rw [hf]
    exact ⟨f, rfl⟩
  · exact ⟨_, rfl⟩
  · exact ⟨_, rfl⟩

theorem inv_show_reflex_result (s : Globals) (h : Inv s) (hs : s.state = GameState.RESULT) :
    Inv (show_reflex_result s) := by
  obtain ⟨f, hf⟩ := show_reflex_result_eq s
  rw [hf]
  obtain ⟨h1, h2, h3, h4, h5, h6, h7, h8⟩ := h
  constructor <;> simp_all

theorem foldl_led_eq (l : List Nat) (v : Bool) (s : Globals) :
    ∃ f, l.foldl (fun g (i : Nat) => digital_write_led g (i : Int) v) s = { s with led := f } := by
  induction l generalizing s with
  | nil => exact ⟨s.led, rfl⟩
  | cons a l ih =>
    obtain ⟨f, hf⟩ := ih (digital_write_led s (a : Int) v)
    exact ⟨f, by rw [List.foldl_cons, hf]; rfl⟩

theorem show_timing_result_eq (s : Globals) :
    ∃ f, show_timing_result s = { s with led := f, state := GameState.MENU } := by
  unfold show_timing_result
  split_ifs
  · exact ⟨_, rfl⟩
  · obtain ⟨f, hf⟩ := foldl_led_eq (List.range s.selectedTimingPlayers.toNat) false s
    rw [hf]
    exact ⟨f, rfl⟩

theorem inv_show_timing_result (s : Globals) (h : Inv s)
    (hs : s.state = GameState.TARGET_RESULT) : Inv (show_timing_result s) := by
  obtain ⟨f, hf⟩ := show_timing_result_eq s
  rw [hf]
  obtain ⟨h1, h2, h3, h4, h5, h6, h7, h8⟩ := h
  constructor <;> simp_all

theorem wait_signal_loop_inv (start waitTime tSignal : Nat) (s : Globals) (polls : List Poll)
    (t : Globals) (h : Inv s) (h0 : s.winnerPlayer = -1 ∧ s.hasWon = 0 ∧ s.hasCheated = 0)
    (hs : s.state = GameState.WAIT_SIGNAL)
    (hr : wait_signal_loop start waitTime tSignal s polls = some t) : Inv t := by
  induction polls with
  | nil => simp [wait_signal_loop] at hr
  | cons p rest ih =>
    obtain ⟨h1, h2, h3, h4, h5, h6, h7, h8⟩ := h
    unfold wait_signal_loop at hr
    split_ifs at hr with hlt
    · cases hp : first_pressed p.pins with
      | none =>
        rw [hp] at hr
        exact ih hr
      | some i =>
        rw [hp] at hr
        have hi : i < 4 := ((first_pressed_eq_some p.pins i).1 hp).1
        simp only [Option.some.injEq] at hr
        subst hr
        constructor <;> simp_all [SentinelOrIndex]
    · simp only [Option.some.injEq] at hr
      subst hr
      constructor <;> simp_all

theorem inv_wait_signal (s : Globals) (tStart : Nat) (polls : List Poll) (tSignal : Nat)
    (t : Globals) (h : Inv s) (hs : s.state = GameState.WAIT_SIGNAL)
    (hr : wait_signal s tStart polls tSignal = some t) : Inv t := by
  unfold wait_signal at hr
  refine wait_signal_loop_inv _ _ _ _ _ _ ?_ ?_ ?_ hr
  · obtain ⟨h1, h2, h3, h4, h5, h6, h7, h8⟩ := h
    constructor <;> simp_all [SentinelOrIndex]
  · simp
  · exact hs

theorem record_press_eq (s : Globals) (i now : Nat) :
    record_press s i now =
      { s with
        playerTimes := Function.update s.playerTimes i (sub32 (millis now) s.timingStartTime)
        playerPressed := Function.update s.playerPressed i 1
        led := (digital_write_led s (i : Int) true).led
        playersFinished := s.playersFinished + 1
        bestDifference :=
          if difference (sub32 (millis now) s.timingStartTime) < s.bestDifference then
            difference (sub32 (millis now) s.timingStartTime) else s.bestDifference
        bestPlayer :=
          if difference (sub32 (millis now) s.timingStartTime) < s.bestDifference then (i : Int)
          else s.bestPlayer } := by
  unfold record_press
  simp only [digital_write_led, Function.update_same]
  split_ifs <;> rfl

theorem wait_target_loop_nil (pins : Nat → Bool) (clk : Nat → Nat) (s : Globals) :
    wait_target_loop pins clk [] s = s := rfl

theorem wait_target_loop_cons (pins : Nat → Bool) (clk : Nat → Nat) (i : Nat) (rest : List Nat)
    (s : Globals) :
    wait_target_loop pins clk (i :: rest) s =
      if digital_read_btn pins i = true ∧ s.playerPressed i = 0 then
        if (record_press s i (clk i)).playersFinished ≥ (record_press s i (clk i)).selectedTimingPlayers
        then { record_press s i (clk i) with state := GameState.TARGET_RESULT }
        else wait_target_loop pins clk rest (record_press s i (clk i))
      else wait_target_loop pins clk rest s := rfl

theorem timingFrame_refl (s : Globals) : TimingFrame s s := rfl

theorem timingFrame_trans {s t u : Globals} (h1 : TimingFrame s t) (h2 : TimingFrame t u) :
    TimingFrame s u := by
  unfold TimingFrame at *
  rw [h2, h1]

theorem timingFrame_record_press (s : Globals) (i now : Nat) :
    TimingFrame s (record_press s i now) := by
  unfold TimingFrame
  rw [record_press_eq]

theorem timingFrame_state {s : Globals} (st : GameState) : TimingFrame s { s with state := st } :=
  rfl

theorem wait_target_loop_frame (pins : Nat → Bool) (clk : Nat → Nat) (l : List Nat)
    (s : Globals) :
    TimingFrame s (wait_target_loop pins clk l s) ∧
    ((wait_target_loop pins clk l s).state = s.state ∨
      (wait_target_loop pins clk l s).state = GameState.TARGET_RESULT) ∧
    ((wait_target_loop pins clk l s).bestPlayer = s.bestPlayer ∨
      ∃ i ∈ l, (wait_target_loop pins clk l s).bestPlayer = (i : Int)) := by
  induction l generalizing s with
  | nil => exact ⟨timingFrame_refl s, Or.inl rfl, Or.inl rfl⟩
  | cons i rest ih =>
    have hb : (record_press s i (clk i)).bestPlayer = s.bestPlayer ∨
        (record_press s i (clk i)).bestPlayer = (i : Int) := by
      rw [record_press_eq]
      simp only []
      split_ifs
      · exact Or.inr rfl
      · exact Or.inl rfl
    have hs1 : (record_press s i (clk i)).state = s.state := by rw [record_press_eq]
    rw [wait_target_loop_cons]
    split_ifs with hc hfin
    · refine ⟨timingFrame_trans (timingFrame_record_press s i _) (timingFrame_state _),
        Or.inr rfl, ?_⟩
      rcases hb with hb | hb
      · exact Or.inl hb
      · exact Or.inr ⟨i, List.mem_cons_self _ _, hb⟩
    · obtain ⟨hf, hst, hbp⟩ := ih (record_press s i (clk i))
      refine ⟨timingFrame_trans (timingFrame_record_press s i _) hf, ?_, ?_⟩
      · rw [hs1] at hst; exact hst
      · rcases hbp with hbp | ⟨j, hj, hbp⟩
        · rw [hbp]
          rcases hb with hb | hb
          · exact Or.inl hb
          · exact Or.inr ⟨i, List.mem_cons_self _ _, hb⟩
        · exact Or.inr ⟨j, List.mem_cons_of_mem _ hj, hbp⟩
    · obtain ⟨hf, hst, hbp⟩ := ih s
      refine ⟨hf, hst, ?_⟩
      rcases hbp with hbp | ⟨j, hj, hbp⟩
      · exact Or.inl hbp
      · exact Or.inr ⟨j, List.mem_cons_of_mem _ hj, hbp⟩

theorem inv_wait_target (s : Globals) (pins : Nat → Bool) (clk : Nat → Nat) (h : Inv s)
    (hs : s.state = GameState.WAIT_TARGET) : Inv (wait_target s pins clk) := by
  obtain ⟨h1, h2, h3, h4, h5, h6, h7, h8⟩ := h
  unfold wait_target
  split_ifs with hn
  · cases hp : first_pressed pins with
    | none => constructor <;> simp_all
    | some i =>
      simp only [digital_write_led]
      constructor <;> simp_all
  · obtain ⟨hf, hst, hbp⟩ :=
      wait_target_loop_frame pins clk (List.range s.selectedTimingPlayers.toNat) s
    generalize wait_target_loop pins clk (List.range s.selectedTimingPlayers.toNat) s = t at *
    have hb : t.bestPlayer < s.selectedTimingPlayers ∧ SentinelOrIndex t.bestPlayer := by
      rcases hbp with hbp | ⟨j, hj, hbp⟩
      · rw [hbp]; exact ⟨h6 (by rw [hs]; decide), h3⟩
      · rw [List.mem_range] at hj
        rw [hbp]
        refine ⟨by omega, Or.inr ⟨by omega, by omega⟩⟩
    unfold TimingFrame at hf
    have e1 : t.winnerPlayer = s.winnerPlayer := by rw [hf]
    have e2 : t.cheaterPlayer = s.cheaterPlayer := by rw [hf]
    have e3 : t.selectedTimingPlayers = s.selectedTimingPlayers := by rw [hf]
    have e4 : t.selectedDifficulty = s.selectedDifficulty := by rw [hf]
    have e5 : t.hasCheated = s.hasCheated := by rw [hf]
    have e6 : t.hasWon = s.hasWon := by rw [hf]
    have e7 : t.signalGiven = s.signalGiven := by rw [hf]
    have hch : s.hasCheated = 0 := by
      by_contra hne
      have := (h8 hne).2.2
      rw [hs] at this
      exact absurd this (by decide)
    constructor
    · rw [e1]; exact h1
    · rw [e2]; exact h2
    · exact hb.2
    · rw [e3]; exact h4
    · rw [e4]; exact h5
    · intro _; rw [e3]; exact hb.1
    · intro hsh
      rcases hst with hst | hst
      · rw [hst, hs] at hsh; exact absurd hsh (by decide)
      · rw [hst] at hsh; exact absurd hsh (by decide)
    · intro hne
      rw [e5] at hne
      exact absurd hch hne

theorem inv_step (s t : Globals) (x : Input) (h : Inv s) (hst : step s x = some t) : Inv t := by
  unfold step at hst
  split at hst
  · rename_i hs; simp only [Option.some.injEq] at hst; subst hst; exact inv_handle_menu _ _ h hs
  · rename_i hs; simp only [Option.some.injEq] at hst; subst hst
    exact inv_select_reflex_mode _ _ h hs
  · rename_i hs; simp only [Option.some.injEq] at hst; subst hst
    exact inv_select_difficulty _ _ h hs
  · rename_i hs; exact inv_wait_signal _ _ _ _ _ h hs hst
  · rename_i hs; simp only [Option.some.injEq] at hst; subst hst
    exact inv_handle_signal _ _ _ _ h hs
  · rename_i hs; simp only [Option.some.injEq] at hst; subst hst
    exact inv_show_reflex_result _ h hs
  · rename_i hs; simp only [Option.some.injEq] at hst; subst hst
    exact inv_select_timing_players _ _ _ h hs
  · rename_i hs; simp only [Option.some.injEq] at hst; subst hst; exact inv_wait_target _ _ _ h hs
  · rename_i hs; simp only [Option.some.injEq] at hst; subst hst
    exact inv_show_timing_result _ h hs

theorem reachable_inv (s : Globals) (h : Reachable s) : Inv s := by
  induction h with
  | init => exact inv_initial
  | next x _ hst ih => exact inv_step _ _ x ih hst

theorem reachable_run (s t : Globals) (xs : List Input) (h : Reachable s)
    (hr : run s xs = some t) : Reachable t := by
  induction xs generalizing s with
  | nil => simp only [run, Option.some.injEq] at hr; subst hr; exact h
  | cons x rest ih =>
    simp only [run] at hr
    cases hx : step s x with
    | none => rw [hx] at hr; simp at hr
    | some u => rw [hx] at hr; exact ih u (Reachable.next x h hx) hr

/-! ## Reflex mode -/

/-- C1: in single-player mode with `reflexTimeLimit = difficultyLimits[d]`, a
`handle_signal` step that reads a button pressed sets `hasWon` to 1 exactly
when the reaction time `t` satisfies `t / 1000 <= difficultyLimits[d]`, that
is `t <= 400, 250, 160, 130` ms for `d = 0, 1, 2, 3` (the boundary press
wins), and to 0 otherwise; the step ends in `RESULT` with the first pressed
button as winner and `t` as reaction time. -/
theorem reflex_single_win_iff (s : Globals) (pins : Nat → Bool) (tPress tCheck d i : Nat)
    (hd : d < 4) (hmode : s.reflexMode = ReflexMode.SINGLE_PLAYER)
    (hlim : s.reflexTimeLimit = difficultyLimits.getD d 0)
    (hi : i < 4) (hpi : pins i = true) (hfirst : ∀ j < i, pins j = false) :
    ((handle_signal s pins tPress tCheck).hasWon = 1 ↔
      ((sub32 (millis tPress) s.reflexSignalStartTime : Nat) : ℚ) / 1000
        ≤ difficultyLimits.getD d 0) ∧
    ((handle_signal s pins tPress tCheck).hasWon = 1 ↔
      sub32 (millis tPress) s.reflexSignalStartTime ≤ [400, 250, 160, 130].getD d 0) ∧
    ((handle_signal s pins tPress tCheck).hasWon = 1 ∨
      (handle_signal s pins tPress tCheck).hasWon = 0) ∧
    (handle_signal s pins tPress tCheck).state = GameState.RESULT ∧
    (handle_signal s pins tPress tCheck).winnerPlayer = (i : Int) ∧
    (handle_signal s pins tPress tCheck).reflexReactionTime
      = sub32 (millis tPress) s.reflexSignalStartTime := by
  have hp : first_pressed pins = some i := (first_pressed_eq_some pins i).2 ⟨hi, hpi, hfirst⟩
  have hpos : s.reflexTimeLimit > 0 := by
    rw [hlim]
    interval_cases d <;> simp [difficultyLimits]
  have hms : ((sub32 (millis tPress) s.reflexSignalStartTime : Nat) : ℚ) / 1000
        ≤ difficultyLimits.getD d 0 ↔
      sub32 (millis tPress) s.reflexSignalStartTime ≤ [400, 250, 160, 130].getD d 0 := by
    generalize sub32 (millis tPress) s.reflexSignalStartTime = t
    rw [div_le_iff₀ (by norm_num : (0 : ℚ) < 1000)]
    interval_cases d <;> simp only [difficultyLimits, List.getD_cons_zero, List.getD_cons_succ] <;>
      norm_num
  have hw : (handle_signal s pins tPress tCheck).hasWon =
      if ((sub32 (millis tPress) s.reflexSignalStartTime : Nat) : ℚ) / 1000
        ≤ difficultyLimits.getD d 0 then 1 else 0 := by
    rw [handle_signal_pressed _ _ _ _ _ hp, ← hlim]
    exact if_pos ⟨hmode, hpos⟩
  have hiff : (handle_signal s pins tPress tCheck).hasWon = 1 ↔
      ((sub32 (millis tPress) s.reflexSignalStartTime : Nat) : ℚ) / 1000
        ≤ difficultyLimits.getD d 0 := by
    rw [hw]
    by_cases h : ((sub32 (millis tPress) s.reflexSignalStartTime : Nat) : ℚ) / 1000
        ≤ difficultyLimits.getD d 0
    · rw [if_pos h]; exact ⟨fun _ => h, fun _ => rfl⟩
    · rw [if_neg h]; exact ⟨fun h0 => absurd h0 (by decide), fun h1 => absurd h1 h⟩
  refine ⟨hiff, hiff.trans hms, ?_, ?_, ?_, ?_⟩
  · rw [hw]
    split_ifs
    · exact Or.inl rfl
    · exact Or.inr rfl
  · rw [handle_signal_pressed _ _ _ _ _ hp]
  · rw [handle_signal_pressed _ _ _ _ _ hp]
  · rw [handle_signal_pressed _ _ _ _ _ hp]

/-- Witness of C1: on Easy a press 350 ms after the signal is a win. -/
theorem reflex_single_win_iff_witness :
    (handle_signal easyTrial (pressed [0]) 6350 6351).hasWon = 1 ∧
    (handle_signal easyTrial (pressed [0]) 6350 6351).state = GameState.RESULT :=
  have h := reflex_single_win_iff easyTrial (pressed [0]) 6350 6351 0 0 (by decide) rfl rfl
    (by decide) (by decide) (by intro j hj; omega)
  ⟨h.2.1.2 (by decide), h.2.2.2.1⟩

/-- C8: if the clock read `earlier` and a duration `d < 2^32` has passed, so
that it now reads `(earlier + d) mod 2^32`, the unsigned difference
`sub32 now earlier` that the handlers compute is `d`, also when the counter
wrapped (`now < earlier`); the same holds for the readings `millis` takes of
a counter `c` that ran on by `d`. -/
theorem clock_wraparound (earlier d c : Nat) (hd : d < 4294967296) :
    sub32 ((earlier + d) % 4294967296) earlier = d ∧
    sub32 (millis (c + d)) (millis c) = d := by
  unfold sub32 millis
  omega

/-- Witness of C8: a reading of 4294967000 followed 500 ms later by the wrapped
reading 204. -/
theorem clock_wraparound_witness :
    (4294967000 + 500) % 4294967296 = 204 ∧ sub32 204 4294967000 = 500 :=
  ⟨by decide, (clock_wraparound 4294967000 500 0 (by decide)).1⟩

theorem random_delay_bounds (lfsr : Nat) :
    2000 ≤ (random_range lfsr 2000 5000).2 ∧ (random_range lfsr 2000 5000).2 < 5000 := by
  unfold random_range random_value
  have h3 : (5000 + (65536 - 2000 % 65536)) % 65536 = 3000 := by decide
  simp only [h3]
  omega

theorem wait_signal_loop_quiet (start waitTime tSignal : Nat) (s : Globals)
    (pre rest : List Poll)
    (hq : ∀ q ∈ pre, sub32 (millis q.clock) start < waitTime ∧ ∀ i < 4, q.pins i = false) :
    wait_signal_loop start waitTime tSignal s (pre ++ rest) =
      wait_signal_loop start waitTime tSignal s rest := by
  induction pre with
  | nil => rfl
  | cons q pre ih =>
    have hq0 := hq q (List.mem_cons_self _ _)
    have hn : first_pressed q.pins = none := (first_pressed_eq_none q.pins).2 hq0.2
    rw [List.cons_append, wait_signal_loop, if_pos hq0.1, hn]
    exact ih (fun r hr => hq r (List.mem_cons_of_mem _ hr))

theorem wait_signal_loop_signal (start waitTime tSignal : Nat) (s t : Globals)
    (polls : List Poll) (hr : wait_signal_loop start waitTime tSignal s polls = some t)
    (hst : t.state = GameState.SHOW_SIGNAL) :
    t = { s with signalGiven := 1, reflexSignalStartTime := millis tSignal,
                 state := GameState.SHOW_SIGNAL } ∧
    ∃ pre p post, polls = pre ++ p :: post ∧
      (∀ q ∈ pre, sub32 (millis q.clock) start < waitTime ∧ ∀ i < 4, q.pins i = false) ∧
      waitTime ≤ sub32 (millis p.clock) start := by
  induction polls with
  | nil => simp [wait_signal_loop] at hr
  | cons p rest ih =>
    unfold wait_signal_loop at hr
    split_ifs at hr with hlt
    · cases hp : first_pressed p.pins with
      | none =>
        rw [hp] at hr
        obtain ⟨h1, pre, p1, post, he, hq, hge⟩ := ih hr
        refine ⟨h1, p :: pre, p1, post, by rw [he]; rfl, ?_, hge⟩
        intro q hqm
        rcases List.mem_cons.1 hqm with rfl | hqm
        · exact ⟨hlt, (first_pressed_eq_none _).1 hp⟩
        · exact hq q hqm
      | some i =>
        rw [hp] at hr
        simp only [Option.some.injEq] at hr
        rw [← hr] at hst
        exact absurd hst (by simp)
    · simp only [Option.some.injEq] at hr
      exact ⟨hr.symm, [], p, rest, rfl, by simp, Nat.le_of_not_lt hlt⟩

/-- C2: the delay drawn by `wait_signal` lies in `[2000, 5000)`; the handler
ends in `SHOW_SIGNAL` (with `signalGiven = 1`, `hasCheated = 0`) only if
every poll before the one that saw `elapsed >= d` had `elapsed < d` and no
button pressed, and it does so whenever such a poll follows quiet polls; and
at the first poll with `elapsed < d` that reads a button pressed it returns
with `state = RESULT`, `hasCheated = 1`, `cheaterPlayer` the first pressed
button, `signalGiven = 0` and `reflexSignalStartTime` untouched. -/
theorem cheat_detection (s : Globals) (tStart tSignal : Nat) (polls : List Poll) :
    (2000 ≤ (random_range s.lfsr 2000 5000).2 ∧ (random_range s.lfsr 2000 5000).2 < 5000) ∧
    (∀ t, wait_signal s tStart polls tSignal = some t → t.state = GameState.SHOW_SIGNAL →
      t.signalGiven = 1 ∧ t.hasCheated = 0 ∧ t.reflexSignalStartTime = millis tSignal ∧
      ∃ pre p post, polls = pre ++ p :: post ∧
        (∀ q ∈ pre, sub32 (millis q.clock) (millis tStart) < (random_range s.lfsr 2000 5000).2 ∧
          ∀ i < 4, q.pins i = false) ∧
        (random_range s.lfsr 2000 5000).2 ≤ sub32 (millis p.clock) (millis tStart)) ∧
    (∀ pre p post, polls = pre ++ p :: post →
      (∀ q ∈ pre, sub32 (millis q.clock) (millis tStart) < (random_range s.lfsr 2000 5000).2 ∧
        ∀ i < 4, q.pins i = false) →
      (random_range s.lfsr 2000 5000).2 ≤ sub32 (millis p.clock) (millis tStart) →
      ∃ t, wait_signal s tStart polls tSignal = some t ∧ t.state = GameState.SHOW_SIGNAL ∧
        t.signalGiven = 1 ∧ t.hasCheated = 0 ∧ t.cheaterPlayer = -1 ∧
        t.reflexSignalStartTime = millis tSignal) ∧
    (∀ pre p post (i : Nat), polls = pre ++ p :: post →
      (∀ q ∈ pre, sub32 (millis q.clock) (millis tStart) < (random_range s.lfsr 2000 5000).2 ∧
        ∀ i < 4, q.pins i = false) →
      sub32 (millis p.clock) (millis tStart) < (random_range s.lfsr 2000 5000).2 →
      i < 4 → p.pins i = true → (∀ j < i, p.pins j = false) →
      ∃ t, wait_signal s tStart polls tSignal = some t ∧ t.state = GameState.RESULT ∧
        t.hasCheated = 1 ∧ t.cheaterPlayer = (i : Int) ∧ t.signalGiven = 0 ∧
        t.reflexSignalStartTime = s.reflexSignalStartTime) := by
  refine ⟨random_delay_bounds s.lfsr, ?_, ?_, ?_⟩
  · intro t hr hst
    unfold wait_signal at hr
    obtain ⟨ht, hdec⟩ := wait_signal_loop_signal _ _ _ _ _ _ hr hst
    refine ⟨?_, ?_, ?_, hdec⟩ <;> rw [ht]
  · intro pre p post he hq hge
    unfold wait_signal
    simp only []
    rw [he, wait_signal_loop_quiet _ _ _ _ pre (p :: post) hq, wait_signal_loop,
      if_neg (Nat.not_lt.2 hge)]
    exact ⟨_, rfl, rfl, rfl, rfl, rfl, rfl⟩
  · intro pre p post i he hq hlt hi hpi hfirst
    have hp : first_pressed p.pins = some i := (first_pressed_eq_some _ _).2 ⟨hi, hpi, hfirst⟩
    unfold wait_signal
    simp only []
    rw [he, wait_signal_loop_quiet _ _ _ _ pre (p :: post) hq, wait_signal_loop, if_pos hlt, hp]
    exact ⟨_, rfl, rfl, rfl, rfl, rfl, rfl⟩

/-- Witness of C2: from the initial generator state the delay is 4060 ms; a
press of button 2 at the second poll, 3000 ms after the start, is a cheat. -/
theorem cheat_detection_witness :
    ∃ t, wait_signal initial 100 [⟨1100, pressed []⟩, ⟨3100, pressed [2, 3]⟩] 0 = some t ∧
      t.state = GameState.RESULT ∧ t.hasCheated = 1 ∧ t.cheaterPlayer = 2 ∧
      t.signalGiven = 0 ∧ t.reflexSignalStartTime = initial.reflexSignalStartTime :=
  (cheat_detection initial 100 0 [⟨1100, pressed []⟩, ⟨3100, pressed [2, 3]⟩]).2.2.2
    [⟨1100, pressed []⟩] ⟨3100, pressed [2, 3]⟩ [] 2 rfl
    (by
      intro q hq
      rw [List.mem_singleton] at hq
      subst hq
      exact ⟨by decide, by decide⟩)
    (by decide) (by decide) (by decide) (by decide)

theorem easyRun_eq : run initial easyRun = some easyTrial := by
  rfl

theorem easyTrial_reachable : Reachable easyTrial :=
  reachable_run initial easyTrial easyRun Reachable.init easyRun_eq

theorem multiWait_reachable : Reachable multiWait :=
  reachable_run initial multiWait [sample [1] 0, sample [0, 1] 0] Reachable.init rfl

theorem pressed_nil (i : Nat) : pressed [] i = false := by
  simp [pressed]

/-- C4: in a reachable `SHOW_SIGNAL` state, a `handle_signal` step that reads
no button pressed, in single-player mode with a positive limit, ends in
`RESULT` with `winnerPlayer = -1` and `hasWon = 0` exactly when the elapsed
time since the signal is strictly greater than `limit * 1000` ms, and
otherwise leaves the state unchanged in `SHOW_SIGNAL`; in multiplayer mode
such a step always leaves the state unchanged in `SHOW_SIGNAL`. -/
theorem reflex_timeout_iff (s : Globals) (pins : Nat → Bool) (tPress tCheck : Nat)
    (hr : Reachable s) (hs : s.state = GameState.SHOW_SIGNAL)
    (hq : ∀ i < 4, pins i = false) :
    (s.reflexMode = ReflexMode.SINGLE_PLAYER → s.reflexTimeLimit > 0 →
      (((handle_signal s pins tPress tCheck).state = GameState.RESULT ∧
          (handle_signal s pins tPress tCheck).winnerPlayer = -1 ∧
          (handle_signal s pins tPress tCheck).hasWon = 0) ↔
        ((sub32 (millis tCheck) s.reflexSignalStartTime : Nat) : ℚ)
          > s.reflexTimeLimit * 1000) ∧
      (¬ ((sub32 (millis tCheck) s.reflexSignalStartTime : Nat) : ℚ)
            > s.reflexTimeLimit * 1000 →
        handle_signal s pins tPress tCheck = s ∧
        (handle_signal s pins tPress tCheck).state = GameState.SHOW_SIGNAL)) ∧
    (s.reflexMode = ReflexMode.MULTIPLAYER →
      handle_signal s pins tPress tCheck = s ∧
      (handle_signal s pins tPress tCheck).state = GameState.SHOW_SIGNAL) := by
  have hp : first_pressed pins = none := (first_pressed_eq_none pins).2 hq
  have hinv := (reachable_inv s hr).signalShown hs
  rw [handle_signal_idle _ _ _ _ hp]
  constructor
  · intro hm hpos
    by_cases h : ((sub32 (millis tCheck) s.reflexSignalStartTime : Nat) : ℚ)
        > s.reflexTimeLimit * 1000
    · rw [if_pos ⟨hm, hpos, h⟩]
      exact ⟨⟨fun _ => h, fun _ => ⟨rfl, hinv.1, hinv.2.1⟩⟩, fun hn => absurd h hn⟩
    · rw [if_neg (fun hc => h hc.2.2)]
      refine ⟨⟨fun hc => ?_, fun hc => absurd hc h⟩, fun _ => ⟨rfl, hs⟩⟩
      rw [hs] at hc
      exact absurd hc.1 (by decide)
  · intro hm
    rw [if_neg (fun hc => by rw [hm] at hc; exact absurd hc.1 (by decide))]
    exact ⟨rfl, hs⟩

/-- Witness of C4: on Easy, with no button pressed, the trial times out at
401 ms after the signal and not at 400 ms. -/
theorem reflex_timeout_iff_witness :
    (handle_signal easyTrial (pressed []) 0 6401).state = GameState.RESULT ∧
    (handle_signal easyTrial (pressed []) 0 6401).winnerPlayer = -1 ∧
    (handle_signal easyTrial (pressed []) 0 6401).hasWon = 0 ∧
    (handle_signal easyTrial (pressed []) 0 6400).state = GameState.SHOW_SIGNAL :=
  have h1 := (reflex_timeout_iff easyTrial (pressed []) 0 6401 easyTrial_reachable rfl
    (fun i _ => pressed_nil i)).1 rfl (by norm_num [easyTrial])
  have h2 := (reflex_timeout_iff easyTrial (pressed []) 0 6400 easyTrial_reachable rfl
    (fun i _ => pressed_nil i)).1 rfl (by norm_num [easyTrial])
  have a := h1.1.2 (by norm_num [easyTrial, sub32, millis])
  ⟨a.1, a.2.1, a.2.2, (h2.2 (by norm_num [easyTrial, sub32, millis])).2⟩

theorem wait_signal_loop_fields (start waitTime tSignal : Nat) (s t : Globals)
    (polls : List Poll) (hr : wait_signal_loop start waitTime tSignal s polls = some t) :
    t.reflexMode = s.reflexMode ∧ t.hasWon = s.hasWon ∧ t.reflexTimeLimit = s.reflexTimeLimit := by
  induction polls with
  | nil => simp [wait_signal_loop] at hr
  | cons p rest ih =>
    unfold wait_signal_loop at hr
    split_ifs at hr with hlt
    · cases hp : first_pressed p.pins with
      | none => rw [hp] at hr; exact ih hr
      | some i =>
        rw [hp] at hr
        simp only [Option.some.injEq] at hr
        rw [← hr]
        exact ⟨rfl, rfl, rfl⟩
    · simp only [Option.some.injEq] at hr
      rw [← hr]
      exact ⟨rfl, rfl, rfl⟩

theorem handle_signal_idle_multi (s : Globals) (idle : List Input)
    (hm : s.reflexMode = ReflexMode.MULTIPLAYER)
    (hq : ∀ x ∈ idle, ∀ i < 4, x.pins i = false) :
    idle.foldl (fun g x => handle_signal g x.pins (x.clk 0) x.now) s = s := by
  induction idle with
  | nil => rfl
  | cons x rest ih =>
    have hp : first_pressed x.pins = none :=
      (first_pressed_eq_none x.pins).2 (hq x (List.mem_cons_self _ _))
    rw [List.foldl_cons, handle_signal_idle _ _ _ _ hp,
      if_neg (fun hc => by rw [hm] at hc; exact absurd hc.1 (by decide))]
    exact ih (fun y hy => hq y (List.mem_cons_of_mem _ hy))

/-- C6: in a multiplayer reflex trial started by `wait_signal`, the
`handle_signal` steps that read no button pressed leave the state unchanged
(no timeout), and the step that reads a button pressed sets `winnerPlayer`
to the first pressed button, `reflexReactionTime` to the clock reading minus
the signal time, and `state` to `RESULT`, while `hasWon` stays 0. -/
theorem multiplayer_no_verdict (s0 s1 : Globals) (tStart tSignal : Nat) (polls : List Poll)
    (idle : List Input) (pins : Nat → Bool) (tPress tCheck i : Nat)
    (hm : s0.reflexMode = ReflexMode.MULTIPLAYER)
    (hw : wait_signal s0 tStart polls tSignal = some s1)
    (hsh : s1.state = GameState.SHOW_SIGNAL)
    (hq : ∀ x ∈ idle, ∀ i < 4, x.pins i = false)
    (hi : i < 4) (hpi : pins i = true) (hfirst : ∀ j < i, pins j = false) :
    idle.foldl (fun g x => handle_signal g x.pins (x.clk 0) x.now) s1 = s1 ∧
    (handle_signal s1 pins tPress tCheck).winnerPlayer = (i : Int) ∧
    (handle_signal s1 pins tPress tCheck).reflexReactionTime
      = sub32 (millis tPress) (millis tSignal) ∧
    (handle_signal s1 pins tPress tCheck).state = GameState.RESULT ∧
    (handle_signal s1 pins tPress tCheck).hasWon = 0 := by
  have hp : first_pressed pins = some i := (first_pressed_eq_some pins i).2 ⟨hi, hpi, hfirst⟩
  unfold wait_signal at hw
  obtain ⟨hf1, hf2, _⟩ := wait_signal_loop_fields _ _ _ _ _ _ hw
  obtain ⟨ht, _⟩ := wait_signal_loop_signal _ _ _ _ _ _ hw hsh
  have hm1 : s1.reflexMode = ReflexMode.MULTIPLAYER := by rw [hf1]; exact hm
  have hw1 : s1.hasWon = 0 := by rw [hf2]
  have hst : s1.reflexSignalStartTime = millis tSignal := by rw [ht]
  refine ⟨handle_signal_idle_multi s1 idle hm1 hq, ?_, ?_, ?_, ?_⟩
  · rw [handle_signal_pressed _ _ _ _ _ hp]
  · rw [handle_signal_pressed _ _ _ _ _ hp, hst]
  · rw [handle_signal_pressed _ _ _ _ _ hp]
  · rw [handle_signal_pressed _ _ _ _ _ hp]
    simp only []
    rw [if_neg (fun hc => by rw [hm1] at hc; exact absurd hc.1 (by decide))]
    exact hw1

/-- Witness of C6: a multiplayer trial whose signal is given at clock 6000; one
idle step, then button 3 is pressed at clock 8000. -/
theorem multiplayer_no_verdict_witness :
    [sample [] 7000].foldl (fun g x => handle_signal g x.pins (x.clk 0) x.now) multiTrial
      = multiTrial ∧
    (handle_signal multiTrial (pressed [3]) 8000 8001).winnerPlayer = 3 ∧
    (handle_signal multiTrial (pressed [3]) 8000 8001).reflexReactionTime = 2000 ∧
    (handle_signal multiTrial (pressed [3]) 8000 8001).state = GameState.RESULT ∧
    (handle_signal multiTrial (pressed [3]) 8000 8001).hasWon = 0 :=
  have h := multiplayer_no_verdict multiWait multiTrial 1000 6000 [⟨6000, pressed []⟩]
    [sample [] 7000] (pressed [3]) 8000 8001 3 rfl rfl rfl
    (by
      intro x hx i _
      rw [List.mem_singleton] at hx
      subst hx
      exact pressed_nil i)
    (by decide) (by decide) (by decide)
  ⟨h.1, h.2.1, h.2.2.1.trans (by decide), h.2.2.2.1, h.2.2.2.2⟩

/-! ## Sample runs -/

theorem easyWin_reachable : Reachable easyWin :=
  Reachable.next (sample [0] 6350) easyTrial_reachable rfl

theorem easyWin_eq :
    easyWin = { easyTrial with reflexReactionTime := 350, winnerPlayer := 0,
                               led := Function.update easyTrial.led 0 true,
                               hasWon := 1, state := GameState.RESULT } := by
  have hp : first_pressed (pressed [0]) = some 0 := by decide
  unfold easyWin
  rw [handle_signal_pressed _ _ _ _ _ hp]
  have h1 : sub32 (millis 6350) easyTrial.reflexSignalStartTime = 350 := by decide
  rw [h1]
  norm_num [easyTrial, initial]

theorem round2_reachable : Reachable round2 :=
  reachable_run initial round2 [sample [0, 1] 3000, sample [0, 1] 10000] Reachable.init rfl

theorem half2_eq : wait_target round2 (pressed [1]) (fun _ => 21000) = half2 := by
  simp [wait_target, wait_target_loop, record_press_eq, round2, half2, initial, pressed,
    digital_read_btn, digital_write_led, difference_11000, sub32, millis, List.range_succ]

theorem done2_eq : wait_target half2 (pressed [0]) (fun _ => 30000) = done2 := by
  simp [wait_target, wait_target_loop, record_press_eq, round2, half2, done2, initial, pressed,
    digital_read_btn, digital_write_led, difference_20000, sub32, millis, List.range_succ]

theorem done2_reachable : Reachable done2 :=
  Reachable.next (sample [0] 30000)
    (Reachable.next (sample [1] 21000) round2_reachable (congrArg some half2_eq))
    (congrArg some done2_eq)

theorem stale_reachable : Reachable stale :=
  reachable_run done2 stale staleRun done2_reachable rfl

/-! ## Resets and sentinels -/

theorem wait_signal_loop_cases (start waitTime tSignal : Nat) (s t : Globals)
    (polls : List Poll) (hr : wait_signal_loop start waitTime tSignal s polls = some t) :
    t = { s with signalGiven := 1, reflexSignalStartTime := millis tSignal,
                 state := GameState.SHOW_SIGNAL } ∨
    ∃ i : Nat, i < 4 ∧
      t = { s with cheaterPlayer := (i : Int), hasCheated := 1, state := GameState.RESULT } := by
  induction polls with
  | nil => simp [wait_signal_loop] at hr
  | cons p rest ih =>
    unfold wait_signal_loop at hr
    split_ifs at hr with hlt
    · cases hp : first_pressed p.pins with
      | none => rw [hp] at hr; exact ih hr
      | some i =>
        rw [hp] at hr
        simp only [Option.some.injEq] at hr
        exact Or.inr ⟨i, ((first_pressed_eq_some _ _).1 hp).1, hr.symm⟩
    · simp only [Option.some.injEq] at hr
      exact Or.inl hr.symm

/-- C5, as stated, fails: after a won reflex trial `show_reflex_result` leaves
`winnerPlayer = 0` and `reflexReactionTime = 350`. -/
theorem round_trip_reset_counterexample :
    ¬ (∀ s : Globals, Reachable s →
        (s.state = GameState.RESULT →
          (show_reflex_result s).state = GameState.MENU ∧
          (show_reflex_result s).winnerPlayer = -1 ∧
          (show_reflex_result s).cheaterPlayer = -1 ∧
          (show_reflex_result s).hasCheated = 0 ∧
          (show_reflex_result s).hasWon = 0 ∧
          (show_reflex_result s).reflexReactionTime = 0) ∧
        (s.state = GameState.TARGET_RESULT →
          (show_timing_result s).state = GameState.MENU ∧
          (∀ i < 4, (show_timing_result s).playerPressed i = 0 ∧
            (show_timing_result s).playerTimes i = 0) ∧
          (show_timing_result s).playersFinished = 0 ∧
          (show_timing_result s).bestPlayer = -1 ∧
          (show_timing_result s).bestDifference = 999)) := by
  intro h
  have h1 := ((h easyWin easyWin_reachable).1 (by rw [easyWin_eq])).2.1
  have h2 : (show_reflex_result easyWin).winnerPlayer = easyWin.winnerPlayer := by
    obtain ⟨f, hf⟩ := show_reflex_result_eq easyWin
    rw [hf]
  have h3 : easyWin.winnerPlayer = 0 := by rw [easyWin_eq]
  rw [h2, h3] at h1
  exact absurd h1 (by decide)

/-- C5, amended: `show_reflex_result` ends with `state = MENU`, `hasCheated`,
`hasWon` and `signalGiven` 0 and `reflexButtonPressed = -1`, and leaves
`winnerPlayer`, `cheaterPlayer` and `reflexReactionTime` as they are;
`show_timing_result` ends with `state = MENU` and leaves the timing trial as
it is. The other fields are reset when the next trial starts: `wait_signal`
returns with `winnerPlayer = -1` and `hasWon = 0` (and `cheaterPlayer = -1`,
`hasCheated = 0` when it gives the signal), and a select press in
`select_timing_players` clears the timing trial. -/
theorem round_trip_reset (s : Globals) :
    ((show_reflex_result s).state = GameState.MENU ∧
      (show_reflex_result s).hasCheated = 0 ∧
      (show_reflex_result s).hasWon = 0 ∧
      (show_reflex_result s).signalGiven = 0 ∧
      (show_reflex_result s).reflexButtonPressed = -1 ∧
      (show_reflex_result s).winnerPlayer = s.winnerPlayer ∧
      (show_reflex_result s).cheaterPlayer = s.cheaterPlayer ∧
      (show_reflex_result s).reflexReactionTime = s.reflexReactionTime) ∧
    ((show_timing_result s).state = GameState.MENU ∧
      (show_timing_result s).playerPressed = s.playerPressed ∧
      (show_timing_result s).playerTimes = s.playerTimes ∧
      (show_timing_result s).playersFinished = s.playersFinished ∧
      (show_timing_result s).bestPlayer = s.bestPlayer ∧
      (show_timing_result s).bestDifference = s.bestDifference) ∧
    (∀ tStart polls tSignal t, wait_signal s tStart polls tSignal = some t →
      t.winnerPlayer = -1 ∧ t.hasWon = 0 ∧
      (t.state = GameState.SHOW_SIGNAL → t.cheaterPlayer = -1 ∧ t.hasCheated = 0)) ∧
    (∀ pins now, pins 1 = true →
      (select_timing_players s pins now).state = GameState.WAIT_TARGET ∧
      (∀ i, (select_timing_players s pins now).playerPressed i = 0 ∧
        (select_timing_players s pins now).playerTimes i = 0) ∧
      (select_timing_players s pins now).playersFinished = 0 ∧
      (select_timing_players s pins now).bestPlayer = -1 ∧
      (select_timing_players s pins now).bestDifference = 999) := by
  refine ⟨?_, ?_, ?_, ?_⟩
  · obtain ⟨f, hf⟩ := show_reflex_result_eq s
    rw [hf]
    exact ⟨rfl, rfl, rfl, rfl, rfl, rfl, rfl, rfl⟩
  · obtain ⟨f, hf⟩ := show_timing_result_eq s
    rw [hf]
    exact ⟨rfl, rfl, rfl, rfl, rfl, rfl⟩
  · intro tStart polls tSignal t hr
    unfold wait_signal at hr
    rcases wait_signal_loop_cases _ _ _ _ _ _ hr with ht | ⟨i, _, ht⟩
    · rw [ht]
      exact ⟨rfl, rfl, fun _ => ⟨rfl, rfl⟩⟩
    · rw [ht]
      exact ⟨rfl, rfl, fun hc => by simp at hc⟩
  · intro pins now hsel
    have h1 : digital_read_btn pins 1 = true := by simp [digital_read_btn, hsel]
    simp [select_timing_players, h1]

/-- Witness of C5: after the won trial `easyWin` the result handler goes to the
menu and keeps the winner; the next `wait_signal` resets it. -/
theorem round_trip_reset_witness :
    (show_reflex_result easyWin).state = GameState.MENU ∧
    (show_reflex_result easyWin).hasWon = 0 ∧
    (show_reflex_result easyWin).winnerPlayer = 0 ∧
    (∀ t, wait_signal easyWin 8000 [⟨13000, pressed []⟩] 13000 = some t →
      t.winnerPlayer = -1) ∧
    (select_timing_players easyWin (pressed [1]) 8000).bestPlayer = -1 :=
  have h := round_trip_reset easyWin
  ⟨h.1.1, h.1.2.2.1, h.1.2.2.2.2.2.1.trans (by rw [easyWin_eq]),
    fun t ht => (h.2.2.1 8000 [⟨13000, pressed []⟩] 13000 t ht).1,
    (h.2.2.2 (pressed [1]) 8000 (by decide)).2.2.2.1⟩

/-- C7, as stated, fails: in the reachable state `stale` one player is
selected while `bestPlayer` is still 1. -/
theorem sentinel_invariant_counterexample :
    ¬ (∀ s : Globals, Reachable s →
        SentinelOrIndex s.winnerPlayer ∧ SentinelOrIndex s.cheaterPlayer ∧
        SentinelOrIndex s.bestPlayer ∧
        (s.bestPlayer ≠ -1 → s.bestPlayer < s.selectedTimingPlayers)) := by
  intro h
  have h1 := (h stale stale_reachable).2.2.2
  exact absurd (h1 (by decide)) (by decide)

/-- C7, amended: in every reachable state `winnerPlayer`, `cheaterPlayer` and
`bestPlayer` are each `-1` or an index `0..3`, and in every reachable state
other than `SELECT_TIMING_PLAYERS` a `bestPlayer` that is not `-1` is less
than `selectedTimingPlayers`. -/
theorem sentinel_invariant (s : Globals) (h : Reachable s) :
    SentinelOrIndex s.winnerPlayer ∧ SentinelOrIndex s.cheaterPlayer ∧
    SentinelOrIndex s.bestPlayer ∧
    (s.state ≠ GameState.SELECT_TIMING_PLAYERS → s.bestPlayer ≠ -1 →
      s.bestPlayer < s.selectedTimingPlayers) :=
  have hi := reachable_inv s h
  ⟨hi.winner, hi.cheater, hi.best, fun hs _ => hi.bestInRound hs⟩

/-- Witness of C7: the finished two-player round `done2`. -/
theorem sentinel_invariant_witness :
    SentinelOrIndex done2.winnerPlayer ∧ SentinelOrIndex done2.cheaterPlayer ∧
    SentinelOrIndex done2.bestPlayer ∧ done2.bestPlayer < done2.selectedTimingPlayers :=
  have h := sentinel_invariant done2 done2_reachable
  ⟨h.1, h.2.1, h.2.2.1, h.2.2.2 (by decide) (by decide)⟩

/-! ## Timing mode: the initial value of `bestDifference` -/

theorem lateFirst_eq :
    lateFirst = { round2 with
      playerTimes := Function.update (fun _ => 0) 0 2000000
      playerPressed := Function.update (fun _ => 0) 0 1
      playersFinished := 1
      led := Function.update (fun _ => false) 0 true } := by
  simp [lateFirst, wait_target, wait_target_loop, record_press_eq, round2, initial, pressed,
    digital_read_btn, digital_write_led, difference_2000000, sub32, millis, List.range_succ]
  norm_num

theorem lateBoth_eq :
    lateBoth = { round2 with
      state := GameState.TARGET_RESULT
      playerTimes := Function.update (Function.update (fun _ => 0) 0 2000000) 1 2000000
      playerPressed := Function.update (Function.update (fun _ => 0) 0 1) 1 1
      playersFinished := 2
      led := Function.update (Function.update (fun _ => false) 0 true) 1 true } := by
  simp [lateBoth, wait_target, wait_target_loop, record_press_eq, round2, initial, pressed,
    digital_read_btn, digital_write_led, difference_2000000, sub32, millis, List.range_succ]
  norm_num

theorem lateBoth_reachable : Reachable lateBoth :=
  Reachable.next (sample [0, 1] 2010000) round2_reachable rfl

/-- C9, the code at the failing input: in a two-player round freshly reset by
`select_timing_players` at clock 10000, a first press at clock 2010000,
2000000 ms after the start, is recorded with difference 1989 s, and `bestPlayer` stays `-1` and
`bestDifference` stays 999. -/
theorem first_finisher_late :
    round2 = select_timing_players
      { round2 with state := GameState.SELECT_TIMING_PLAYERS } (pressed [1]) 10000 ∧
    lateFirst.playerPressed 0 = 1 ∧ lateFirst.playerTimes 0 = 2000000 ∧
    difference 2000000 = 1989 ∧
    lateFirst.bestPlayer = -1 ∧ lateFirst.bestDifference = 999 := by
  refine ⟨rfl, ?_, ?_, ?_, ?_, ?_⟩
  · rw [lateFirst_eq]; rfl
  · rw [lateFirst_eq]; rfl
  · exact difference_2000000
  · rw [lateFirst_eq]; rfl
  · rw [lateFirst_eq]; rfl

/-- C10, the code at the failing input: the state in which both players of a
two-player round pressed 2000000 ms after its start is reachable, it is in
`TARGET_RESULT` with `bestPlayer = -1`, and the read `playerTimes[bestPlayer]`
of the multiplayer branch of `show_timing_result` is out of bounds. -/
theorem timing_result_reads_sentinel :
    Reachable lateBoth ∧ lateBoth.state = GameState.TARGET_RESULT ∧
    lateBoth.selectedTimingPlayers = 2 ∧ lateBoth.bestPlayer = -1 ∧
    show_timing_result_time lateBoth = none := by
  have hb : lateBoth.bestPlayer = -1 := by rw [lateBoth_eq]; rfl
  have hn : lateBoth.selectedTimingPlayers = 2 := by rw [lateBoth_eq]; rfl
  refine ⟨lateBoth_reachable, by rw [lateBoth_eq], hn, hb, ?_⟩
  unfold show_timing_result_time array_read
  rw [hn, hb]
  rfl

/-! ## Timing mode: the best player of a multiplayer round -/

theorem timingFrame_players {s t : Globals} (h : TimingFrame s t) :
    t.selectedTimingPlayers = s.selectedTimingPlayers := by
  unfold TimingFrame at h
  rw [h]

theorem advance_refl (s : Globals) : Advance s s :=
  ⟨timingFrame_refl s, fun _ h => ⟨h, rfl⟩, Or.inl ⟨rfl, rfl⟩⟩

theorem advance_trans {s t u : Globals} (h1 : Advance s t) (h2 : Advance t u) : Advance s u := by
  refine ⟨timingFrame_trans h1.frame h2.frame, ?_, ?_⟩
  · intro i hi
    obtain ⟨a, b⟩ := h1.keep i hi
    obtain ⟨c, d⟩ := h2.keep i a
    exact ⟨c, d.trans b⟩
  · have hz : ∀ b : Nat, t.playerPressed b = 0 → s.playerPressed b = 0 := by
      intro b hb
      by_contra hne
      exact (h1.keep b hne).1 hb
    rcases h1.best with ⟨a1, a2⟩ | ⟨a1, b, a2, a3⟩
    · rcases h2.best with ⟨c1, c2⟩ | ⟨c1, d, c2, c3⟩
      · exact Or.inl ⟨c1.trans a1, c2.trans a2⟩
      · exact Or.inr ⟨by rw [← a2]; exact c1, d, c2, hz d c3⟩
    · rcases h2.best with ⟨c1, c2⟩ | ⟨c1, d, c2, c3⟩
      · exact Or.inr ⟨by rw [c2]; exact a1, b, c1.trans a2, a3⟩
      · exact Or.inr ⟨lt_trans c1 a1, d, c2, hz d c3⟩

theorem advance_state (s : Globals) (st : GameState) : Advance s { s with state := st } :=
  ⟨timingFrame_state st, fun _ h => ⟨h, rfl⟩, Or.inl ⟨rfl, rfl⟩⟩

theorem bestInv_state {s : Globals} (st : GameState) (h : BestInv s) :
    BestInv { s with state := st } :=
  ⟨h.players, h.bound, h.lower, h.unset, h.isSet, h.bit, h.inRange, h.count⟩

theorem advance_record_press (s : Globals) (i now : Nat) (h0 : s.playerPressed i = 0) :
    Advance s (record_press s i now) := by
  refine ⟨timingFrame_record_press s i now, ?_, ?_⟩
  · intro k hk
    have hne : k ≠ i := fun e => hk (e ▸ h0)
    rw [record_press_eq]
    simp only [Function.update_noteq hne]
    exact ⟨hk, trivial⟩
  · rw [record_press_eq]
    simp only []
    split_ifs with hlt
    · exact Or.inr ⟨hlt, i, rfl, h0⟩
    · exact Or.inl ⟨rfl, rfl⟩

theorem bestInv_record_press (s : Globals) (i now : Nat) (h : BestInv s)
    (h0 : s.playerPressed i = 0) (hi : (i : Int) < s.selectedTimingPlayers) :
    BestInv (record_press s i now) := by
  obtain ⟨hp, hb, hl, hu, hs, hbit, hr, hc⟩ := h
  have hi4 : i < 4 := by omega
  rw [record_press_eq]
  constructor
  · exact hp
  · simp only []
    split_ifs with hlt
    · exact le_trans (le_of_lt hlt) hb
    · exact hb
  · intro k hk
    simp only [] at hk ⊢
    by_cases hki : k = i
    · subst hki
      simp only [Function.update_same]
      split_ifs with hlt
      · exact le_refl _
      · exact le_of_not_lt hlt
    · simp only [Function.update_noteq hki] at hk ⊢
      split_ifs with hlt
      · exact le_trans (le_of_lt hlt) (hl k hk)
      · exact hl k hk
  · simp only []
    split_ifs with hlt
    · intro hneg
      exact hneg.elim
    · exact hu
  · simp only []
    split_ifs with hlt
    · intro _
      refine ⟨i, rfl, ?_, ?_, lt_of_lt_of_le hlt hb⟩
      · simp
      · simp
    · intro hne
      obtain ⟨b, e1, e2, e3, e4⟩ := hs hne
      have hbi : b ≠ i := fun e => e2 (e ▸ h0)
      refine ⟨b, e1, ?_, ?_, e4⟩
      · simpa [Function.update_noteq hbi] using e2
      · simpa [Function.update_noteq hbi] using e3
  · intro k
    simp only []
    by_cases hki : k = i
    · subst hki; simp
    · simp only [Function.update_noteq hki]; exact hbit k
  · intro k hk
    simp only [] at hk ⊢
    by_cases hki : k = i
    · subst hki; exact hi
    · simp only [Function.update_noteq hki] at hk; exact hr k hk
  · simp only []
    rw [hc]
    interval_cases i <;> simp [Function.update] <;> simp_all <;> omega

theorem record_press_state (s : Globals) (i now : Nat) :
    (record_press s i now).state = s.state := by
  rw [record_press_eq]

theorem record_press_players (s : Globals) (i now : Nat) :
    (record_press s i now).selectedTimingPlayers = s.selectedTimingPlayers := by
  rw [record_press_eq]

theorem record_press_pressed (s : Globals) (i now : Nat) :
    (record_press s i now).playerPressed = Function.update s.playerPressed i 1 := by
  rw [record_press_eq]

theorem wait_target_loop_round (pins : Nat → Bool) (clk : Nat → Nat) (l : List Nat)
    (s : Globals) (h : BestInv s) (hs : s.state = GameState.WAIT_TARGET)
    (hl : ∀ i ∈ l, (i : Int) < s.selectedTimingPlayers) :
    BestInv (wait_target_loop pins clk l s) ∧ Running (wait_target_loop pins clk l s) ∧
    Advance s (wait_target_loop pins clk l s) := by
  induction l generalizing s with
  | nil => exact ⟨h, Or.inl hs, advance_refl s⟩
  | cons i rest ih =>
    have hi := hl i (List.mem_cons_self _ _)
    rw [wait_target_loop_cons]
    split_ifs with hc hfin
    · exact ⟨bestInv_state _ (bestInv_record_press s i _ h hc.2 hi), Or.inr ⟨rfl, hfin⟩,
        advance_trans (advance_record_press s i _ hc.2) (advance_state _ _)⟩
    · obtain ⟨a, b, c⟩ := ih (record_press s i (clk i)) (bestInv_record_press s i _ h hc.2 hi)
        (by rw [record_press_state]; exact hs)
        (fun k hk => by rw [record_press_players]; exact hl k (List.mem_cons_of_mem _ hk))
      exact ⟨a, b, advance_trans (advance_record_press s i _ hc.2) c⟩
    · exact ih s h hs (fun k hk => hl k (List.mem_cons_of_mem _ hk))

theorem wait_target_multi (s : Globals) (pins : Nat → Bool) (clk : Nat → Nat)
    (hn : 2 ≤ s.selectedTimingPlayers) :
    wait_target s pins clk =
      wait_target_loop pins clk (List.range s.selectedTimingPlayers.toNat) s := by
  unfold wait_target
  rw [if_neg (by omega)]

theorem mem_range_players (s : Globals) (i : Nat)
    (hi : i ∈ List.range s.selectedTimingPlayers.toNat) : (i : Int) < s.selectedTimingPlayers := by
  rw [List.mem_range] at hi
  omega

theorem wait_target_round (s : Globals) (pins : Nat → Bool) (clk : Nat → Nat) (h : BestInv s)
    (hs : s.state = GameState.WAIT_TARGET) :
    BestInv (wait_target s pins clk) ∧ Running (wait_target s pins clk) ∧
    Advance s (wait_target s pins clk) := by
  rw [wait_target_multi s pins clk h.players.1]
  exact wait_target_loop_round pins clk _ s h hs (mem_range_players s)

theorem wait_target_steps_stopped (s : Globals) (xs : List Input)
    (hs : s.state ≠ GameState.WAIT_TARGET) : wait_target_steps s xs = s := by
  cases xs with
  | nil => rfl
  | cons x rest => rw [wait_target_steps, if_neg hs]

theorem wait_target_steps_append (s : Globals) (pre post : List Input) :
    wait_target_steps s (pre ++ post) = wait_target_steps (wait_target_steps s pre) post := by
  induction pre generalizing s with
  | nil => rfl
  | cons x rest ih =>
    by_cases hs : s.state = GameState.WAIT_TARGET
    · rw [List.cons_append, wait_target_steps, if_pos hs, wait_target_steps, if_pos hs]
      exact ih _
    · rw [wait_target_steps_stopped s _ hs, wait_target_steps_stopped s _ hs,
        wait_target_steps_stopped s _ hs]

theorem wait_target_steps_round (s : Globals) (xs : List Input) (h : BestInv s)
    (hr : Running s) :
    BestInv (wait_target_steps s xs) ∧ Running (wait_target_steps s xs) ∧
    Advance s (wait_target_steps s xs) := by
  induction xs generalizing s with
  | nil => exact ⟨h, hr, advance_refl s⟩
  | cons x rest ih =>
    by_cases hs : s.state = GameState.WAIT_TARGET
    · rw [wait_target_steps, if_pos hs]
      obtain ⟨a, b, c⟩ := wait_target_round s x.pins x.clk h hs
      obtain ⟨d, e, f⟩ := ih _ a b
      exact ⟨d, e, advance_trans c f⟩
    · rw [wait_target_steps_stopped s _ hs]
      exact ⟨h, hr, advance_refl s⟩

theorem bestInv_reset (s : Globals) (pins : Nat → Bool) (now : Nat) (hsel : pins 1 = true)
    (hn : 2 ≤ (select_timing_players s pins now).selectedTimingPlayers ∧
      (select_timing_players s pins now).selectedTimingPlayers ≤ 4) :
    BestInv (select_timing_players s pins now) ∧
    (select_timing_players s pins now).state = GameState.WAIT_TARGET := by
  have h1 : digital_read_btn pins 1 = true := by simp [digital_read_btn, hsel]
  refine ⟨⟨hn, ?_, ?_, ?_, ?_, ?_, ?_, ?_⟩, ?_⟩ <;> simp [select_timing_players, h1]

theorem all_recorded (t : Globals) (h : BestInv t) (hr : Running t)
    (hs : t.state = GameState.TARGET_RESULT) (i : Nat)
    (hi : (i : Int) < t.selectedTimingPlayers) : t.playerPressed i = 1 := by
  have hfin : t.selectedTimingPlayers ≤ t.playersFinished := by
    rcases hr with hw | ⟨_, hf⟩
    · rw [hs] at hw; exact absurd hw (by decide)
    · exact hf
  have hc := h.count
  have hp := h.players
  have b0 := h.bit 0
  have b1 := h.bit 1
  have b2 := h.bit 2
  have b3 := h.bit 3
  have r0 := h.inRange 0
  have r1 := h.inRange 1
  have r2 := h.inRange 2
  have r3 := h.inRange 3
  have hi4 : i < 4 := by omega
  interval_cases i <;> omega

theorem tie_of_advance (u t : Globals) (hu : BestInv u) (ht : BestInv t) (ha : Advance u t)
    (j b : Nat) (hb : t.bestPlayer = (b : Int)) (hj : u.playerPressed j ≠ 0)
    (hb0 : u.playerPressed b = 0) :
    difference (t.playerTimes b) < difference (t.playerTimes j) := by
  have hne : t.bestPlayer ≠ -1 := by rw [hb]; omega
  obtain ⟨b1, e1, e2, e3, _⟩ := ht.isSet hne
  have hbb : b1 = b := by rw [hb] at e1; exact_mod_cast e1.symm
  subst hbb
  rw [← e3, (ha.keep j hj).2]
  rcases ha.best with ⟨c1, _⟩ | ⟨c1, _⟩
  · exfalso
    have hne2 : u.bestPlayer ≠ -1 := by rw [← c1]; exact hne
    obtain ⟨b2, f1, f2, _, _⟩ := hu.isSet hne2
    have : b2 = b1 := by rw [← c1, hb] at f1; exact_mod_cast f1.symm
    subst this
    exact f2 hb0
  · exact lt_of_lt_of_le c1 (hu.lower j hj)

theorem wait_target_loop_untouched (pins : Nat → Bool) (clk : Nat → Nat) (l : List Nat)
    (s : Globals) (k : Nat) (hk : k ∉ l) :
    (wait_target_loop pins clk l s).playerPressed k = s.playerPressed k := by
  induction l generalizing s with
  | nil => rfl
  | cons i rest ih =>
    have hki : k ≠ i := fun e => hk (e ▸ List.mem_cons_self _ _)
    have hkr : k ∉ rest := fun e => hk (List.mem_cons_of_mem _ e)
    have h1 : (record_press s i (clk i)).playerPressed k = s.playerPressed k := by
      rw [record_press_pressed, Function.update_noteq hki]
    rw [wait_target_loop_cons]
    split_ifs with hc hfin
    · exact h1
    · rw [ih _ hkr, h1]
    · exact ih _ hkr

theorem wait_target_loop_order (pins : Nat → Bool) (clk : Nat → Nat) (l : List Nat)
    (hsorted : l.Pairwise (fun a b => a < b)) (s : Globals) (h : BestInv s)
    (hs : s.state = GameState.WAIT_TARGET)
    (hl : ∀ i ∈ l, (i : Int) < s.selectedTimingPlayers) (j b : Nat) (hjb : j < b)
    (hj0 : s.playerPressed j = 0) (hb0 : s.playerPressed b = 0)
    (hj1 : (wait_target_loop pins clk l s).playerPressed j ≠ 0)
    (hb : (wait_target_loop pins clk l s).bestPlayer = (b : Int)) :
    difference ((wait_target_loop pins clk l s).playerTimes b)
      < difference ((wait_target_loop pins clk l s).playerTimes j) := by
  induction l generalizing s with
  | nil => exact absurd hj0 hj1
  | cons i rest ih =>
    have hi := hl i (List.mem_cons_self _ _)
    have hrest : ∀ k ∈ rest, (k : Int) < (record_press s i (clk i)).selectedTimingPlayers :=
      fun k hk => by rw [record_press_players]; exact hl k (List.mem_cons_of_mem _ hk)
    obtain ⟨hgt, hsr⟩ := List.pairwise_cons.1 hsorted
    rw [wait_target_loop_cons] at hj1 hb ⊢
    split_ifs at hj1 hb ⊢ with hc hfin
    · exfalso
      have hinv := bestInv_record_press s i (clk i) h hc.2 hi
      have hji : j = i := by
        by_contra hne
        simp only [record_press_pressed, Function.update_noteq hne] at hj1
        exact hj1 hj0
      have hne : (record_press s i (clk i)).bestPlayer ≠ -1 := by
        simp only [] at hb
        rw [hb]; omega
      obtain ⟨b1, e1, e2, _, _⟩ := hinv.isSet hne
      have hbb : b1 = b := by
        simp only [] at hb
        rw [hb] at e1; exact_mod_cast e1.symm
      subst hbb
      have hbi : b1 = i := by
        by_contra hne2
        rw [record_press_pressed, Function.update_noteq hne2] at e2
        exact e2 hb0
      omega
    · have hinv := bestInv_record_press s i (clk i) h hc.2 hi
      have hst : (record_press s i (clk i)).state = GameState.WAIT_TARGET := by
        rw [record_press_state]; exact hs
      obtain ⟨htinv, _, hadv⟩ := wait_target_loop_round pins clk rest _ hinv hst hrest
      by_cases hji : j = i
      · subst hji
        have hbj : b ≠ j := by omega
        exact tie_of_advance _ _ hinv htinv hadv j b hb
          (by rw [record_press_pressed]; simp)
          (by rw [record_press_pressed, Function.update_noteq hbj]; exact hb0)
      · have hj0' : (record_press s i (clk i)).playerPressed j = 0 := by
          rw [record_press_pressed, Function.update_noteq hji]; exact hj0
        by_cases hbi : b = i
        · exfalso
          subst hbi
          have hjr : j ∉ rest := fun hm => by have := hgt j hm; omega
          rw [wait_target_loop_untouched pins clk rest _ j hjr] at hj1
          exact hj1 hj0'
        · have hb0' : (record_press s i (clk i)).playerPressed b = 0 := by
            rw [record_press_pressed, Function.update_noteq hbi]; exact hb0
          exact ih hsr _ hinv hst hrest hj0' hb0' hj1 hb
    · exact ih hsr s h hs (fun k hk => hl k (List.mem_cons_of_mem _ hk)) hj0 hb0 hj1 hb

theorem round1_reachable : Reachable round1 :=
  reachable_run initial round1 [sample [0, 1] 3000, sample [1] 10000] Reachable.init rfl

theorem done1_reachable : Reachable done1 :=
  Reachable.next (sample [0] 20800) round1_reachable rfl

theorem done1_eq :
    done1 = { round1 with state := GameState.TARGET_RESULT, timingReactionTime := 10800,
                          timingButtonPressed := 0,
                          led := Function.update (fun _ => false) 0 true } := by
  have hp : first_pressed (pressed [0]) = some 0 := by decide
  have hn : round1.selectedTimingPlayers = 1 := rfl
  unfold done1 wait_target
  rw [if_pos hn, hp]
  rfl

theorem halfClose_eq : wait_target round2 (pressed [0]) (fun _ => 20800) = halfClose := by
  simp [wait_target, wait_target_loop, record_press_eq, round2, halfClose, initial, pressed,
    digital_read_btn, digital_write_led, difference_10800, sub32, millis, List.range_succ]
  norm_num

theorem doneClose_eq : wait_target halfClose (pressed [0, 1]) (fun _ => 21500) = doneClose := by
  simp [wait_target, wait_target_loop, record_press_eq, round2, halfClose, doneClose, initial,
    pressed, digital_read_btn, digital_write_led, difference_11500, sub32, millis,
    List.range_succ]
  norm_num

theorem halfTie_eq : wait_target round2 (pressed [0]) (fun _ => 17996) = halfTie := by
  simp [wait_target, wait_target_loop, record_press_eq, round2, halfTie, initial, pressed,
    digital_read_btn, digital_write_led, difference_7996, sub32, millis, List.range_succ]
  norm_num

theorem doneTie_eq : wait_target halfTie (pressed [1]) (fun _ => 24004) = doneTie := by
  simp [wait_target, wait_target_loop, record_press_eq, round2, halfTie, doneTie, initial,
    pressed, digital_read_btn, digital_write_led, difference_14004, sub32, millis,
    List.range_succ]
  norm_num

theorem doneTie_reachable : Reachable doneTie :=
  Reachable.next (sample [1] 24004)
    (Reachable.next (sample [0] 17996) round2_reachable (congrArg some halfTie_eq))
    (congrArg some doneTie_eq)

theorem closeRun_eq :
    doneClose = wait_target_steps round2 [sample [0] 20800, sample [0, 1] 21500] := by
  have h1 : round2.state = GameState.WAIT_TARGET := rfl
  have h2 : halfClose.state = GameState.WAIT_TARGET := rfl
  have e1 : wait_target round2 (sample [0] 20800).pins (sample [0] 20800).clk = halfClose :=
    halfClose_eq
  have e2 : wait_target halfClose (sample [0, 1] 21500).pins (sample [0, 1] 21500).clk
      = doneClose := doneClose_eq
  rw [wait_target_steps, if_pos h1, e1, wait_target_steps, if_pos h2, e2]
  rfl

theorem doneClose_reachable : Reachable doneClose :=
  Reachable.next (sample [0, 1] 21500)
    (Reachable.next (sample [0] 20800) round2_reachable (congrArg some halfClose_eq))
    (congrArg some doneClose_eq)

theorem tieRun_eq :
    doneTie = wait_target_steps round2 [sample [0] 17996, sample [1] 24004] := by
  have h1 : round2.state = GameState.WAIT_TARGET := rfl
  have h2 : halfTie.state = GameState.WAIT_TARGET := rfl
  have e1 : wait_target round2 (sample [0] 17996).pins (sample [0] 17996).clk = halfTie :=
    halfTie_eq
  have e2 : wait_target halfTie (sample [1] 24004).pins (sample [1] 24004).clk = doneTie :=
    doneTie_eq
  rw [wait_target_steps, if_pos h1, e1, wait_target_steps, if_pos h2, e2]
  rfl

/-- C3, as stated, fails in two ways.  For one configured player: the
single-player round `done1` has reached `TARGET_RESULT` and its `bestPlayer`
is `-1`, not the player who pressed.  For the differences: the code compares
the 32-bit floats it computes, not the values `|time/1000 - 11.0|`.  In the
reachable two-player round `doneTie` player 0 was recorded first, 7996 ms
after the start, and player 1 in a later step, 14004 ms after the start;
both times are exactly 3.004 s from the target, and `bestPlayer` is 1, the
later finisher.  In the reachable round `doneClose` of the example (10800 ms
and 11500 ms) `bestPlayer` is 0 and `bestDifference` is the float
`209715 / 2^20`, not 0.2. -/
theorem timing_best_player_counterexample :
    ¬ (∀ s : Globals, Reachable s → s.state = GameState.TARGET_RESULT →
        1 ≤ s.selectedTimingPlayers ∧ s.selectedTimingPlayers ≤ 4 →
        ∃ b : Nat, s.bestPlayer = (b : Int) ∧ (b : Int) < s.selectedTimingPlayers) ∧
    (Reachable doneTie ∧ doneTie.state = GameState.TARGET_RESULT ∧
      doneTie.selectedTimingPlayers = 2 ∧
      halfTie = wait_target_steps round2 [sample [0] 17996] ∧
      doneTie = wait_target_steps round2 [sample [0] 17996, sample [1] 24004] ∧
      halfTie.playerPressed 0 = 1 ∧ halfTie.playerPressed 1 = 0 ∧
      doneTie.playerTimes 0 = 7996 ∧ doneTie.playerTimes 1 = 14004 ∧
      difference_exact 7996 = difference_exact 14004 ∧
      doneTie.bestPlayer = 1) ∧
    (Reachable doneClose ∧ doneClose.state = GameState.TARGET_RESULT ∧
      doneClose.playerTimes 0 = 10800 ∧ doneClose.playerTimes 1 = 11500 ∧
      doneClose.bestPlayer = 0 ∧ doneClose.bestDifference = 209715 / 1048576 ∧
      doneClose.bestDifference ≠ 1 / 5) := by
  refine ⟨?_, ⟨doneTie_reachable, rfl, rfl, ?_, tieRun_eq, rfl, rfl, rfl, rfl, ?_, rfl⟩,
    ⟨doneClose_reachable, rfl, rfl, rfl, rfl, rfl, ?_⟩⟩
  · intro h
    have h1 : done1.state = GameState.TARGET_RESULT := by rw [done1_eq]
    have h2 : done1.selectedTimingPlayers = 1 := by rw [done1_eq]; rfl
    have h3 : done1.bestPlayer = -1 := by rw [done1_eq]; rfl
    obtain ⟨b, hb, _⟩ := h done1 done1_reachable h1 (by rw [h2]; decide)
    rw [h3] at hb
    omega
  · have h1 : round2.state = GameState.WAIT_TARGET := rfl
    have e1 : wait_target round2 (sample [0] 17996).pins (sample [0] 17996).clk = halfTie :=
      halfTie_eq
    rw [wait_target_steps, if_pos h1, e1]
    rfl
  · norm_num [difference_exact, targetTime, abs_div]
  · have e : doneClose.bestDifference = 209715 / 1048576 := rfl
    rw [e]
    norm_num

/-- C3, amended: in a timing round of 2 to 4 players started by a select press
in `select_timing_players` and run through `wait_target` on any samples,
when the round has reached `TARGET_RESULT` every configured player is
recorded, and if some player's float difference is below 999 then
`bestPlayer` is a configured player whose float difference is minimal and
`bestDifference` is that float, where the float difference of a player is
the 32-bit float `fabs(time / 1000.0 - 11.0)` that the code computes
(`difference`).  The exact difference `|time/1000 - 11.0|` of `bestPlayer`
(`difference_exact`) is minimal too.  Ties of the floats go to the player
recorded first: a player recorded in an earlier step than `bestPlayer`, or in
the same step with a lower index, has a strictly larger float difference. -/
theorem timing_best_player (s s0 t : Globals) (pins : Nat → Bool) (now : Nat) (xs : List Input)
    (hsel : pins 1 = true) (h0 : s0 = select_timing_players s pins now)
    (hn : 2 ≤ s0.selectedTimingPlayers ∧ s0.selectedTimingPlayers ≤ 4)
    (ht : t = wait_target_steps s0 xs) (hend : t.state = GameState.TARGET_RESULT) :
    t.selectedTimingPlayers = s0.selectedTimingPlayers ∧
    (∀ i : Nat, (i : Int) < t.selectedTimingPlayers → t.playerPressed i = 1) ∧
    ((∃ i : Nat, (i : Int) < t.selectedTimingPlayers ∧ difference (t.playerTimes i) < 999) →
      ∃ b : Nat, t.bestPlayer = (b : Int) ∧ (b : Int) < t.selectedTimingPlayers ∧
        t.bestDifference = difference (t.playerTimes b) ∧
        (∀ i : Nat, (i : Int) < t.selectedTimingPlayers →
          difference (t.playerTimes b) ≤ difference (t.playerTimes i)) ∧
        (∀ i : Nat, (i : Int) < t.selectedTimingPlayers →
          difference_exact (t.playerTimes b) ≤ difference_exact (t.playerTimes i)) ∧
        (∀ pre post j, xs = pre ++ post →
          (wait_target_steps s0 pre).playerPressed j = 1 →
          (wait_target_steps s0 pre).playerPressed b = 0 →
          difference (t.playerTimes b) < difference (t.playerTimes j)) ∧
        (∀ pre x post j, xs = pre ++ x :: post → j < b →
          (wait_target_steps s0 pre).playerPressed j = 0 →
          (wait_target_steps s0 pre).playerPressed b = 0 →
          (wait_target_steps s0 (pre ++ [x])).playerPressed j = 1 →
          difference (t.playerTimes b) < difference (t.playerTimes j))) := by
  subst h0
  obtain ⟨hinv0, hst0⟩ := bestInv_reset s pins now hsel hn
  have hround := wait_target_steps_round _ xs hinv0 (Or.inl hst0)
  rw [← ht] at hround
  obtain ⟨hinv, hrun, hadv⟩ := hround
  have hall := all_recorded t hinv hrun hend
  have hrec : ∀ i : Nat, (i : Int) < t.selectedTimingPlayers → t.playerPressed i ≠ 0 := by
    intro i hi
    rw [hall i hi]
    decide
  refine ⟨timingFrame_players hadv.frame, hall, ?_⟩
  rintro ⟨i, hi, hlt⟩
  have hbd : t.bestDifference < 999 := lt_of_le_of_lt (hinv.lower i (hrec i hi)) hlt
  have hne : t.bestPlayer ≠ -1 := fun e => absurd (hinv.unset e) (ne_of_lt hbd)
  obtain ⟨b, e1, e2, e3, _⟩ := hinv.isSet hne
  refine ⟨b, e1, hinv.inRange b e2, e3, ?_, ?_, ?_, ?_⟩
  · intro k hk
    rw [← e3]
    exact hinv.lower k (hrec k hk)
  · intro k hk
    exact exact_order _ _ (by rw [← e3]; exact hinv.lower k (hrec k hk)) (by rw [← e3]; exact hbd)
  · intro pre post j hx hj1 hb0
    obtain ⟨hinvp, hrunp, _⟩ := wait_target_steps_round _ pre hinv0 (Or.inl hst0)
    have hpost := wait_target_steps_round _ post hinvp hrunp
    rw [← wait_target_steps_append, ← hx, ← ht] at hpost
    exact tie_of_advance _ t hinvp hinv hpost.2.2 j b e1 (by rw [hj1]; decide) hb0
  · intro pre x post j hx hjb hj0 hb0 hj1
    obtain ⟨hinvp, hrunp, _⟩ := wait_target_steps_round _ pre hinv0 (Or.inl hst0)
    rw [wait_target_steps_append] at hj1
    by_cases hsp : (wait_target_steps (select_timing_players s pins now) pre).state
        = GameState.WAIT_TARGET
    · rw [wait_target_steps, if_pos hsp, wait_target_steps] at hj1
      obtain ⟨hinvx, hrunx, _⟩ := wait_target_round _ x.pins x.clk hinvp hsp
      have hpost := wait_target_steps_round _ post hinvx hrunx
      have hsplit : t = wait_target_steps (wait_target
          (wait_target_steps (select_timing_players s pins now) pre) x.pins x.clk) post := by
        rw [ht, hx, wait_target_steps_append, wait_target_steps, if_pos hsp]
      rw [← hsplit] at hpost
      obtain ⟨_, _, hadvx⟩ := hpost
      have hj1' : (wait_target (wait_target_steps (select_timing_players s pins now) pre)
          x.pins x.clk).playerPressed j ≠ 0 := by rw [hj1]; decide
      rw [(hadvx.keep j hj1').2]
      rcases hadvx.best with ⟨c1, _⟩ | ⟨c1, _⟩
      · have hbx : (wait_target (wait_target_steps (select_timing_players s pins now) pre)
            x.pins x.clk).bestPlayer = (b : Int) := by rw [← c1]; exact e1
        have hnex : (wait_target (wait_target_steps (select_timing_players s pins now) pre)
            x.pins x.clk).bestPlayer ≠ -1 := by rw [hbx]; omega
        obtain ⟨b2, f1, f2, _, _⟩ := hinvx.isSet hnex
        have hbb : b2 = b := by rw [hbx] at f1; exact_mod_cast f1.symm
        subst hbb
        rw [(hadvx.keep b2 f2).2]
        rw [wait_target_multi _ _ _ hinvp.players.1] at hj1' hbx ⊢
        exact wait_target_loop_order x.pins x.clk _ (List.pairwise_lt_range _) _ hinvp hsp
          (mem_range_players _) j b2 hjb hj0 hb0 hj1' hbx
      · rw [← e3]
        exact lt_of_lt_of_le c1 (hinvx.lower j hj1')
    · rw [wait_target_steps_stopped _ _ hsp, hj0] at hj1
      exact absurd hj1 (by decide)

/-- Witness of C3: two players, player 0 pressing 10800 ms and player 1
11500 ms after the start: both are recorded, `bestPlayer = 0` and
`bestDifference` is the float `209715 / 2^20 = 0.19999980926513672`. -/
theorem timing_best_player_witness :
    doneClose.bestPlayer = 0 ∧ doneClose.bestDifference = 209715 / 1048576 ∧
    (∀ i : Nat, (i : Int) < doneClose.selectedTimingPlayers → doneClose.playerPressed i = 1) ∧
    ∃ b : Nat, doneClose.bestPlayer = (b : Int) ∧
      doneClose.bestDifference = difference (doneClose.playerTimes b) ∧
      ∀ i : Nat, (i : Int) < doneClose.selectedTimingPlayers →
        difference (doneClose.playerTimes b) ≤ difference (doneClose.playerTimes i) :=
  have h := timing_best_player { round2 with state := GameState.SELECT_TIMING_PLAYERS } round2
    doneClose (pressed [1]) 10000 [sample [0] 20800, sample [0, 1] 21500] (by decide) rfl
    (by decide) closeRun_eq rfl
  have h2 := h.2.2 ⟨0, by decide, by
    have e : doneClose.playerTimes 0 = 10800 := rfl
    rw [e, difference_10800]; norm_num⟩
  ⟨rfl, rfl, h.2.1, h2.elim fun b hb => ⟨b, hb.1, hb.2.2.1, hb.2.2.2.1⟩⟩

/-! ## Selection states -/

theorem read_btn_of_lt (pins : Nat → Bool) (i : Nat) (hi : i < 4) :
    digital_read_btn pins i = pins i := by
  unfold digital_read_btn
  rw [if_pos hi]

/-- C11: with the select button read pressed, `handle_menu` goes to
`SELECT_REFLEX_MODE` when the mode is `MODE_REFLEX` and to
`SELECT_TIMING_PLAYERS` when it is `MODE_TIMING`; `select_reflex_mode` goes to
`SELECT_DIFFICULTY` when the reflex mode is `SINGLE_PLAYER` and to
`WAIT_SIGNAL` with `reflexTimeLimit = 0` when it is `MULTIPLAYER`;
`select_difficulty` sets `reflexTimeLimit = difficultyLimits[selectedDifficulty]`
and goes to `WAIT_SIGNAL`. The mode, reflex mode and difficulty meant are
the ones in force when select is tested, which are those of the state before
the step when the menu button is not pressed. With neither button pressed
each of the three handlers leaves the state unchanged. -/
theorem selection_transitions (s : Globals) (pins : Nat → Bool) :
    (pins 1 = true →
      ((handle_menu s pins).mode = GameMode.MODE_REFLEX →
        (handle_menu s pins).state = GameState.SELECT_REFLEX_MODE) ∧
      ((handle_menu s pins).mode = GameMode.MODE_TIMING →
        (handle_menu s pins).state = GameState.SELECT_TIMING_PLAYERS) ∧
      (pins 0 = false → (handle_menu s pins).mode = s.mode)) ∧
    (pins 1 = true →
      ((select_reflex_mode s pins).reflexMode = ReflexMode.SINGLE_PLAYER →
        (select_reflex_mode s pins).state = GameState.SELECT_DIFFICULTY) ∧
      ((select_reflex_mode s pins).reflexMode = ReflexMode.MULTIPLAYER →
        (select_reflex_mode s pins).state = GameState.WAIT_SIGNAL ∧
        (select_reflex_mode s pins).reflexTimeLimit = 0) ∧
      (pins 0 = false → (select_reflex_mode s pins).reflexMode = s.reflexMode)) ∧
    (pins 1 = true →
      (select_difficulty s pins).state = GameState.WAIT_SIGNAL ∧
      (select_difficulty s pins).reflexTimeLimit =
        difficultyLimits.getD (select_difficulty s pins).selectedDifficulty.toNat 0 ∧
      (pins 0 = false → (select_difficulty s pins).selectedDifficulty = s.selectedDifficulty)) ∧
    (pins 0 = false → pins 1 = false →
      handle_menu s pins = s ∧ select_reflex_mode s pins = s ∧ select_difficulty s pins = s) := by
  have r0 := read_btn_of_lt pins 0 (by decide)
  have r1 := read_btn_of_lt pins 1 (by decide)
  refine ⟨?_, ?_, ?_, ?_⟩
  · intro h1
    unfold handle_menu
    rw [r0, r1]
    cases h0 : pins 0 <;> cases hm : s.mode <;> simp [h1, hm]
  · intro h1
    unfold select_reflex_mode
    rw [r0, r1]
    cases h0 : pins 0 <;> cases hm : s.reflexMode <;> simp [h1, hm]
  · intro h1
    unfold select_difficulty
    rw [r0, r1]
    cases h0 : pins 0 <;> simp [h1]
  · intro h0 h1
    unfold handle_menu select_reflex_mode select_difficulty
    rw [r0, r1]
    simp [h0, h1]

/-- Witness of C11: select alone pressed in the initial state (menu, reflex
mode) goes to the reflex mode selection. -/
theorem selection_transitions_witness :
    (handle_menu initial (pressed [1])).state = GameState.SELECT_REFLEX_MODE ∧
    (handle_menu initial (pressed [1])).mode = GameMode.MODE_REFLEX ∧
    handle_menu initial (pressed []) = initial :=
  have h := selection_transitions initial (pressed [1])
  have h1 := h.1 (by decide)
  have hm : (handle_menu initial (pressed [1])).mode = GameMode.MODE_REFLEX :=
    (h1.2.2 (by decide)).trans rfl
  ⟨h1.1 hm, hm, ((selection_transitions initial (pressed [])).2.2.2 (by decide) (by decide)).1⟩

/-! ## The random delay -/

theorem lfsr_next_lt (lfsr : Nat) : lfsr_next lfsr < 4294967296 := by
  unfold lfsr_next
  exact Nat.mod_lt _ (by decide)

/-- C12: for every generator state and all 16-bit `min < max`, the value
returned by `random_range(min, max)` is `min + lfsr % (max - min)` for the
advanced generator state `lfsr`, without wrap in 16 bits, and lies in
`[min, max)`; the generator state stays a 32-bit value; in particular
`random_range(2000, 5000)` lies in `[2000, 5000)`. -/
theorem random_range_bounds (lfsr min max : Nat) (hlt : min < max) (hmax : max < 65536) :
    (random_range lfsr min max).1 = lfsr_next lfsr ∧
    (random_range lfsr min max).1 < 4294967296 ∧
    (random_range lfsr min max).2 = min + lfsr_next lfsr % (max - min) ∧
    min + lfsr_next lfsr % (max - min) < 65536 ∧
    min ≤ (random_range lfsr min max).2 ∧ (random_range lfsr min max).2 < max ∧
    (2000 ≤ (random_range lfsr 2000 5000).2 ∧ (random_range lfsr 2000 5000).2 < 5000) := by
  have hw : (max + (65536 - min % 65536)) % 65536 = max - min := by omega
  have hm : lfsr_next lfsr % (max - min) < max - min := Nat.mod_lt _ (by omega)
  have hv : (random_range lfsr min max).2 = min + lfsr_next lfsr % (max - min) := by
    unfold random_range random_value
    simp only [hw]
    omega
  refine ⟨rfl, lfsr_next_lt lfsr, hv, by omega, by omega, by omega, random_delay_bounds lfsr⟩

/-- Witness of C12: from the generator state 12345 of `main` the first delay
drawn is 4060 ms. -/
theorem random_range_bounds_witness :
    (random_range 12345 2000 5000).1 = 44060 ∧ (random_range 12345 2000 5000).2 = 4060 ∧
    2000 ≤ (random_range 12345 2000 5000).2 ∧ (random_range 12345 2000 5000).2 < 5000 :=
  have h := random_range_bounds 12345 2000 5000 (by decide) (by decide)
  ⟨h.1.trans (by decide), h.2.2.1.trans (by decide), h.2.2.2.2.1, h.2.2.2.2.2.1⟩

/-! ## Late presses -/

theorem hardTrial_reachable : Reachable hardTrial :=
  reachable_run initial hardTrial hardRun Reachable.init rfl

/-- C13: in a reachable `SHOW_SIGNAL` state (in single-player mode, and in
multiplayer mode as well), a `handle_signal` step that reads button `i`
pressed (the first pressed button) with a reaction time strictly greater than
`reflexTimeLimit * 1000` ms ends in `RESULT` with `winnerPlayer = i`,
`reflexReactionTime` the measured time and `hasWon = 0`. -/
theorem late_press_is_loss (s : Globals) (pins : Nat → Bool) (tPress tCheck i : Nat)
    (hr : Reachable s) (hs : s.state = GameState.SHOW_SIGNAL)
    (hi : i < 4) (hpi : pins i = true) (hfirst : ∀ j < i, pins j = false)
    (hlate : ((sub32 (millis tPress) s.reflexSignalStartTime : Nat) : ℚ)
      > s.reflexTimeLimit * 1000) :
    (handle_signal s pins tPress tCheck).state = GameState.RESULT ∧
    (handle_signal s pins tPress tCheck).winnerPlayer = (i : Int) ∧
    (handle_signal s pins tPress tCheck).reflexReactionTime
      = sub32 (millis tPress) s.reflexSignalStartTime ∧
    (handle_signal s pins tPress tCheck).hasWon = 0 := by
  have hp : first_pressed pins = some i := (first_pressed_eq_some pins i).2 ⟨hi, hpi, hfirst⟩
  have hw0 : s.hasWon = 0 := ((reachable_inv s hr).signalShown hs).2.1
  rw [handle_signal_pressed _ _ _ _ _ hp]
  refine ⟨rfl, rfl, rfl, ?_⟩
  simp only []
  split_ifs with h1 h2
  · exfalso
    rw [div_le_iff₀ (by norm_num : (0 : ℚ) < 1000)] at h2
    exact absurd hlate (not_lt.2 h2)
  · rfl
  · exact hw0

/-- Witness of C13: on Hard (limit 0.160 s) a press 200 ms after the signal is
recorded as a loss of player 0. -/
theorem late_press_is_loss_witness :
    (handle_signal hardTrial (pressed [0]) 6200 6200).state = GameState.RESULT ∧
    (handle_signal hardTrial (pressed [0]) 6200 6200).winnerPlayer = 0 ∧
    (handle_signal hardTrial (pressed [0]) 6200 6200).reflexReactionTime = 200 ∧
    (handle_signal hardTrial (pressed [0]) 6200 6200).hasWon = 0 :=
  have h := late_press_is_loss hardTrial (pressed [0]) 6200 6200 0 hardTrial_reachable rfl
    (by decide) (by decide) (by intro j hj; omega)
    (by norm_num [hardTrial, sub32, millis])
  ⟨h.1, h.2.1, h.2.2.1.trans (by decide), h.2.2.2⟩

/-! ## Configuration ranges -/

theorem select_difficulty_menu (s : Globals) (pins : Nat → Bool) (h0 : pins 0 = true) :
    (select_difficulty s pins).selectedDifficulty = Int.tmod (s.selectedDifficulty + 1) 4 := by
  have r0 : digital_read_btn pins 0 = true := by rw [read_btn_of_lt pins 0 (by decide)]; exact h0
  unfold select_difficulty
  simp only [r0, if_true]
  split_ifs <;> rfl

theorem select_timing_players_menu (s : Globals) (pins : Nat → Bool) (now : Nat)
    (h0 : pins 0 = true) :
    (select_timing_players s pins now).selectedTimingPlayers
      = Int.tmod s.selectedTimingPlayers 4 + 1 := by
  have r0 : digital_read_btn pins 0 = true := by rw [read_btn_of_lt pins 0 (by decide)]; exact h0
  unfold select_timing_players
  simp only [r0, if_true]
  split_ifs <;> rfl

theorem next_difficulty (d : Int) (h : 0 ≤ d ∧ d < 4) :
    Int.tmod (d + 1) 4 = if d = 3 then 0 else d + 1 := by
  rw [Int.tmod_eq_emod (by omega) (by decide)]
  split_ifs <;> omega

theorem next_players (n : Int) (h : 1 ≤ n ∧ n ≤ 4) :
    Int.tmod n 4 + 1 = if n = 4 then 1 else n + 1 := by
  rw [Int.tmod_eq_emod (by omega) (by decide)]
  split_ifs <;> omega

/-- C16: in every reachable state `selectedDifficulty` is in `[0, 3]` and
`selectedTimingPlayers` in `[1, 4]`; a `select_difficulty` step with the menu
button pressed advances the difficulty `0 -> 1 -> 2 -> 3 -> 0`, a
`select_timing_players` step with the menu button pressed advances the
player count `1 -> 2 -> 3 -> 4 -> 1`; four presses give the starting value
back; and every difficulty and every player count occurs in a reachable
state. -/
theorem configuration_ranges (s : Globals) (hr : Reachable s) :
    (0 ≤ s.selectedDifficulty ∧ s.selectedDifficulty ≤ 3) ∧
    (1 ≤ s.selectedTimingPlayers ∧ s.selectedTimingPlayers ≤ 4) ∧
    (∀ pins, pins 0 = true →
      (select_difficulty s pins).selectedDifficulty
        = if s.selectedDifficulty = 3 then 0 else s.selectedDifficulty + 1) ∧
    (∀ pins now, pins 0 = true →
      (select_timing_players s pins now).selectedTimingPlayers
        = if s.selectedTimingPlayers = 4 then 1 else s.selectedTimingPlayers + 1) ∧
    (∀ pins, pins 0 = true →
      (select_difficulty (select_difficulty (select_difficulty (select_difficulty s pins) pins)
        pins) pins).selectedDifficulty = s.selectedDifficulty) ∧
    (∀ pins now, pins 0 = true →
      (select_timing_players (select_timing_players (select_timing_players
        (select_timing_players s pins now) pins now) pins now) pins now).selectedTimingPlayers
        = s.selectedTimingPlayers) ∧
    (∀ d : Int, 0 ≤ d → d ≤ 3 → ∃ t, Reachable t ∧ t.state = GameState.SELECT_DIFFICULTY ∧
      t.selectedDifficulty = d) ∧
    (∀ n : Int, 1 ≤ n → n ≤ 4 → ∃ t, Reachable t ∧ t.state = GameState.SELECT_TIMING_PLAYERS ∧
      t.selectedTimingPlayers = n) := by
  have hi := reachable_inv s hr
  have hd := hi.difficulty
  have hn := hi.players
  refine ⟨⟨hd.1, by omega⟩, hn, ?_, ?_, ?_, ?_, ?_, ?_⟩
  · intro pins h0
    rw [select_difficulty_menu s pins h0, next_difficulty _ hd]
  · intro pins now h0
    rw [select_timing_players_menu s pins now h0, next_players _ hn]
  · intro pins h0
    simp only [select_difficulty_menu _ pins h0]
    have hd4 : s.selectedDifficulty = 0 ∨ s.selectedDifficulty = 1 ∨ s.selectedDifficulty = 2 ∨
        s.selectedDifficulty = 3 := by omega
    rcases hd4 with e | e | e | e <;> rw [e] <;> decide
  · intro pins now h0
    simp only [select_timing_players_menu _ pins now h0]
    have hn4 : s.selectedTimingPlayers = 1 ∨ s.selectedTimingPlayers = 2 ∨
        s.selectedTimingPlayers = 3 ∨ s.selectedTimingPlayers = 4 := by omega
    rcases hn4 with e | e | e | e <;> rw [e] <;> decide
  · intro d h0 h3
    have hd4 : d = 0 ∨ d = 1 ∨ d = 2 ∨ d = 3 := by omega
    rcases hd4 with rfl | rfl | rfl | rfl
    · exact ⟨_, reachable_run initial _ (difficultyRun 0) Reachable.init rfl, rfl, rfl⟩
    · exact ⟨_, reachable_run initial _ (difficultyRun 1) Reachable.init rfl, rfl, rfl⟩
    · exact ⟨_, reachable_run initial _ (difficultyRun 2) Reachable.init rfl, rfl, rfl⟩
    · exact ⟨_, reachable_run initial _ (difficultyRun 3) Reachable.init rfl, rfl, rfl⟩
  · intro n h1 h4
    have hn4 : n = 1 ∨ n = 2 ∨ n = 3 ∨ n = 4 := by omega
    rcases hn4 with rfl | rfl | rfl | rfl
    · exact ⟨_, reachable_run initial _ (playersRun 0) Reachable.init rfl, rfl, rfl⟩
    · exact ⟨_, reachable_run initial _ (playersRun 1) Reachable.init rfl, rfl, rfl⟩
    · exact ⟨_, reachable_run initial _ (playersRun 2) Reachable.init rfl, rfl, rfl⟩
    · exact ⟨_, reachable_run initial _ (playersRun 3) Reachable.init rfl, rfl, rfl⟩

/-- Witness of C16: on Hard a menu press in the difficulty selection gives
Insane, and four presses give Hard again. -/
theorem configuration_ranges_witness :
    hardTrial.selectedDifficulty = 2 ∧
    (select_difficulty hardTrial (pressed [0])).selectedDifficulty = 3 ∧
    (select_difficulty (select_difficulty (select_difficulty (select_difficulty hardTrial
      (pressed [0])) (pressed [0])) (pressed [0])) (pressed [0])).selectedDifficulty = 2 :=
  have h := configuration_ranges hardTrial hardTrial_reachable
  ⟨rfl, (h.2.2.1 (pressed [0]) (by decide)).trans (by decide),
    h.2.2.2.2.1 (pressed [0]) (by decide)⟩

/-! ## Simultaneous presses -/

/-- C20: when the lowest pressed button of a sample is `i` (other buttons above
`i` may be pressed as well), a cheating poll of `wait_signal` records
`cheaterPlayer = i`, `handle_signal` records `winnerPlayer = i` and
single-player `wait_target` records `timingButtonPressed = i`; in that step
only LED `i` can change (it is lit by `handle_signal` and `wait_target`,
`wait_signal` changes no LED) and `playerTimes` and `playerPressed` are
unchanged. -/
theorem lowest_index_wins (s : Globals) (pins : Nat → Bool) (i : Nat)
    (hi : i < 4) (hpi : pins i = true) (hfirst : ∀ j < i, pins j = false) :
    (∀ tPress tCheck,
      (handle_signal s pins tPress tCheck).winnerPlayer = (i : Int) ∧
      (handle_signal s pins tPress tCheck).led i = true ∧
      (∀ k, k ≠ i → (handle_signal s pins tPress tCheck).led k = s.led k) ∧
      (handle_signal s pins tPress tCheck).playerTimes = s.playerTimes ∧
      (handle_signal s pins tPress tCheck).playerPressed = s.playerPressed ∧
      (handle_signal s pins tPress tCheck).cheaterPlayer = s.cheaterPlayer) ∧
    (∀ clk, s.selectedTimingPlayers = 1 →
      (wait_target s pins clk).timingButtonPressed = (i : Int) ∧
      (wait_target s pins clk).timingReactionTime = sub32 (millis (clk i)) s.timingStartTime ∧
      (wait_target s pins clk).state = GameState.TARGET_RESULT ∧
      (wait_target s pins clk).led i = true ∧
      (∀ k, k ≠ i → (wait_target s pins clk).led k = s.led k) ∧
      (wait_target s pins clk).playerTimes = s.playerTimes ∧
      (wait_target s pins clk).playerPressed = s.playerPressed ∧
      (wait_target s pins clk).bestPlayer = s.bestPlayer) ∧
    (∀ tStart tSignal pre clock post,
      (∀ q ∈ pre, sub32 (millis q.clock) (millis tStart) < (random_range s.lfsr 2000 5000).2 ∧
        ∀ k < 4, q.pins k = false) →
      sub32 (millis clock) (millis tStart) < (random_range s.lfsr 2000 5000).2 →
      ∃ t, wait_signal s tStart (pre ++ ⟨clock, pins⟩ :: post) tSignal = some t ∧
        t.cheaterPlayer = (i : Int) ∧ t.hasCheated = 1 ∧ t.state = GameState.RESULT ∧
        t.led = s.led ∧ t.playerTimes = s.playerTimes ∧ t.playerPressed = s.playerPressed ∧
        t.winnerPlayer = -1) := by
  have hp : first_pressed pins = some i := (first_pressed_eq_some pins i).2 ⟨hi, hpi, hfirst⟩
  have hi2 : (0 : Int) ≤ (i : Int) ∧ (i : Int) < 4 := by omega
  refine ⟨?_, ?_, ?_⟩
  · intro tPress tCheck
    rw [handle_signal_pressed _ _ _ _ _ hp]
    refine ⟨rfl, ?_, ?_, rfl, rfl, rfl⟩
    · simp
    · intro k hk
      simp [Function.update_noteq hk]
  · intro clk hn
    unfold wait_target
    rw [if_pos hn, hp]
    refine ⟨rfl, rfl, rfl, ?_, ?_, rfl, rfl, rfl⟩
    · simp [digital_write_led, hi2]
    · intro k hk
      simp [digital_write_led, hi2, Function.update_noteq hk]
  · intro tStart tSignal pre clock post hq hlt
    unfold wait_signal
    simp only []
    rw [wait_signal_loop_quiet _ _ _ _ pre _ hq, wait_signal_loop, if_pos hlt, hp]
    exact ⟨_, rfl, rfl, rfl, rfl, rfl, rfl, rfl, rfl⟩

/-- Witness of C20: buttons 1, 2 and 3 pressed at once in the trial
`easyTrial`: player 1 is the winner and the LEDs 0, 2 and 3 stay off. -/
theorem lowest_index_wins_witness :
    (handle_signal easyTrial (pressed [1, 2, 3]) 6100 6100).winnerPlayer = 1 ∧
    (handle_signal easyTrial (pressed [1, 2, 3]) 6100 6100).led 1 = true ∧
    (handle_signal easyTrial (pressed [1, 2, 3]) 6100 6100).led 0 = false ∧
    (handle_signal easyTrial (pressed [1, 2, 3]) 6100 6100).led 2 = false ∧
    (handle_signal easyTrial (pressed [1, 2, 3]) 6100 6100).led 3 = false :=
  have h := (lowest_index_wins easyTrial (pressed [1, 2, 3]) 1 (by decide) (by decide)
    (by decide)).1 6100 6100
  ⟨h.1, h.2.1, h.2.2.1 0 (by decide), h.2.2.1 2 (by decide), h.2.2.1 3 (by decide)⟩

/-! ## Timing mode: bookkeeping of a multiplayer round -/

theorem wait_target_loop_idle (pins : Nat → Bool) (clk : Nat → Nat) (l : List Nat) (s : Globals)
    (h : ∀ k ∈ l, ¬ (digital_read_btn pins k = true ∧ s.playerPressed k = 0)) :
    wait_target_loop pins clk l s = s := by
  induction l with
  | nil => rfl
  | cons a rest ih =>
    rw [wait_target_loop_cons, if_neg (h a (List.mem_cons_self _ _))]
    exact ih (fun k hk => h k (List.mem_cons_of_mem _ hk))

theorem wait_target_loop_single (pins : Nat → Bool) (clk : Nat → Nat) (l : List Nat)
    (s : Globals) (i : Nat) (hnd : l.Nodup) (hil : i ∈ l)
    (hpi : digital_read_btn pins i = true) (h0 : s.playerPressed i = 0)
    (hothers : ∀ k ∈ l, k ≠ i → digital_read_btn pins k = false) :
    ∃ st, wait_target_loop pins clk l s = { record_press s i (clk i) with state := st } := by
  induction l with
  | nil => exact absurd hil (List.not_mem_nil i)
  | cons a rest ih =>
    obtain ⟨hna, hnr⟩ := List.nodup_cons.1 hnd
    rw [wait_target_loop_cons]
    by_cases hai : a = i
    · subst hai
      rw [if_pos ⟨hpi, h0⟩]
      split_ifs with hfin
      · exact ⟨_, rfl⟩
      · refine ⟨(record_press s a (clk a)).state, ?_⟩
        apply wait_target_loop_idle
        intro k hk hc
        have hka : k ≠ a := fun e => hna (e ▸ hk)
        rw [hothers k (List.mem_cons_of_mem _ hk) hka] at hc
        exact absurd hc.1 (by decide)
    · have hoff : digital_read_btn pins a = false := hothers a (List.mem_cons_self _ _) hai
      rw [if_neg (fun hc => by rw [hoff] at hc; exact absurd hc.1 (by decide))]
      have hir : i ∈ rest := by
        rcases List.mem_cons.1 hil with e | e
        · exact absurd e.symm hai
        · exact e
      exact ih hnr hir (fun k hk => hothers k (List.mem_cons_of_mem _ hk))

theorem wait_target_loop_append (pins : Nat → Bool) (clk : Nat → Nat) (pre post : List Nat)
    (s : Globals) (hu : (wait_target_loop pins clk pre s).state = GameState.WAIT_TARGET) :
    wait_target_loop pins clk (pre ++ post) s
      = wait_target_loop pins clk post (wait_target_loop pins clk pre s) := by
  induction pre generalizing s with
  | nil => rfl
  | cons a pre ih =>
    rw [List.cons_append, wait_target_loop_cons]
    rw [wait_target_loop_cons] at hu
    by_cases h1 : digital_read_btn pins a = true ∧ s.playerPressed a = 0
    · rw [if_pos h1] at hu ⊢
      by_cases h2 : (record_press s a (clk a)).playersFinished
          ≥ (record_press s a (clk a)).selectedTimingPlayers
      · rw [if_pos h2] at hu
        exact absurd hu (by simp)
      · rw [if_neg h2] at hu ⊢
        rw [wait_target_loop_cons pins clk a pre s, if_pos h1, if_neg h2]
        exact ih _ hu
    · rw [if_neg h1] at hu ⊢
      rw [wait_target_loop_cons pins clk a pre s, if_neg h1]
      exact ih _ hu

theorem halfClose_loop :
    wait_target_loop (pressed [0, 1]) (fun _ => 20800) [0] round2 = halfClose := by
  simp [wait_target_loop, record_press_eq, round2, halfClose, initial, pressed,
    digital_read_btn, digital_write_led, difference_10800, sub32, millis]
  norm_num

/-- C15, as stated, fails: the difference the code compares and stores is the
32-bit float it computes, not `|t/1000 - 11.0|`.  In the reachable round
`halfTie` player 0 is the best, recorded at 7996 ms with the float
difference `6299845 / 2^21 = 3.00400019`.  The step that records player 1 at
14004 ms, whose `|t/1000 - 11.0| = 3.004` equals that of player 0 and is
below `bestDifference`, overwrites `bestPlayer` with 1 and sets
`bestDifference` to the float `1574961 / 2^19 = 3.00399971`, not to 3.004. -/
theorem tie_break_rule_counterexample :
    Reachable halfTie ∧ halfTie.state = GameState.WAIT_TARGET ∧
    halfTie.selectedTimingPlayers = 2 ∧ halfTie.timingStartTime = 10000 ∧
    halfTie.playerTimes 0 = 7996 ∧ halfTie.bestPlayer = 0 ∧
    halfTie.bestDifference = 6299845 / 2097152 ∧
    wait_target halfTie (pressed [1]) (fun _ => 24004) = doneTie ∧
    doneTie.playerTimes 1 = 14004 ∧
    difference_exact 14004 = difference_exact 7996 ∧
    difference_exact 14004 < halfTie.bestDifference ∧
    doneTie.bestPlayer = 1 ∧ doneTie.bestDifference = 1574961 / 524288 ∧
    doneTie.bestDifference ≠ difference_exact 14004 := by
  have e1 : halfTie.bestDifference = 6299845 / 2097152 := rfl
  have e2 : doneTie.bestDifference = 1574961 / 524288 := rfl
  refine ⟨Reachable.next (sample [0] 17996) round2_reachable (congrArg some halfTie_eq),
    rfl, rfl, rfl, rfl, rfl, rfl, doneTie_eq, rfl, ?_, ?_, rfl, rfl, ?_⟩
  · norm_num [difference_exact, targetTime, abs_div]
  · rw [e1]; norm_num [difference_exact, targetTime, abs_div]
  · rw [e2]; norm_num [difference_exact, targetTime, abs_div]

/-- C15, amended: in a multiplayer `wait_target` step, for every player `i` the
loop records (the indices `pre` before `i` are handled without ending the
round, button `i` reads pressed and player `i` was not recorded), with `t`
the recorded time and `d` the 32-bit float `fabs(t / 1000.0 - 11.0)` that the
code computes (`difference t`): if `d` is strictly less than the
`bestDifference` current when `i` is recorded, `bestDifference` becomes `d`
and `bestPlayer` becomes `i`; if `d` is equal to it or greater, both are left
unchanged; the step then ends the round or goes on with the indices after
`i`.  The rule holds for every recording (`record_press`). -/
theorem tie_break_rule (s : Globals) (pins : Nat → Bool) (clk : Nat → Nat)
    (pre rest : List Nat) (i : Nat)
    (hn : 2 ≤ s.selectedTimingPlayers)
    (hl : List.range s.selectedTimingPlayers.toNat = pre ++ i :: rest)
    (hu : (wait_target_loop pins clk pre s).state = GameState.WAIT_TARGET)
    (hpi : digital_read_btn pins i = true) (h0 : s.playerPressed i = 0) :
    (∀ (u : Globals) (j now : Nat),
      (difference (sub32 (millis now) u.timingStartTime) < u.bestDifference →
        (record_press u j now).bestDifference = difference (sub32 (millis now) u.timingStartTime)
        ∧ (record_press u j now).bestPlayer = (j : Int)) ∧
      (u.bestDifference ≤ difference (sub32 (millis now) u.timingStartTime) →
        (record_press u j now).bestDifference = u.bestDifference ∧
        (record_press u j now).bestPlayer = u.bestPlayer)) ∧
    (wait_target_loop pins clk pre s).playerPressed i = 0 ∧
    (record_press (wait_target_loop pins clk pre s) i (clk i)).playerPressed i = 1 ∧
    (record_press (wait_target_loop pins clk pre s) i (clk i)).playerTimes i
      = sub32 (millis (clk i)) s.timingStartTime ∧
    (difference (sub32 (millis (clk i)) s.timingStartTime)
        < (wait_target_loop pins clk pre s).bestDifference →
      (record_press (wait_target_loop pins clk pre s) i (clk i)).bestDifference
        = difference (sub32 (millis (clk i)) s.timingStartTime) ∧
      (record_press (wait_target_loop pins clk pre s) i (clk i)).bestPlayer = (i : Int)) ∧
    ((wait_target_loop pins clk pre s).bestDifference
        ≤ difference (sub32 (millis (clk i)) s.timingStartTime) →
      (record_press (wait_target_loop pins clk pre s) i (clk i)).bestDifference
        = (wait_target_loop pins clk pre s).bestDifference ∧
      (record_press (wait_target_loop pins clk pre s) i (clk i)).bestPlayer
        = (wait_target_loop pins clk pre s).bestPlayer) ∧
    wait_target s pins clk =
      (if (record_press (wait_target_loop pins clk pre s) i (clk i)).playersFinished
          ≥ (record_press (wait_target_loop pins clk pre s) i (clk i)).selectedTimingPlayers
       then { record_press (wait_target_loop pins clk pre s) i (clk i) with
              state := GameState.TARGET_RESULT }
       else wait_target_loop pins clk rest
              (record_press (wait_target_loop pins clk pre s) i (clk i))) := by
  have hrule : ∀ (u : Globals) (j now : Nat),
      (difference (sub32 (millis now) u.timingStartTime) < u.bestDifference →
        (record_press u j now).bestDifference = difference (sub32 (millis now) u.timingStartTime)
        ∧ (record_press u j now).bestPlayer = (j : Int)) ∧
      (u.bestDifference ≤ difference (sub32 (millis now) u.timingStartTime) →
        (record_press u j now).bestDifference = u.bestDifference ∧
        (record_press u j now).bestPlayer = u.bestPlayer) := by
    intro u j now
    rw [record_press_eq]
    constructor
    · intro hlt
      simp only [if_pos hlt]
      exact ⟨trivial, trivial⟩
    · intro hge
      simp only [if_neg (not_lt.2 hge)]
      exact ⟨trivial, trivial⟩
  have hnd : (pre ++ i :: rest).Nodup := hl ▸ List.nodup_range _
  have hip : i ∉ pre := by
    intro hm
    have := List.disjoint_of_nodup_append hnd hm (List.mem_cons_self _ _)
    exact this
  have hu0 : (wait_target_loop pins clk pre s).playerPressed i = 0 := by
    rw [wait_target_loop_untouched pins clk pre s i hip]; exact h0
  have hstart : (wait_target_loop pins clk pre s).timingStartTime = s.timingStartTime := by
    have hf := (wait_target_loop_frame pins clk pre s).1
    unfold TimingFrame at hf
    rw [hf]
  have hrec := hrule (wait_target_loop pins clk pre s) i (clk i)
  rw [hstart] at hrec
  refine ⟨hrule, hu0, ?_, ?_, hrec.1, hrec.2, ?_⟩
  · simp [record_press_pressed]
  · rw [record_press_eq, hstart]
    simp
  · rw [wait_target_multi s pins clk hn, hl, wait_target_loop_append pins clk pre _ s hu,
      wait_target_loop_cons, if_pos ⟨hpi, hu0⟩]

/-- Witness of C15: both players of `round2` press in the same step, 10800 ms
after the start.  Player 0 is recorded first and is the best with the float
difference `209715 / 2^20`; player 1 has the same float difference and does
not replace player 0. -/
theorem tie_break_rule_witness :
    wait_target_loop (pressed [0, 1]) (fun _ => 20800) [0] round2 = halfClose ∧
    halfClose.bestPlayer = 0 ∧ halfClose.bestDifference = 209715 / 1048576 ∧
    difference 10800 = 209715 / 1048576 ∧
    (record_press halfClose 1 20800).playerTimes 1 = 10800 ∧
    (record_press halfClose 1 20800).bestPlayer = 0 ∧
    (record_press halfClose 1 20800).bestDifference = 209715 / 1048576 ∧
    wait_target round2 (pressed [0, 1]) (fun _ => 20800)
      = { record_press halfClose 1 20800 with state := GameState.TARGET_RESULT } := by
  have h := tie_break_rule round2 (pressed [0, 1]) (fun _ => 20800) [0] [] 1 (by decide)
    (by decide) (by rw [halfClose_loop]; rfl) (by decide) rfl
  rw [halfClose_loop] at h
  have ht : sub32 (millis 20800) round2.timingStartTime = 10800 := by decide
  rw [ht] at h
  have hle : halfClose.bestDifference ≤ difference 10800 := by
    rw [difference_10800]; exact le_refl _
  have hkeep := h.2.2.2.2.2.1 hle
  have hfin : (record_press halfClose 1 20800).playersFinished
      ≥ (record_press halfClose 1 20800).selectedTimingPlayers := by
    rw [record_press_eq]; decide
  have hw := h.2.2.2.2.2.2
  rw [if_pos hfin] at hw
  exact ⟨halfClose_loop, rfl, rfl, difference_10800, h.2.2.2.1, hkeep.2, hkeep.1, hw⟩

/-- C19, as stated, fails: in the menu a menu button read pressed on two
consecutive polls toggles the mode on the second poll as well. -/
theorem edge_triggered_counterexample :
    ¬ (∀ s : Globals, Reachable s → s.state = GameState.MENU →
        ∀ pins : Nat → Bool, pins 0 = true → pins 1 = false →
          handle_menu (handle_menu s pins) pins = handle_menu s pins) := by
  intro h
  have h1 := h initial Reachable.init rfl (pressed [0]) (by decide) (by decide)
  have h2 : (handle_menu (handle_menu initial (pressed [0])) (pressed [0])).mode
      = GameMode.MODE_REFLEX := by decide
  have h3 : (handle_menu initial (pressed [0])).mode = GameMode.MODE_TIMING := by decide
  rw [h1, h3] at h2
  exact absurd h2 (by decide)

/-- C19, amended: the menu and select buttons are level-triggered. A menu button
read pressed (`pinsM`) acts on every poll: one poll changes the mode or the
reflex mode and a second one changes it back, and two polls advance the
difficulty and the player count by two. A select button read pressed
(`x`) on two consecutive polls of the main loop triggers the transition of
the menu and then the transition of the state so entered. -/
theorem level_triggered (s : Globals) (pinsM : Nat → Bool) (x : Input)
    (hm0 : pinsM 0 = true) (hm1 : pinsM 1 = false)
    (hs0 : x.pins 0 = false) (hs1 : x.pins 1 = true) :
    ((handle_menu s pinsM).mode ≠ s.mode ∧
      (handle_menu (handle_menu s pinsM) pinsM).mode = s.mode) ∧
    ((select_reflex_mode s pinsM).reflexMode ≠ s.reflexMode ∧
      (select_reflex_mode (select_reflex_mode s pinsM) pinsM).reflexMode = s.reflexMode) ∧
    (0 ≤ s.selectedDifficulty ∧ s.selectedDifficulty < 4 →
      (select_difficulty s pinsM).selectedDifficulty = (s.selectedDifficulty + 1) % 4 ∧
      (select_difficulty (select_difficulty s pinsM) pinsM).selectedDifficulty
        = (s.selectedDifficulty + 2) % 4) ∧
    (1 ≤ s.selectedTimingPlayers ∧ s.selectedTimingPlayers ≤ 4 →
      ∀ now, (select_timing_players s pinsM now).selectedTimingPlayers
          = s.selectedTimingPlayers % 4 + 1 ∧
        (select_timing_players (select_timing_players s pinsM now) pinsM now).selectedTimingPlayers
          = (s.selectedTimingPlayers + 1) % 4 + 1) ∧
    (s.state = GameState.MENU →
      ∃ t u, step s x = some t ∧ step t x = some u ∧
        (s.mode = GameMode.MODE_REFLEX →
          t.state = GameState.SELECT_REFLEX_MODE ∧
          (s.reflexMode = ReflexMode.SINGLE_PLAYER → u.state = GameState.SELECT_DIFFICULTY) ∧
          (s.reflexMode = ReflexMode.MULTIPLAYER → u.state = GameState.WAIT_SIGNAL)) ∧
        (s.mode = GameMode.MODE_TIMING →
          t.state = GameState.SELECT_TIMING_PLAYERS ∧ u.state = GameState.WAIT_TARGET)) := by
  have r0 := read_btn_of_lt pinsM 0 (by decide)
  have r1 := read_btn_of_lt pinsM 1 (by decide)
  have q0 := read_btn_of_lt x.pins 0 (by decide)
  have q1 := read_btn_of_lt x.pins 1 (by decide)
  refine ⟨?_, ?_, ?_, ?_, ?_⟩
  · unfold handle_menu
    rw [r0, r1]
    cases hm : s.mode <;> simp [hm0, hm1, hm]
  · unfold select_reflex_mode
    rw [r0, r1]
    cases hm : s.reflexMode <;> simp [hm0, hm1, hm]
  · intro hd
    simp only [select_difficulty_menu _ pinsM hm0]
    have hd4 : s.selectedDifficulty = 0 ∨ s.selectedDifficulty = 1 ∨ s.selectedDifficulty = 2 ∨
        s.selectedDifficulty = 3 := by omega
    rcases hd4 with e | e | e | e <;> rw [e] <;> decide
  · intro hn now
    simp only [select_timing_players_menu _ pinsM now hm0]
    have hn4 : s.selectedTimingPlayers = 1 ∨ s.selectedTimingPlayers = 2 ∨
        s.selectedTimingPlayers = 3 ∨ s.selectedTimingPlayers = 4 := by omega
    rcases hn4 with e | e | e | e <;> rw [e] <;> decide
  · intro hst
    cases hmode : s.mode with
    | MODE_REFLEX =>
      have ht : (handle_menu s x.pins).state = GameState.SELECT_REFLEX_MODE := by
        unfold handle_menu
        rw [q0, q1]
        simp [hs0, hs1, hmode]
      have hrm : (handle_menu s x.pins).reflexMode = s.reflexMode := by
        unfold handle_menu
        rw [q0, q1]
        simp [hs0, hs1, hmode]
      refine ⟨handle_menu s x.pins, select_reflex_mode (handle_menu s x.pins) x.pins, ?_, ?_,
        ?_, ?_⟩
      · unfold step; rw [hst]
      · unfold step; rw [ht]
      · intro _
        refine ⟨ht, ?_, ?_⟩
        · intro hsingle
          unfold select_reflex_mode
          rw [q0, q1]
          simp [hs0, hs1, hrm, hsingle]
        · intro hmulti
          unfold select_reflex_mode
          rw [q0, q1]
          simp [hs0, hs1, hrm, hmulti]
      · intro hc
        exact absurd hc (by decide)
    | MODE_TIMING =>
      have ht : (handle_menu s x.pins).state = GameState.SELECT_TIMING_PLAYERS := by
        unfold handle_menu
        rw [q0, q1]
        simp [hs0, hs1, hmode]
      refine ⟨handle_menu s x.pins, select_timing_players (handle_menu s x.pins) x.pins x.now,
        ?_, ?_, ?_, ?_⟩
      · unfold step; rw [hst]
      · unfold step; rw [ht]
      · intro hc
        exact absurd hc (by decide)
      · intro _
        refine ⟨ht, ?_⟩
        unfold select_timing_players
        rw [q0, q1]
        simp [hs0, hs1]

/-- Witness of C19: from the initial state two polls with the menu button
pressed give the reflex mode back, and two polls with select pressed reach
the difficulty selection. -/
theorem level_triggered_witness :
    (handle_menu initial (pressed [0])).mode ≠ initial.mode ∧
    (handle_menu (handle_menu initial (pressed [0])) (pressed [0])).mode = initial.mode ∧
    ∃ t u, step initial (sample [1] 3000) = some t ∧ step t (sample [1] 3500) = some u ∧
      t.state = GameState.SELECT_REFLEX_MODE ∧ u.state = GameState.SELECT_DIFFICULTY :=
  have h := level_triggered initial (pressed [0]) (sample [1] 3000) (by decide) (by decide)
    (by decide) (by decide)
  ⟨h.1.1, h.1.2, _, _, rfl, rfl, rfl, rfl⟩

/-! ## Feedback tone of the timing result: properties -/

theorem slow1_reachable : Reachable slow1 :=
  Reachable.next (sample [0] 65000) round1_reachable rfl

theorem slow1_eq :
    slow1 = { round1 with state := GameState.TARGET_RESULT, timingReactionTime := 55000,
                          timingButtonPressed := 0,
                          led := Function.update (fun _ => false) 0 true } := by
  have hp : first_pressed (pressed [0]) = some 0 := by decide
  have hn : round1.selectedTimingPlayers = 1 := rfl
  unfold slow1 wait_target
  rw [if_pos hn, hp]
  rfl

/-- The float closeness `1 - diff / targetTime` of `tone_value`. -/
theorem closeness_anti {d e : ℚ} (h : d ≤ e) :
    f32 (1 - f32 (e / targetTime)) ≤ f32 (1 - f32 (d / targetTime)) := by
  apply f32_mono
  have : f32 (d / targetTime) ≤ f32 (e / targetTime) :=
    f32_mono (div_le_div_of_nonneg_right h (by norm_num [targetTime]))
  linarith

theorem tone_value_anti {d e : ℚ} (h : d ≤ e) : tone_value e ≤ tone_value d := by
  unfold tone_value
  apply f32_mono
  have h1 := closeness_anti h
  have h2 : f32 (500 * f32 (1 - f32 (e / targetTime)))
      ≤ f32 (500 * f32 (1 - f32 (d / targetTime))) := f32_mono (by linarith)
  linarith

theorem tone_value_0 : tone_value 0 = 1500 := by decide!

theorem tone_value_11 : tone_value 11 = 1000 := by decide!

theorem tone_value_33 : tone_value 33 = 0 := by decide!

theorem tone_value_above_11 : tone_value (11534337 / 1048576) = 16383999 / 16384 := by decide!

theorem closeness_above_11 :
    f32 (1 - f32 ((11534337 / 1048576 : ℚ) / targetTime)) = -(1 / 8388608) := by decide!

theorem tone_value_last : tone_value (8656519 / 262144) = -(16383 / 16384) := by decide!

theorem tone_value_undefined : tone_value (8656520 / 262144) = -(16387 / 16384) := by decide!

theorem difference_le_target (t : Nat) : difference t ≤ targetTime ↔ t ≤ 22000 := by
  have e0 : time_in_sec 0 = 0 := by decide!
  have e1 : time_in_sec 22000 = 22 := by decide!
  have e2 : f32 (time_in_sec 22001 - targetTime) = 1441923 / 131072 := by decide!
  have e3 : f32 (-11) = -11 := by decide!
  have e4 : f32 11 = 11 := by decide!
  unfold difference
  constructor
  · intro h
    by_contra hlt
    have h1 : 22001 ≤ t := by omega
    have h2 := time_in_sec_mono h1
    have h3 : f32 (time_in_sec 22001 - targetTime) ≤ f32 (time_in_sec t - targetTime) :=
      f32_mono (by linarith)
    rw [e2] at h3
    have h4 := le_abs_self (f32 (time_in_sec t - targetTime))
    unfold targetTime at h h3 h4
    linarith
  · intro h
    have h1 := time_in_sec_mono h
    have h0 := time_in_sec_mono (Nat.zero_le t)
    rw [e1] at h1
    rw [e0] at h0
    unfold targetTime
    rw [abs_le]
    constructor
    · rw [← e3]; exact f32_mono (by linarith)
    · rw [← e4]; exact f32_mono (by linarith)

/-- The float value of the tone formula is within `1/4000` of its exact value
for every difference from 0 to 34 s. -/
theorem tone_value_err (d : ℚ) (h0 : 0 ≤ d) (h34 : d ≤ 34) :
    |tone_value d - tone_exact d| ≤ 1 / 4000 := by
  unfold tone_value tone_exact targetTime
  have a1 := f32_err (d / 11) 1 (by norm_num) (by
    rw [abs_of_nonneg (by positivity)]; norm_num
    rw [div_lt_iff₀ (by norm_num)]; linarith)
  rw [abs_le] at a1
  have b0 : 0 ≤ d / 11 := by positivity
  have b1 : d / 11 ≤ 34 / 11 := by
    rw [div_le_div_iff_of_pos_right (by norm_num : (0 : ℚ) < 11)]; exact h34
  norm_num at a1
  have a2 := f32_err (1 - f32 (d / 11)) 1 (by norm_num) (by
    rw [abs_lt]; norm_num; constructor <;> linarith)
  rw [abs_le] at a2
  norm_num at a2
  have a3 := f32_err (500 * f32 (1 - f32 (d / 11))) 10 (by norm_num) (by
    rw [abs_lt]; norm_num; constructor <;> linarith)
  rw [abs_le] at a3
  norm_num at a3
  have a4 := f32_err (1000 + f32 (500 * f32 (1 - f32 (d / 11)))) 10 (by norm_num) (by
    rw [abs_lt]; norm_num; constructor <;> linarith)
  rw [abs_le] at a4
  norm_num at a4
  rw [abs_le]
  constructor <;> linarith

theorem floor_near (v x : ℚ) (h : v ≤ x + 1) : ⌊v⌋₊ ≤ ⌊x⌋₊ + 1 := by
  rcases lt_or_le x 0 with hx | hx
  · have : ⌊v⌋₊ = 0 := Nat.floor_eq_zero.2 (by linarith)
    omega
  · rw [← Nat.floor_add_one hx]
    exact Nat.floor_mono h

theorem float_above_11 (d q : ℚ) (hq : d = |f32 q|) (h : 11 < d) :
    11534337 / 1048576 ≤ d := by
  rcases lt_or_le d 16 with h16 | h16
  · rw [hq, abs_f32] at h h16 ⊢
    have := round_magnitude_succ |q| 3 11534336 (by norm_num) (by norm_num)
      (by norm_num; linarith) (by norm_num; linarith) (by norm_num; linarith)
    norm_num at this
    linarith
  · linarith

theorem float_above_last (d q : ℚ) (hq : d = |f32 q|) (h : 8656519 / 262144 < d) :
    8656520 / 262144 ≤ d := by
  rcases lt_or_le d 64 with h64 | h64
  · rw [hq, abs_f32] at h h64 ⊢
    have := round_magnitude_succ |q| 5 8656519 (by norm_num) (by norm_num)
      (by norm_num; linarith) (by norm_num; linarith) (by norm_num; linarith)
    norm_num at this
    linarith
  · linarith

theorem tone_frequency_some (d : ℚ) (f : Nat) (h : tone_frequency d = some f) :
    -1 < tone_value d ∧ f = ⌊tone_value d⌋₊ := by
  unfold tone_frequency float_to_uint16 at h
  split_ifs at h with hc
  simp only [Option.some.injEq] at h
  exact ⟨hc.1, h.symm⟩

theorem tone_frequency_defined (d : ℚ) (h0 : 0 ≤ d) (h : -1 < tone_value d) :
    tone_frequency d = some ⌊tone_value d⌋₊ := by
  have hv : tone_value d < 65536 := by
    have := tone_value_anti h0
    rw [tone_value_0] at this
    linarith
  unfold tone_frequency float_to_uint16
  rw [if_pos ⟨h, hv⟩]

/-- C17, amended: the frequency passed to the tone is the float
`1000 + 500 * (1 - d / targetTime)`, each of its four operations rounded to a
32-bit float, with the fractional part discarded.  For every float
difference `d >= 0` (`d` is the magnitude of a 32-bit float): the conversion
to `uint16_t` is defined exactly when `d <= 8656519 / 2^18 = 33.02199936`
(the last float below 33.022); the frequency lies in `[1000, 1500]` exactly
when `d <= targetTime` (an elapsed time of at most 22000 ms in the
single-player round); a smaller difference never gives a lower frequency;
for `d > targetTime` the float closeness `1 - d / targetTime` is negative and
the frequency, where defined, is below 1000; at `d = 3 * targetTime` it
is 0.  The float differs from the exact value of the formula (`tone_exact`)
by at most `1/4000`, so the frequency differs from the truncation of the
exact value by at most one. -/
theorem tone_pitch (d q : ℚ) (hq : d = |f32 q|) :
    ((∃ f, tone_frequency d = some f) ↔ d ≤ 8656519 / 262144) ∧
    (d ≤ 8656519 / 262144 →
      tone_frequency d
        = some ⌊f32 (1000 + f32 (500 * f32 (1 - f32 (d / targetTime))))⌋₊) ∧
    ((∃ f, tone_frequency d = some f ∧ 1000 ≤ f ∧ f ≤ 1500) ↔ d ≤ targetTime) ∧
    (∀ (e : ℚ) (f g : Nat), e ≤ d → tone_frequency e = some f →
      tone_frequency d = some g → g ≤ f) ∧
    (targetTime < d →
      f32 (1 - f32 (d / targetTime)) < 0 ∧ ∀ f, tone_frequency d = some f → f < 1000) ∧
    tone_frequency (3 * targetTime) = some 0 ∧
    (∀ t : Nat, difference t ≤ targetTime ↔ t ≤ 22000) ∧
    (d ≤ 8656519 / 262144 → |tone_value d - tone_exact d| ≤ 1 / 4000) ∧
    (∀ f, tone_frequency d = some f →
      f ≤ ⌊tone_exact d⌋₊ + 1 ∧ ⌊tone_exact d⌋₊ ≤ f + 1) := by
  have h0 : 0 ≤ d := by rw [hq]; exact abs_nonneg _
  have herr : d ≤ 8656519 / 262144 → |tone_value d - tone_exact d| ≤ 1 / 4000 :=
    fun h => tone_value_err d h0 (by linarith)
  have hlast : d ≤ 8656519 / 262144 → -1 < tone_value d := by
    intro h
    have := tone_value_anti h
    rw [tone_value_last] at this
    linarith
  have hbig : targetTime < d → tone_value d < 1000 := by
    intro h
    have h1 := float_above_11 d q hq (by unfold targetTime at h; exact h)
    have := tone_value_anti h1
    rw [tone_value_above_11] at this
    linarith
  have hdef : (∃ f, tone_frequency d = some f) → d ≤ 8656519 / 262144 := by
    rintro ⟨f, hf⟩
    have h1 := (tone_frequency_some d f hf).1
    by_contra hgt
    have h2 := float_above_last d q hq (not_le.1 hgt)
    have := tone_value_anti h2
    rw [tone_value_undefined] at this
    linarith
  refine ⟨?_, ?_, ?_, ?_, ?_, ?_, difference_le_target, herr, ?_⟩
  rotate_right
  · intro f hf
    have h1 := abs_le.1 (herr (hdef ⟨f, hf⟩))
    rw [(tone_frequency_some d f hf).2]
    exact ⟨floor_near _ _ (by linarith), floor_near _ _ (by linarith)⟩
  · exact ⟨hdef, fun h => ⟨_, tone_frequency_defined d h0 (hlast h)⟩⟩
  · intro h
    exact tone_frequency_defined d h0 (hlast h)
  · constructor
    · rintro ⟨f, hf, h1, _⟩
      obtain ⟨h2, h3⟩ := tone_frequency_some d f hf
      by_contra hgt
      have h4 := hbig (not_le.1 hgt)
      have h5 : f < 1000 := by
        rw [h3]
        by_cases hnn : 0 ≤ tone_value d
        · exact (Nat.floor_lt hnn).2 (by push_cast; exact h4)
        · rw [Nat.floor_of_nonpos (le_of_lt (not_le.1 hnn))]
          decide
      omega
    · intro hle
      have h1 : (1000 : ℚ) ≤ tone_value d := by
        have := tone_value_anti (show d ≤ 11 from hle)
        rw [tone_value_11] at this
        exact this
      have h2 : tone_value d ≤ 1500 := by
        have := tone_value_anti h0
        rw [tone_value_0] at this
        exact this
      refine ⟨_, tone_frequency_defined d h0 (by linarith), Nat.le_floor (by exact_mod_cast h1), ?_⟩
      have h3 := Nat.floor_le (le_trans (by norm_num) h1)
      have h4 : ((⌊tone_value d⌋₊ : Nat) : ℚ) ≤ ((1500 : Nat) : ℚ) := by
        push_cast
        linarith
      exact_mod_cast h4
  · intro e f g hed hf hg
    rw [(tone_frequency_some e f hf).2, (tone_frequency_some d g hg).2]
    exact Nat.floor_mono (tone_value_anti hed)
  · intro hgt
    refine ⟨?_, ?_⟩
    · have h1 := float_above_11 d q hq (by unfold targetTime at hgt; exact hgt)
      have := closeness_anti h1
      rw [closeness_above_11] at this
      linarith
    · intro f hf
      rw [(tone_frequency_some d f hf).2]
      have h4 := hbig hgt
      by_cases hnn : 0 ≤ tone_value d
      · exact (Nat.floor_lt hnn).2 (by push_cast; exact h4)
      · rw [Nat.floor_of_nonpos (le_of_lt (not_le.1 hnn))]
        decide
  · have h3 : tone_value (3 * targetTime) = 0 := by
      have : (3 : ℚ) * targetTime = 33 := by norm_num [targetTime]
      rw [this, tone_value_33]
    unfold tone_frequency float_to_uint16
    rw [h3, if_pos (by norm_num)]
    simp

theorem near1_reachable : Reachable near1 :=
  Reachable.next (sample [0] 31978) round1_reachable rfl

theorem near1_eq :
    near1 = { round1 with state := GameState.TARGET_RESULT, timingReactionTime := 21978,
                          timingButtonPressed := 0,
                          led := Function.update (fun _ => false) 0 true } := by
  have hp : first_pressed (pressed [0]) = some 0 := by decide
  have hn : round1.selectedTimingPlayers = 1 := rfl
  unfold near1 wait_target
  rw [if_pos hn, hp]
  rfl

theorem tone_value_55000 : tone_value 44 = -500 := by decide!

theorem tone_frequency_21978 : tone_frequency (difference 21978) = some 1000 := by decide!

theorem tone_frequency_44 : tone_frequency (difference 44) = some 1002 := by decide!

theorem tone_exact_21978 : ⌊tone_exact (difference_exact 21978)⌋₊ = 1001 := by decide!

theorem tone_exact_44 : ⌊tone_exact (difference 44)⌋₊ = 1001 := by decide!

theorem tone_frequency_close : tone_frequency (209715 / 1048576) = some 1490 := by decide!

/-- C17, as stated, fails in two ways.  A single-player press 55000 ms after
the start is reachable, its difference is 44 s, the float to convert is
-500, and its conversion to `uint16_t` is undefined, so no frequency below
1000 is passed.  And the frequency is not the truncation of the exact value
of the formula: after the reachable single-player press 21978 ms after the
start the frequency is 1000 where the formula on `|21978/1000 - 11|` gives
1001, and for the float difference of 44 ms the frequency is 1002 where the
exact value of the formula on that same float truncates to 1001. -/
theorem tone_pitch_counterexample :
    ¬ (∀ s : Globals, Reachable s → s.state = GameState.TARGET_RESULT →
        s.selectedTimingPlayers = 1 → targetTime < difference s.timingReactionTime →
        ∃ f, show_timing_result_tone s = some f ∧ f < 1000) ∧
    (Reachable near1 ∧ near1.state = GameState.TARGET_RESULT ∧
      near1.selectedTimingPlayers = 1 ∧ near1.timingReactionTime = 21978 ∧
      show_timing_result_tone near1 = some 1000 ∧
      ⌊tone_exact (difference_exact 21978)⌋₊ = 1001) ∧
    (tone_frequency (difference 44) = some 1002 ∧ ⌊tone_exact (difference 44)⌋₊ = 1001) := by
  refine ⟨?_, ⟨near1_reachable, by rw [near1_eq], by rw [near1_eq]; rfl, by rw [near1_eq], ?_,
    tone_exact_21978⟩, tone_frequency_44, tone_exact_44⟩
  · intro h
    have h1 : slow1.state = GameState.TARGET_RESULT := by rw [slow1_eq]
    have h2 : slow1.selectedTimingPlayers = 1 := by rw [slow1_eq]; rfl
    have h3 : slow1.timingReactionTime = 55000 := by rw [slow1_eq]
    obtain ⟨f, hf, _⟩ := h slow1 slow1_reachable h1 h2
      (by rw [h3, difference_55000]; norm_num [targetTime])
    unfold show_timing_result_tone at hf
    rw [if_pos h2, h3, difference_55000] at hf
    unfold tone_frequency float_to_uint16 at hf
    rw [tone_value_55000, if_neg (by norm_num)] at hf
    exact absurd hf (by simp)
  · have h2 : near1.selectedTimingPlayers = 1 := by rw [near1_eq]; rfl
    have h3 : near1.timingReactionTime = 21978 := by rw [near1_eq]
    unfold show_timing_result_tone
    rw [if_pos h2, h3, tone_frequency_21978]

/-- Witness of C17: for the float difference of 10800 ms, `209715 / 2^20`, the
frequency is 1490; it is in `[1000, 1500]`. -/
theorem tone_pitch_witness :
    tone_frequency (209715 / 1048576) = some 1490 ∧
    (∃ f, tone_frequency (209715 / 1048576) = some f ∧ 1000 ≤ f ∧ f ≤ 1500) ∧
    difference 10800 = 209715 / 1048576 :=
  have h := tone_pitch (209715 / 1048576) (209715 / 1048576) (by decide!)
  ⟨tone_frequency_close, h.2.2.1.2 (by norm_num [targetTime]), difference_10800⟩

/-! ## Text of a float on the LCD: properties -/

theorem quickWin_reachable : Reachable quickWin :=
  Reachable.next (sample [0] 6251) easyTrial_reachable rfl

theorem quickWin_eq :
    quickWin = { easyTrial with reflexReactionTime := 251, winnerPlayer := 0,
                                led := Function.update easyTrial.led 0 true,
                                hasWon := 1, state := GameState.RESULT } := by
  have hp : first_pressed (pressed [0]) = some 0 := by decide
  unfold quickWin
  rw [handle_signal_pressed _ _ _ _ _ hp]
  have h1 : sub32 (millis 6251) easyTrial.reflexSignalStartTime = 251 := by decide
  rw [h1]
  norm_num [easyTrial, initial]

theorem lcd_251 : lcd_print_float (time_in_sec 251) 3 = some ['0', '.', '2', '5', '0'] := by
  decide!

theorem lcd_350 : lcd_print_float (time_in_sec 350) 3 = some ['0', '.', '3', '5', '0'] := by
  decide!

theorem lcd_50 : lcd_print_float (time_in_sec 50) 3 = some ['0', '.', '0', '5', '0'] := by
  decide!

theorem lcd_5 : lcd_print_float (time_in_sec 5) 3 = some ['0', '.', '0', '0', '5'] := by
  decide!

theorem product_251 :
    time_in_sec 251 = 4211081 / 16777216 ∧
    f32 (f32 (time_in_sec 251 - f32 0) * pow10 3) = 16449535 / 65536 := by
  decide!

/-- C18, the code at the failing input: a press 251 ms after the signal of a
single-player trial on Easy is reachable and wins.  The float `251 / 1000.0`
is `4211081 / 2^24 = 0.25099998712539673`, the float product
`(num - whole) * pow(10, 3)` is `16449535 / 2^16 = 250.99998474121094`, its
conversion to `int` is 250, and the result screen shows `Timp: 0.250s`; in
exact arithmetic the text is `0.251`.  For 350 ms, 50 ms and 5 ms the texts
are `0.350`, `0.050` and `0.005`. -/
theorem reaction_time_rendering_low :
    Reachable quickWin ∧ quickWin.state = GameState.RESULT ∧
    quickWin.reflexReactionTime = 251 ∧ quickWin.winnerPlayer = 0 ∧ quickWin.hasWon = 1 ∧
    time_in_sec 251 = 4211081 / 16777216 ∧
    f32 (f32 (time_in_sec 251 - f32 0) * pow10 3) = 16449535 / 65536 ∧
    lcd_print_float (time_in_sec 251) 3 = some ['0', '.', '2', '5', '0'] ∧
    exact_text 251 = ['0', '.', '2', '5', '1'] ∧
    show_reflex_result_time quickWin =
      some ['T', 'i', 'm', 'p', ':', ' ', '0', '.', '2', '5', '0', 's'] ∧
    lcd_print_float (time_in_sec 350) 3 = some (exact_text 350) ∧
    lcd_print_float (time_in_sec 50) 3 = some (exact_text 50) ∧
    lcd_print_float (time_in_sec 5) 3 = some (exact_text 5) := by
  have ht : quickWin.reflexReactionTime = 251 := by rw [quickWin_eq]
  refine ⟨quickWin_reachable, by rw [quickWin_eq], ht, by rw [quickWin_eq],
    by rw [quickWin_eq], product_251.1, product_251.2, lcd_251, by decide, ?_,
    lcd_350.trans (by decide), lcd_50.trans (by decide), lcd_5.trans (by decide)⟩
  unfold show_reflex_result_time
  rw [ht, lcd_251]
  rfl

end TimeStrike
